import Mathlib

/-!
# blt-foundation: token console handlers

A shallow embedding of the submit handlers of the React components under
`blt-scripts/components` (TokenBurn, TokenTransfer, TokenFreeze,
TokenAuthorityTransfer, TokenCreator, TokenCreatorHelper), and of the network
hooks of `pages/_app.js`, the pages, NetworkSelect and WalletContextProvider.

Conventions of the embedding.

* A handler is a computation over a `World`: the `loading` and `status` hooks,
  the remaining hook values of the component, and a chronological log of what
  the handler did to the outside (state setters, network requests, assembled
  transactions, wallet submissions, storage writes, timers).
* A handler reads hook values from the render snapshot it closed over (its
  arguments) and writes through setters, as a React closure does.
* Everything supplied by the runtime or by an SDK (public-key decoding, curve
  membership, address derivation, RPC answers, wallet answers, string/number
  conversions of the language) is a field of `Env`.
* Numbers are `JSNum`: NaN, the two infinities, and finite values as rationals
  (every double is one). Comparisons, `Math.floor` and `BigInt(x)` are exact on
  doubles and are computed. The operations that round to the nearest double
  (product, quotient, power of ten, `Number` of a large integer) are answers of
  the runtime, fields of `Env`; so are the SDK instruction constructors that
  throw while encoding an amount.
* A thrown JavaScript error is represented by its `message`.
* `console.log` and `console.error` calls are not represented.
-/

namespace BLT

/-! ## JavaScript numbers -/

/-- A JavaScript number: NaN, a finite value, or an infinity. -/
inductive JSNum where
  | nan
  | fin (q : ℚ)
  | posInf
  | negInf
  deriving DecidableEq

namespace JSNum

/-- The test `isNaN(x)` on a number. -/
def isNaN : JSNum → Bool
  | nan => true
  | _ => false

/-- The comparison `x <= 0`. -/
def le0 : JSNum → Bool
  | fin q => decide (q ≤ 0)
  | negInf => true
  | _ => false

/-- The comparison `x > y`. -/
def gt : JSNum → JSNum → Bool
  | fin a, fin b => decide (b < a)
  | posInf, fin _ => true
  | posInf, negInf => true
  | fin _, negInf => true
  | _, _ => false

/-- The rounding `Math.floor(x)`. -/
def floor : JSNum → JSNum
  | fin q => fin (⌊q⌋ : ℤ)
  | x => x

/-- The conversion `BigInt(x)`: defined on integral finite numbers, a RangeError otherwise. -/
def toBigInt : JSNum → Option Int
  | fin q => if q.den = 1 then some q.num else none
  | _ => none

end JSNum

/-! ## Keys, instructions, records -/

/-- A decoded public key, identified by its base58 text. -/
structure PublicKey where
  toBase58 : String
  deriving DecidableEq

/-- The two SPL authority kinds the console uses. -/
inductive AuthorityType where
  | MintTokens
  | FreezeAccount
  deriving DecidableEq

/-- An instruction object as returned by one of the SDK constructors, with the
arguments in the order the source passes them. -/
inductive Instr where
  | createAccount (fromPubkey newAccountPubkey : PublicKey) (space lamports : Nat) (programId : PublicKey)
  | initializeMint (mint : PublicKey) (decimals : JSNum) (mintAuthority : PublicKey)
      (freezeAuthority : Option PublicKey) (programId : PublicKey)
  | createAssociatedTokenAccount (payer associatedToken owner mint : PublicKey)
  | mintTo (mint destination authority : PublicKey) (amount : JSNum)
      (multiSigners : List PublicKey) (programId : PublicKey)
  | setAuthority (account currentAuthority : PublicKey) (authorityType : AuthorityType)
      (newAuthority : Option PublicKey) (multiSigners : List PublicKey) (programId : PublicKey)
  | burn (account mint owner : PublicKey) (amount : JSNum)
      (multiSigners : List PublicKey) (programId : PublicKey)
  | transfer (source destination owner : PublicKey) (amount : Int)
      (multiSigners : List PublicKey) (programId : PublicKey)
  | freezeAccount (account mint authority : PublicKey)
      (multiSigners : List PublicKey) (programId : PublicKey)
  | thawAccount (account mint authority : PublicKey)
      (multiSigners : List PublicKey) (programId : PublicKey)
  deriving DecidableEq

/-- The record `burnRecord` of TokenBurn.js. -/
structure BurnRecord where
  signature : String
  mintAddress : String
  amount : String
  burnAmountRaw : String
  decimals : Nat
  timestamp : String
  network : String
  status : String
  deriving DecidableEq

/-- The token account object returned by `getAccount`. `mint_decimals` is what the
source reads at `info.mint._decimals` (absent when the object has no such field). -/
structure Account where
  address : PublicKey
  mint : PublicKey
  owner : PublicKey
  amount : Nat
  isFrozen : Bool
  mint_decimals : Option Nat
  deriving DecidableEq

/-- The mint object returned by `getMint`. -/
structure MintInfo where
  address : PublicKey
  decimals : Nat
  supply : Nat
  mintAuthority : Option PublicKey
  freezeAuthority : Option PublicKey
  deriving DecidableEq

/-- The arguments of `metaplex.nfts().createSft`. -/
structure SftInput where
  uri : String
  name : String
  symbol : String
  sellerFeeBasisPoints : Nat
  isMutable : Bool
  useNewMint : PublicKey
  deriving DecidableEq

/-! ## Log of outside effects -/

/-- A request that leaves the browser: RPC calls of `connection` and Metaplex operations. -/
inductive Call where
  | getAccount (address : PublicKey)
  | getMint (address : PublicKey)
  | getLatestBlockhash
  | getMinimumBalanceForRentExemptMint
  | confirmTransaction (signature : String)
  | metaplexFindByMint (mintAddress : PublicKey)
  | metaplexUpdate (mintAddress updateAuthority newUpdateAuthority : PublicKey)
  | metaplexCreateSft (input : SftInput)
  deriving DecidableEq

/-- One step a handler takes that is visible outside of it. -/
inductive Event where
  | setLoading (b : Bool)
  | setStatus (s : String)
  | network (c : Call)
  | build (tx : List Instr)
  | send (tx : List Instr) (signers : List PublicKey)
  | storageSet (key : String) (value : List BurnRecord)
  | timer (callback : String) (delayMs : Nat)
  deriving DecidableEq

/-! ## Runtime and SDK -/

/-- What the language runtime, the SDKs, the wallet and the network answer.
`Except.error m` is a rejection or throw with message `m`. -/
structure Env where
  /-- The constructor `new PublicKey(text)`. -/
  newPublicKey : String → Except String PublicKey
  /-- The test `PublicKey.isOnCurve(key.toBuffer())`. -/
  isOnCurve : PublicKey → Bool
  /-- The derivation `getAssociatedTokenAddress(mint, owner)`. -/
  getAssociatedTokenAddress : PublicKey → PublicKey → Except String PublicKey
  getAccount : PublicKey → Except String Account
  getMint : PublicKey → Except String MintInfo
  getLatestBlockhash : Except String String
  getMinimumBalanceForRentExemptMint : Except String Nat
  /-- The wallet call `sendTransaction(tx, connection, options)`; the answer is the signature. -/
  sendTransaction : List Instr → Except String String
  /-- The call `connection.confirmTransaction`; the answer is `value.err` rendered as text, if set. -/
  confirmTransaction : String → Except String (Option String)
  /-- The call `Keypair.generate()`, as the public key of the new pair. -/
  generateKeypair : PublicKey
  metaplexFindByMint : PublicKey → Except String Unit
  metaplexUpdate : PublicKey → PublicKey → PublicKey → Except String Unit
  metaplexCreateSft : SftInput → Except String Unit
  /-- The write `localStorage.setItem(key, JSON.stringify(value))`. -/
  storageSetItem : String → List BurnRecord → Except String Unit
  /-- The clock reading `new Date().toISOString()`. -/
  nowISO : String
  TOKEN_PROGRAM_ID : PublicKey
  MINT_SIZE : Nat
  /-- The conversion `parseFloat(text)`. -/
  parseFloat : String → JSNum
  /-- The conversion `Number(text)`, also applied by `isNaN(text)`. -/
  toNumber : String → JSNum
  /-- The power `10 ** x`, also written `Math.pow(10, x)`, rounded to a double. -/
  pow10Num : JSNum → JSNum
  /-- The product `x * y` of two numbers, rounded to a double. -/
  mul : JSNum → JSNum → JSNum
  /-- The quotient `x / y` of two numbers, rounded to a double. -/
  div : JSNum → JSNum → JSNum
  /-- The conversion `Number(n)` of a bigint or of its decimal text: the double nearest to `n`. -/
  numberOfNat : Nat → JSNum
  /-- The SDK encoding of an instruction amount as an unsigned 64-bit integer; an error
  outside the range it can write. -/
  encodeU64 : Int → Except String Unit
  /-- The rendering `x.toFixed(digits)`; a RangeError when `digits` is out of range. -/
  toFixed : JSNum → Nat → Except String String
  /-- The rendering of a number inside a template string or by `toString()`. -/
  numToString : JSNum → String
  /-- The trimming `text.trim()`. -/
  trim : String → String
  /-- Message of the RangeError thrown by `BigInt(x)` on a non-integral number. -/
  bigIntRangeError : JSNum → String
  /-- Message of the TypeError thrown when a property of `undefined` is read. -/
  undefinedTypeError : String → String

/-- The power `Math.pow(10, d)` (also `10 ** d`) for a number of decimals read from the chain. -/
def Env.pow10 (env : Env) (d : Nat) : JSNum := env.pow10Num (JSNum.fin (d : ℚ))

/-- What the SDK constructors `createBurnInstruction` and `createMintToInstruction` do with
an amount passed as a number: `BigInt(amount)`, a RangeError unless the number is integral,
then the unsigned 64-bit encoding. The constructor returns an instruction only when both
succeed. -/
def Env.instructionAmount (env : Env) (amount : JSNum) : Except String Int :=
  match amount.toBigInt with
  | none => Except.error (env.bigIntRangeError amount)
  | some n =>
    match env.encodeU64 n with
    | Except.error e => Except.error e
    | Except.ok _ => Except.ok n

/-! ## Handler computations -/

/-- Result of running a piece of handler code: a value, or a thrown error message. -/
inductive Outcome (α : Type) where
  | ok (a : α)
  | thrown (message : String)
  deriving DecidableEq

/-- The mutable surroundings of a handler: the `loading` and `status` hooks, the other
hooks of the component, and the log of outside effects so far. -/
structure World (σ : Type) where
  loading : Bool
  status : String
  st : σ
  log : List Event
  deriving DecidableEq

/-- A piece of handler code. State changes made before a throw persist. -/
def JS (σ α : Type) : Type := World σ → Outcome α × World σ

namespace JS

variable {σ α β : Type}

/-- Sequencing: a throw in the first part skips the second. -/
def bind (m : JS σ α) (f : α → JS σ β) : JS σ β := fun w =>
  match m w with
  | (Outcome.ok a, w1) => f a w1
  | (Outcome.thrown e, w1) => (Outcome.thrown e, w1)

instance : Monad (JS σ) where
  pure a := fun w => (Outcome.ok a, w)
  bind := JS.bind

/-- The statement `throw new Error(message)`. -/
def raise (message : String) : JS σ α := fun w => (Outcome.thrown message, w)

/-- Awaiting an answer of the environment: a rejection becomes a throw. -/
def await : Except String α → JS σ α
  | Except.ok a => pure a
  | Except.error e => raise e

/-- Appending one event to the log. -/
def emit (e : Event) : JS σ Unit := fun w => (Outcome.ok (), { w with log := w.log ++ [e] })

/-- The setter `setLoading`. -/
def setLoading (b : Bool) : JS σ Unit := fun w =>
  (Outcome.ok (), { w with loading := b, log := w.log ++ [Event.setLoading b] })

/-- The setter `setStatus`. -/
def setStatus (s : String) : JS σ Unit := fun w =>
  (Outcome.ok (), { w with status := s, log := w.log ++ [Event.setStatus s] })

/-- A setter of one of the other hooks of the component. -/
def modifySt (f : σ → σ) : JS σ Unit := fun w => (Outcome.ok (), { w with st := f w.st })

/-- The statement `try body catch (error) handler(error.message)`. -/
def tryCatch (body : JS σ α) (handler : String → JS σ α) : JS σ α := fun w =>
  match body w with
  | (Outcome.ok a, w1) => (Outcome.ok a, w1)
  | (Outcome.thrown e, w1) => handler e w1

/-- The statement `try body finally cleanup`: the cleanup runs on every exit of the body. -/
def tryFinally (body : JS σ α) (cleanup : JS σ Unit) : JS σ α := fun w =>
  match body w with
  | (r, w1) =>
    match cleanup w1 with
    | (Outcome.ok _, w2) => (r, w2)
    | (Outcome.thrown e, w2) => (Outcome.thrown e, w2)

/-- A network request: logged, then answered by the environment. -/
def request (c : Call) (answer : Except String α) : JS σ α :=
  bind (emit (Event.network c)) (fun _ => await answer)

/-- The world a computation leaves behind. -/
def exec (m : JS σ α) (w : World σ) : World σ := (m w).2

/-- The outcome of a computation. -/
def result (m : JS σ α) (w : World σ) : Outcome α := (m w).1

end JS

/-- The computation leaves a status that was set (not empty) set, on every exit. -/
structure JS.KeepsStatus {σ α : Type} (m : JS σ α) : Prop where
  keeps : ∀ w, w.status ≠ "" → (m w).2.status ≠ ""

/-- The computation leaves the status set (not empty) on every exit, whatever it was. -/
structure JS.SetsStatus {σ α : Type} (m : JS σ α) : Prop where
  sets : ∀ w, (m w).2.status ≠ ""

/-- The transactions handed to the wallet, in order. -/
def sentTxs : List Event → List (List Instr)
  | [] => []
  | Event.send tx _ :: es => tx :: sentTxs es
  | _ :: es => sentTxs es

/-- The transactions assembled, in order. -/
def builtTxs : List Event → List (List Instr)
  | [] => []
  | Event.build tx :: es => tx :: builtTxs es
  | _ :: es => builtTxs es

/-- The network requests issued, in order. -/
def networkCalls : List Event → List Call
  | [] => []
  | Event.network c :: es => c :: networkCalls es
  | _ :: es => networkCalls es

/-- The values passed to `setLoading`, in order. -/
def loadingSets : List Event → List Bool
  | [] => []
  | Event.setLoading b :: es => b :: loadingSets es
  | _ :: es => loadingSets es

/-- The writes to browser storage, in order. -/
def storageWrites : List Event → List (String × List BurnRecord)
  | [] => []
  | Event.storageSet key value :: es => (key, value) :: storageWrites es
  | _ :: es => storageWrites es

/-- The mint authority and the freeze authority of every initialize-mint instruction of a
transaction, in order. -/
def initializeMintAuthorities : List Instr → List (PublicKey × Option PublicKey)
  | [] => []
  | Instr.initializeMint _ _ mintAuthority freezeAuthority _ :: rest =>
    (mintAuthority, freezeAuthority) :: initializeMintAuthorities rest
  | _ :: rest => initializeMintAuthorities rest

/-- Whether an instruction is a set-authority instruction. -/
def Instr.isSetAuthority : Instr → Bool
  | Instr.setAuthority _ _ _ _ _ _ => true
  | _ => false

/-- The test `text.includes(part)` on strings. -/
def includesChars : List Char → List Char → Bool
  | [], part => part.isEmpty
  | c :: cs, part => part.isPrefixOf (c :: cs) || includesChars cs part

/-- The test `text.includes(part)`. -/
def includes (text part : String) : Bool := includesChars text.data part.data

/-! ## TokenTransfer.js -/

namespace TokenTransfer

/-- The hook `formData` of TokenTransfer. -/
structure FormData where
  mintAddress : String
  recipientAddress : String
  amount : String
  deriving DecidableEq

/-- The hooks of TokenTransfer other than `loading` and `status`. -/
structure State where
  accountInfo : Option Account
  formData : FormData
  deriving DecidableEq

/-- The function `isValidSolanaAddress` of TokenTransfer.js: decoding inside a `try`,
then the curve test; any throw gives `false`. -/
def isValidSolanaAddress {σ : Type} (env : Env) (address : String) : JS σ Bool :=
  JS.tryCatch
    (do
      let pubkey ← JS.await (env.newPublicKey address)
      return env.isOnCurve pubkey)
    (fun _ => return false)

/-- What `checkTokenBalance` returns when it returns an object. -/
inductive BalanceResult where
  | found (info : Account)
  | missing (error : String)
  deriving DecidableEq

/-- The field `exists` of the object returned by `checkTokenBalance`. -/
def BalanceResult.exists : BalanceResult → Bool
  | BalanceResult.found _ => true
  | BalanceResult.missing _ => false

/-- The function `checkTokenBalance`; `none` is the bare `return` (undefined). -/
def checkTokenBalance (env : Env) (publicKey : Option PublicKey) (s : State) :
    JS State (Option BalanceResult) :=
  match publicKey with
  | none => return none
  | some publicKey =>
    if s.formData.mintAddress = "" then return none
    else do
      let valid ← isValidSolanaAddress env s.formData.mintAddress
      if !valid then return none
      else
        JS.tryCatch
          (do
            let mintPublicKey ← JS.await (env.newPublicKey s.formData.mintAddress)
            let userTokenAccount ← JS.await (env.getAssociatedTokenAddress mintPublicKey publicKey)
            JS.tryCatch
              (do
                let accountInfo ← JS.request (Call.getAccount userTokenAccount) (env.getAccount userTokenAccount)
                JS.modifySt (fun st => { st with accountInfo := some accountInfo })
                return some (BalanceResult.found accountInfo))
              (fun error => do
                JS.modifySt (fun st => { st with accountInfo := none })
                return some (BalanceResult.missing error)))
          (fun error => do
            JS.modifySt (fun st => { st with accountInfo := none })
            return some (BalanceResult.missing error))

/-- What `createRecipientATA` returns: `created` is set on the creation path only. -/
structure RecipientResult where
  created : Bool
  address : PublicKey
  deriving DecidableEq

/-- The function `createRecipientATA`, with the wallet key of the closure passed in
(the caller has checked that it is set). -/
def createRecipientATA (env : Env) (publicKey mintPublicKey recipientPublicKey : PublicKey) :
    JS State RecipientResult :=
  JS.tryCatch
    (do
      let recipientTokenAccount ← JS.await (env.getAssociatedTokenAddress mintPublicKey recipientPublicKey)
      JS.tryCatch
        (do
          let _ ← JS.request (Call.getAccount recipientTokenAccount) (env.getAccount recipientTokenAccount)
          return { created := false, address := recipientTokenAccount })
        (fun _ => do
          let transaction := [Instr.createAssociatedTokenAccount publicKey recipientTokenAccount
            recipientPublicKey mintPublicKey]
          JS.emit (Event.build transaction)
          JS.emit (Event.send transaction [])
          let signature ← JS.await (env.sendTransaction transaction)
          let _ ← JS.request (Call.confirmTransaction signature) (env.confirmTransaction signature)
          return { created := true, address := recipientTokenAccount }))
    (fun error => JS.raise error)

/-- The error mapping in the `catch` of `transferToken`. -/
def errorMessage (message : String) : String :=
  if includes message "insufficient funds" then "错误: SOL余额不足以支付交易费用"
  else if includes message "0x1" then "错误: 余额不足或账户不存在"
  else if includes message "Transaction was not confirmed" then "错误: 交易未被确认，请检查网络状态"
  else if includes message "TokenOwnerOffCurveError" then
    "错误: 接收方地址无效。接收方必须是一个标准的Solana钱包地址，而不是程序派生地址或非曲线上地址。"
  else "错误: " ++ message

/-- The status shown when the balance check of `transferToken` fails. -/
def insufficientStatus (env : Env) (userTokenBalance tokenDecimals : Nat) : String :=
  "错误: 余额不足。您的余额为 " ++
    env.numToString (env.div (env.numberOfNat userTokenBalance) (env.pow10 tokenDecimals))

/-- The status shown after a confirmed transfer. -/
def successStatus (formData : FormData) : String :=
  "成功转账 " ++ formData.amount ++ " 代币到 " ++ formData.recipientAddress.take 6 ++ "..." ++
    formData.recipientAddress.takeRight 4

/-- The body of the `try` block of `transferToken`. -/
def transferTokenTry (env : Env) (publicKey : PublicKey) (s : State) : JS State Unit := do
  let mintPublicKey ← JS.await (env.newPublicKey s.formData.mintAddress)
  let recipientPublicKey ← JS.await (env.newPublicKey s.formData.recipientAddress)
  let senderAccountResult ← checkTokenBalance env (some publicKey) s
  match senderAccountResult with
  | none => JS.raise (env.undefinedTypeError "exists")
  | some (BalanceResult.missing _) => do
    JS.setStatus "错误: 您没有此代币的关联账户或余额不足"
    JS.setLoading false
  | some (BalanceResult.found info) =>
    let tokenDecimals := info.mint_decimals.getD 0
    match (JSNum.floor (env.mul (env.parseFloat s.formData.amount) (env.pow10 tokenDecimals))).toBigInt with
    | none =>
      JS.raise (env.bigIntRangeError
        (JSNum.floor (env.mul (env.parseFloat s.formData.amount) (env.pow10 tokenDecimals))))
    | some transferAmount =>
      let userTokenBalance := info.amount
      if transferAmount > (userTokenBalance : Int) then do
        JS.setStatus (insufficientStatus env userTokenBalance tokenDecimals)
        JS.setLoading false
      else do
        let userTokenAccount ← JS.await (env.getAssociatedTokenAddress mintPublicKey publicKey)
        JS.setStatus "检查接收方账户..."
        let recipientAccountResult ← createRecipientATA env publicKey mintPublicKey recipientPublicKey
        let recipientTokenAccount := recipientAccountResult.address
        if recipientAccountResult.created then
          JS.setStatus "已为接收方创建代币账户，准备转账..."
        let transferTransaction := [Instr.transfer userTokenAccount recipientTokenAccount publicKey
          transferAmount [] env.TOKEN_PROGRAM_ID]
        JS.emit (Event.build transferTransaction)
        JS.setStatus "发送转账交易..."
        JS.emit (Event.send transferTransaction [])
        let signature ← JS.await (env.sendTransaction transferTransaction)
        JS.setStatus ("发送转账交易... 交易 hash: " ++ signature)
        let _ ← JS.request (Call.confirmTransaction signature) (env.confirmTransaction signature)
        JS.setStatus (successStatus s.formData)
        JS.emit (Event.timer "checkTokenBalance" 2000)

/-- The handler `transferToken`. -/
def transferToken (env : Env) (publicKey : Option PublicKey) (s : State) : JS State Unit :=
  match publicKey with
  | none => JS.setStatus "请先连接钱包"
  | some publicKey =>
    if s.formData.mintAddress = "" ∨ s.formData.recipientAddress = "" ∨ s.formData.amount = "" then
      JS.setStatus "请填写所有必填字段"
    else do
      let mintValid ← isValidSolanaAddress env s.formData.mintAddress
      if !mintValid then JS.setStatus "错误: 无效的代币Mint地址"
      else do
        let recipientValid ← isValidSolanaAddress env s.formData.recipientAddress
        if !recipientValid then JS.setStatus "错误: 无效的接收方地址（地址不在椭圆曲线上）"
        else if (env.parseFloat s.formData.amount).le0 then JS.setStatus "转账金额必须大于0"
        else do
          JS.setLoading true
          JS.setStatus "准备转账..."
          JS.tryFinally
            (JS.tryCatch (transferTokenTry env publicKey s)
              (fun message => JS.setStatus (errorMessage message)))
            (JS.setLoading false)

end TokenTransfer

/-- The SDK constant `WalletAdapterNetwork.Mainnet`. -/
def WalletAdapterNetwork.Mainnet : String := "mainnet-beta"

/-- The SDK constant `WalletAdapterNetwork.Devnet`. -/
def WalletAdapterNetwork.Devnet : String := "devnet"

/-! ## TokenBurn.js -/

namespace TokenBurn

/-- The hook `formData` of TokenBurn. -/
structure FormData where
  mintAddress : String
  amount : String
  deriving DecidableEq

/-- The object `tokenInfo` of TokenBurn. `supply` and `balance` hold the digit strings of
two bigints and are kept as the naturals they spell. -/
structure TokenInfo where
  mint : String
  decimals : Nat
  supply : Nat
  balance : Nat
  tokenAccount : String
  deriving DecidableEq

/-- The hooks of TokenBurn other than `loading` and `status`. -/
structure State where
  tokenInfo : Option TokenInfo
  burnHistory : List BurnRecord
  formData : FormData
  deriving DecidableEq

/-- The function `saveBurnRecord`: the closure reads the `burnHistory` of its render. -/
def saveBurnRecord (env : Env) (s : State) (record : BurnRecord) : JS State Unit := do
  let newHistory := (record :: s.burnHistory).take 50
  JS.modifySt (fun st => { st with burnHistory := newHistory })
  JS.await (env.storageSetItem "tokenBurnHistory" newHistory)
  JS.emit (Event.storageSet "tokenBurnHistory" newHistory)

/-- The function `isValidSolanaAddress` of TokenBurn.js. -/
def isValidSolanaAddress {σ : Type} (env : Env) (address : String) : JS σ Bool :=
  JS.tryCatch
    (do
      let pubkey ← JS.await (env.newPublicKey address)
      return env.isOnCurve pubkey)
    (fun _ => return false)

/-- The object returned by `validateBurnAmount`. -/
structure Validation where
  valid : Bool
  message : String
  deriving DecidableEq

/-- The function `validateBurnAmount`; `balance` is the number the caller passes. -/
def validateBurnAmount {σ : Type} (env : Env) (amount : String) (balance : JSNum) (decimals : Nat) :
    JS σ Validation :=
  if amount = "" ∨ (env.toNumber amount).isNaN = true ∨ (env.parseFloat amount).le0 = true then
    return { valid := false, message := "请输入有效的燃烧数量" }
  else
    let burnAmount := env.parseFloat amount
    let maxBurnAmount := env.div balance (env.pow10 decimals)
    if burnAmount.gt maxBurnAmount then do
      let shown ← JS.await (env.toFixed maxBurnAmount decimals)
      return { valid := false, message := "燃烧数量不能超过余额 " ++ shown }
    else
      return { valid := true, message := "" }

/-- The function `getTokenInfo`. -/
def getTokenInfo (env : Env) (publicKey : Option PublicKey) (s : State) : JS State Unit :=
  match publicKey with
  | none => return ()
  | some publicKey =>
    if s.formData.mintAddress = "" then return ()
    else
      JS.tryFinally
        (JS.tryCatch
          (do
            JS.setLoading true
            JS.setStatus "正在获取代币信息..."
            let valid ← isValidSolanaAddress env s.formData.mintAddress
            if !valid then JS.raise "无效的代币地址格式"
            else do
              let mintPubkey ← JS.await (env.newPublicKey s.formData.mintAddress)
              let mintInfo ← JS.request (Call.getMint mintPubkey) (env.getMint mintPubkey)
              let associatedTokenAddress ← JS.await (env.getAssociatedTokenAddress mintPubkey publicKey)
              let tokenAccount ← JS.tryCatch
                (JS.request (Call.getAccount associatedTokenAddress) (env.getAccount associatedTokenAddress))
                (fun _ => JS.raise "您没有此代币的账户或余额为0")
              let tokenInfo : TokenInfo :=
                { mint := mintPubkey.toBase58, decimals := mintInfo.decimals, supply := mintInfo.supply,
                  balance := tokenAccount.amount, tokenAccount := associatedTokenAddress.toBase58 }
              JS.modifySt (fun st => { st with tokenInfo := some tokenInfo })
              let shown ← JS.await (env.toFixed
                (env.div (env.numberOfNat tokenInfo.balance) (env.pow10 tokenInfo.decimals))
                tokenInfo.decimals)
              JS.setStatus ("代币信息获取成功。余额: " ++ shown))
          (fun message => do
            JS.setStatus ("错误: " ++ message)
            JS.modifySt (fun st => { st with tokenInfo := none })))
        (JS.setLoading false)

/-- The body of the `try` block of `burnTokens`. The constructor `createBurnInstruction`
encodes the amount, so it can throw before a transaction exists. -/
def burnTokensTry (env : Env) (publicKey : PublicKey) (tokenInfo : TokenInfo) (network : String)
    (s : State) : JS State Unit := do
  JS.setLoading true
  JS.setStatus "正在准备燃烧交易..."
  let validation ← validateBurnAmount env s.formData.amount (env.numberOfNat tokenInfo.balance)
    tokenInfo.decimals
  if !validation.valid then JS.raise validation.message
  else
    let burnAmount := JSNum.floor (env.mul (env.parseFloat s.formData.amount) (env.pow10 tokenInfo.decimals))
    if burnAmount.le0 then JS.raise "燃烧数量必须大于0"
    else do
      let mintPubkey ← JS.await (env.newPublicKey tokenInfo.mint)
      let tokenAccountPubkey ← JS.await (env.newPublicKey tokenInfo.tokenAccount)
      let _ ← JS.await (env.instructionAmount burnAmount)
      let transaction := [Instr.burn tokenAccountPubkey mintPubkey publicKey burnAmount [] env.TOKEN_PROGRAM_ID]
      JS.emit (Event.build transaction)
      let _ ← JS.request Call.getLatestBlockhash env.getLatestBlockhash
      JS.setStatus "请在钱包中确认燃烧交易..."
      JS.emit (Event.send transaction [])
      let signature ← JS.await (env.sendTransaction transaction)
      JS.setStatus "正在确认交易..."
      let confirmation ← JS.request (Call.confirmTransaction signature) (env.confirmTransaction signature)
      match confirmation with
      | some err => JS.raise ("交易失败: " ++ err)
      | none => do
        let burnRecord : BurnRecord :=
          { signature := signature, mintAddress := tokenInfo.mint, amount := s.formData.amount,
            burnAmountRaw := env.numToString burnAmount, decimals := tokenInfo.decimals,
            timestamp := env.nowISO,
            network := if network = WalletAdapterNetwork.Mainnet then "mainnet" else "devnet",
            status := "confirmed" }
        saveBurnRecord env s burnRecord
        JS.setStatus ("燃烧成功! 交易签名: " ++ signature)
        JS.emit (Event.timer "getTokenInfo" 2000)
        JS.modifySt (fun st => { st with formData := { st.formData with amount := "" } })

/-- The handler `burnTokens`. -/
def burnTokens (env : Env) (publicKey : Option PublicKey) (network : String) (s : State) : JS State Unit :=
  match publicKey, s.tokenInfo with
  | some publicKey, some tokenInfo =>
    JS.tryFinally
      (JS.tryCatch (burnTokensTry env publicKey tokenInfo network s)
        (fun message => JS.setStatus ("燃烧失败: " ++ message)))
      (JS.setLoading false)
  | _, _ => JS.setStatus "请先连接钱包并获取代币信息"

end TokenBurn

/-! ## TokenFreeze.js -/

namespace TokenFreeze

/-- The hook `formData` of TokenFreeze. -/
structure FormData where
  mintAddress : String
  tokenAccount : String
  deriving DecidableEq

/-- The hooks of TokenFreeze other than `loading` and `status`. -/
structure State where
  accountInfo : Option Account
  mintInfo : Option MintInfo
  formData : FormData
  deriving DecidableEq

/-- The function `isValidSolanaAddress` of TokenFreeze.js: decoding only. -/
def isValidSolanaAddress {σ : Type} (env : Env) (address : String) : JS σ Bool :=
  JS.tryCatch
    (do
      let _ ← JS.await (env.newPublicKey address)
      return true)
    (fun _ => return false)

/-- The function `resolveTokenAccount`. -/
def resolveTokenAccount {σ : Type} (env : Env) (mintAddress accountOrOwner : String) : JS σ PublicKey := do
  let mintPk ← JS.await (env.newPublicKey mintAddress)
  let pk ← JS.await (env.newPublicKey accountOrOwner)
  JS.tryCatch
    (do
      let _ ← JS.request (Call.getAccount pk) (env.getAccount pk)
      return pk)
    (fun _ => JS.await (env.getAssociatedTokenAddress mintPk pk))

/-- The error mapping in the `catch` of `toggleFreeze`. -/
def errorMessage (message : String) : String :=
  if includes message "insufficient funds" then "错误: SOL余额不足以支付交易费用"
  else if includes message "authority does not match" then "错误: 您没有此代币的冻结权限"
  else if includes message "Account does not exist" then "错误: 代币账户不存在"
  else "错误: " ++ message

/-- The body of the `try` block of `toggleFreeze`. -/
def toggleFreezeTry (env : Env) (publicKey : PublicKey) (s : State) (freeze : Bool) : JS State Unit := do
  let mintPublicKey ← JS.await (env.newPublicKey s.formData.mintAddress)
  let tokenAccountPublicKey ← resolveTokenAccount env s.formData.mintAddress s.formData.tokenAccount
  let transaction :=
    if freeze then [Instr.freezeAccount tokenAccountPublicKey mintPublicKey publicKey [] env.TOKEN_PROGRAM_ID]
    else [Instr.thawAccount tokenAccountPublicKey mintPublicKey publicKey [] env.TOKEN_PROGRAM_ID]
  JS.emit (Event.build transaction)
  JS.emit (Event.send transaction [])
  let signature ← JS.await (env.sendTransaction transaction)
  JS.setStatus ((if freeze then "冻结" else "解冻") ++ "交易已发送... 交易 hash: " ++ signature)
  let _ ← JS.request (Call.confirmTransaction signature) (env.confirmTransaction signature)
  JS.setStatus ("成功" ++ (if freeze then "冻结" else "解冻") ++ "代币账户")
  JS.emit (Event.timer "checkAccountStatus" 2000)

/-- The handler `toggleFreeze`. -/
def toggleFreeze (env : Env) (publicKey : Option PublicKey) (s : State) (freeze : Bool) : JS State Unit :=
  match publicKey with
  | none => JS.setStatus "请先连接钱包"
  | some publicKey =>
    if s.formData.mintAddress = "" ∨ s.formData.tokenAccount = "" then
      JS.setStatus "请填写代币Mint地址和代币账户地址"
    else
      match s.mintInfo with
      | none => JS.setStatus "错误: 未能获取代币信息"
      | some mintInfo =>
        match mintInfo.freezeAuthority with
        | none => JS.setStatus "错误: 此代币未设置冻结权限，无法冻结/解冻"
        | some freezeAuthority =>
          if freezeAuthority.toBase58 ≠ publicKey.toBase58 then
            JS.setStatus "错误: 当前钱包不是该代币的冻结权限地址"
          else do
            let mintValid ← isValidSolanaAddress env s.formData.mintAddress
            if !mintValid then JS.setStatus "错误: 无效的地址格式"
            else do
              let accountValid ← isValidSolanaAddress env s.formData.tokenAccount
              if !accountValid then JS.setStatus "错误: 无效的地址格式"
              else do
                JS.setLoading true
                JS.setStatus (if freeze then "准备冻结账户..." else "准备解冻账户...")
                JS.tryFinally
                  (JS.tryCatch (toggleFreezeTry env publicKey s freeze)
                    (fun message => JS.setStatus (errorMessage message)))
                  (JS.setLoading false)

end TokenFreeze

/-! ## TokenAuthorityTransfer.js -/

namespace TokenAuthorityTransfer

/-- The hook `formData` of TokenAuthorityTransfer. -/
structure FormData where
  mintAddress : String
  newAuthority : String
  authorityType : String
  revokeAuthority : Bool
  deriving DecidableEq

/-- The hooks of TokenAuthorityTransfer other than `loading` and `status`. -/
structure State where
  formData : FormData
  deriving DecidableEq

/-- The function `isValidSolanaAddress` of TokenAuthorityTransfer.js: decoding only. -/
def isValidSolanaAddress {σ : Type} (env : Env) (address : String) : JS σ Bool :=
  JS.tryCatch
    (do
      let _ ← JS.await (env.newPublicKey address)
      return true)
    (fun _ => return false)

/-- What `getAuthorityTypeEnum` returns: an SPL authority type or the text 'UpdateAuthority'. -/
inductive AuthorityKind where
  | spl (t : AuthorityType)
  | UpdateAuthority
  deriving DecidableEq

/-- The function `getAuthorityTypeEnum`. -/
def getAuthorityTypeEnum (type : String) : AuthorityKind :=
  if type = "MintTokens" then AuthorityKind.spl AuthorityType.MintTokens
  else if type = "FreezeAccount" then AuthorityKind.spl AuthorityType.FreezeAccount
  else if type = "UpdateAuthority" then AuthorityKind.UpdateAuthority
  else AuthorityKind.spl AuthorityType.MintTokens

/-- The error mapping in the `catch` of `transferAuthority`. -/
def errorMessage (message : String) : String :=
  if includes message "insufficient funds" then "错误: 账户SOL余额不足支付交易费用"
  else if includes message "owner does not match" then "错误: 您不是此账户的所有者，无权转移所有权"
  else if includes message "authority does not match" then "错误: 您不是此代币的权限持有者，无法执行此操作"
  else "错误: " ++ message

/-- The word for the authority in the two success messages. -/
def authorityWord (formData : FormData) : String :=
  if formData.authorityType = "MintTokens" then "铸币" else "冻结"

/-- The body of the `try` block of `transferAuthority`. -/
def transferAuthorityTry (env : Env) (publicKey : PublicKey) (s : State) : JS State Unit := do
  let mintAddress ← JS.await (env.newPublicKey s.formData.mintAddress)
  match getAuthorityTypeEnum s.formData.authorityType with
  | AuthorityKind.UpdateAuthority =>
    if s.formData.revokeAuthority then do
      JS.setStatus "错误: 元数据更新权限不支持撤销操作，只能转移到其他地址"
      JS.setLoading false
    else do
      let newAuthorityPublicKey ← JS.await (env.newPublicKey s.formData.newAuthority)
      JS.setStatus "初始化 Metaplex..."
      JS.setStatus "查找代币元数据..."
      JS.request (Call.metaplexFindByMint mintAddress) (env.metaplexFindByMint mintAddress)
      JS.setStatus "准备转移元数据更新权限..."
      JS.request (Call.metaplexUpdate mintAddress publicKey newAuthorityPublicKey)
        (env.metaplexUpdate mintAddress publicKey newAuthorityPublicKey)
      JS.setStatus ("元数据更新权限转移成功！新的更新权限地址: " ++ s.formData.newAuthority.take 8 ++ "...")
  | AuthorityKind.spl authorityType => do
    let newAuthorityPublicKey ←
      if s.formData.revokeAuthority then pure none
      else do
        let k ← JS.await (env.newPublicKey s.formData.newAuthority)
        pure (some k)
    let transaction := [Instr.setAuthority mintAddress publicKey authorityType newAuthorityPublicKey []
      env.TOKEN_PROGRAM_ID]
    JS.emit (Event.build transaction)
    JS.setStatus "发送交易..."
    JS.emit (Event.send transaction [])
    let signature ← JS.await (env.sendTransaction transaction)
    JS.setStatus ("发送交易... 交易 hash: " ++ signature)
    JS.setStatus "等待交易确认..."
    let _ ← JS.request (Call.confirmTransaction signature) (env.confirmTransaction signature)
    if s.formData.revokeAuthority then
      JS.setStatus ("成功撤销" ++ authorityWord s.formData ++ "权限！此权限已永久移除。")
    else
      JS.setStatus ("权限转移成功！" ++ authorityWord s.formData ++ "权限已转移到新地址。")

/-- The handler `transferAuthority`. -/
def transferAuthority (env : Env) (publicKey : Option PublicKey) (s : State) : JS State Unit :=
  match publicKey with
  | none => JS.setStatus "请先连接钱包"
  | some publicKey =>
    if s.formData.mintAddress = "" then JS.setStatus "请填写代币Mint地址"
    else if s.formData.revokeAuthority = false ∧ s.formData.newAuthority = "" then
      JS.setStatus "请填写新权限地址，或勾选\"撤销权限\"选项"
    else do
      let mintValid ← isValidSolanaAddress env s.formData.mintAddress
      if !mintValid then JS.setStatus "无效的Mint地址格式"
      else do
        let newValid ←
          if s.formData.revokeAuthority then pure true
          else isValidSolanaAddress env s.formData.newAuthority
        if !newValid then JS.setStatus "无效的新权限地址格式"
        else do
          JS.setLoading true
          JS.setStatus "准备转移权限..."
          JS.tryFinally
            (JS.tryCatch (transferAuthorityTry env publicKey s)
              (fun message => JS.setStatus (errorMessage message)))
            (JS.setLoading false)

end TokenAuthorityTransfer

/-! ## TokenCreator.js -/

namespace TokenCreator

/-- The hook `formData` of TokenCreator. `decimals` starts as the number 9 and holds the
text of the input afterwards; it is kept as text, read through `Number`. -/
structure FormData where
  name : String
  symbol : String
  logoUrl : String
  decimals : String
  supply : String
  isMutable : Bool
  disableMinting : Bool
  enableFreezing : Bool
  authorityAddress : String
  deriving DecidableEq

/-- The hooks of TokenCreator other than `loading` and `status`. -/
structure State where
  mintAddress : String
  formData : FormData
  deriving DecidableEq

/-- The function `isValidSolanaAddress` of TokenCreator.js: decoding only. -/
def isValidSolanaAddress {σ : Type} (env : Env) (address : String) : JS σ Bool :=
  JS.tryCatch
    (do
      let _ ← JS.await (env.newPublicKey address)
      return true)
    (fun _ => return false)

/-- The amount `Number(formData.supply) * (10 ** Number(formData.decimals))` that `createToken`
passes to `createMintToInstruction`. -/
def mintAmount (env : Env) (formData : FormData) : JSNum :=
  env.mul (env.toNumber formData.supply) (env.pow10Num (env.toNumber formData.decimals))

/-- The first transaction of `createToken`: the four instructions in the order of
`transaction.add`. The constructors other than `createMintToInstruction` take keys, the rent,
a size and the decimals chosen in the form's select, and are taken to return. -/
def mintTransaction (env : Env) (publicKey tokenMintAddress associatedTokenAddress authorityAddress : PublicKey)
    (lamports : Nat) (formData : FormData) : List Instr :=
  [ Instr.createAccount publicKey tokenMintAddress env.MINT_SIZE lamports env.TOKEN_PROGRAM_ID,
    Instr.initializeMint tokenMintAddress (env.toNumber formData.decimals) authorityAddress
      (if formData.enableFreezing then some authorityAddress else none) env.TOKEN_PROGRAM_ID,
    Instr.createAssociatedTokenAccount publicKey associatedTokenAddress publicKey tokenMintAddress,
    Instr.mintTo tokenMintAddress associatedTokenAddress authorityAddress
      (mintAmount env formData) [] env.TOKEN_PROGRAM_ID ]

/-- The body of the `try` block of `createToken`. The instructions are constructed while the
arguments of `transaction.add` are evaluated; `createMintToInstruction` encodes the amount and
can throw there, in which case nothing has been added to the transaction. -/
def createTokenTry (env : Env) (publicKey authorityAddress : PublicKey) (s : State) : JS State Unit := do
  let tokenMintAddress := env.generateKeypair
  let lamports ← JS.request Call.getMinimumBalanceForRentExemptMint env.getMinimumBalanceForRentExemptMint
  let associatedTokenAddress ← JS.await (env.getAssociatedTokenAddress tokenMintAddress publicKey)
  let _ ← JS.await (env.instructionAmount (mintAmount env s.formData))
  let transaction := mintTransaction env publicKey tokenMintAddress associatedTokenAddress authorityAddress
    lamports s.formData
  JS.emit (Event.build transaction)
  JS.setStatus "发送交易..."
  JS.emit (Event.send transaction [tokenMintAddress])
  let signature ← JS.await (env.sendTransaction transaction)
  JS.setStatus ("发送交易... 交易 hash: " ++ signature)
  JS.setStatus "等待交易确认..."
  let _ ← JS.request (Call.confirmTransaction signature) (env.confirmTransaction signature)
  JS.setStatus "添加代币元数据..."
  let sft : SftInput :=
    { uri := s.formData.logoUrl, name := s.formData.name, symbol := s.formData.symbol,
      sellerFeeBasisPoints := 0, isMutable := s.formData.isMutable, useNewMint := tokenMintAddress }
  JS.request (Call.metaplexCreateSft sft) (env.metaplexCreateSft sft)
  if s.formData.disableMinting then do
    let disableMintingTx := [Instr.setAuthority tokenMintAddress authorityAddress AuthorityType.MintTokens
      none [] env.TOKEN_PROGRAM_ID]
    JS.emit (Event.build disableMintingTx)
    JS.setStatus "禁用铸币权限..."
    JS.emit (Event.send disableMintingTx [])
    let disableMintingSignature ← JS.await (env.sendTransaction disableMintingTx)
    JS.setStatus ("禁用铸币权限交易 hash: " ++ disableMintingSignature)
    let _ ← JS.request (Call.confirmTransaction disableMintingSignature)
      (env.confirmTransaction disableMintingSignature)
  JS.modifySt (fun st => { st with mintAddress := tokenMintAddress.toBase58 })
  JS.setStatus "代币创建成功！"

/-- The handler `createToken`. The authority key is decoded before the format check and
outside of any `try`. -/
def createToken (env : Env) (publicKey : Option PublicKey) (s : State) : JS State Unit :=
  match publicKey with
  | none => JS.setStatus "请先连接钱包"
  | some publicKey =>
    if s.formData.name = "" ∨ s.formData.symbol = "" ∨ s.formData.supply = "" then
      JS.setStatus "请填写必填字段（名称、符号和总量）"
    else do
      let authorityAddress ←
        if env.trim s.formData.authorityAddress ≠ "" then
          JS.await (env.newPublicKey (env.trim s.formData.authorityAddress))
        else pure publicKey
      let invalid ←
        if env.trim s.formData.authorityAddress ≠ "" then do
          let valid ← isValidSolanaAddress env s.formData.authorityAddress
          pure (!valid)
        else pure false
      if invalid then JS.setStatus "错误: 无效的权限地址格式"
      else do
        JS.setLoading true
        JS.setStatus "准备创建代币..."
        JS.tryFinally
          (JS.tryCatch (createTokenTry env publicKey authorityAddress s)
            (fun message => JS.setStatus ("错误: " ++ message)))
          (JS.setLoading false)

/-- Constraint validation of the supply field, `<input type="number" name="supply" min="1"
required>`: the browser holds the field valid when it has a value, the value is a number, it
is not below `min`, and it is a whole number of steps (the default step 1) away from `min`. -/
def supplyInputValid (env : Env) (supply : String) : Bool :=
  match env.toNumber supply with
  | JSNum.fin q => decide (supply ≠ "") && decide (1 ≤ q) && decide (q.den = 1)
  | _ => false

/-- The submit event of `<form onSubmit={createToken}>`: the browser validates the
constrained fields (`name` and `symbol` are `required`, and the supply field as above) and
calls the handler only when all of them are valid; otherwise it reports the first invalid
field and the handler does not run. The `disabled` state of the submit button only removes
submissions and is not represented. -/
def submitForm (env : Env) (publicKey : Option PublicKey) (s : State) : JS State Unit :=
  if s.formData.name ≠ "" ∧ s.formData.symbol ≠ "" ∧ supplyInputValid env s.formData.supply = true then
    createToken env publicKey s
  else pure ()

end TokenCreator

/-! ## TokenCreatorHelper.js -/

namespace TokenCreatorHelper

/-- The hook `formData` of TokenCreatorHelper. -/
structure FormData where
  mintAddress : String
  targetAddress : String
  deriving DecidableEq

/-- The hooks of TokenCreatorHelper read or written by the two creation handlers (the hook
`tokenInfo` belongs to `checkTokenAccount`, which is not embedded). -/
structure State where
  formData : FormData
  deriving DecidableEq

/-- The function `isValidSolanaAddress` of TokenCreatorHelper.js: decoding only. -/
def isValidSolanaAddress {σ : Type} (env : Env) (address : String) : JS σ Bool :=
  JS.tryCatch
    (do
      let _ ← JS.await (env.newPublicKey address)
      return true)
    (fun _ => return false)

/-- The text chosen in the `catch` of `createATA`. -/
def createATAErrorMessage (message : String) : String :=
  if includes message "insufficient funds" then "错误: 账户SOL余额不足支付交易费用"
  else if includes message "account already exists" then "关联代币账户已存在"
  else "错误: " ++ message

/-- The `catch` block of `createATA`: the account-exists branch also schedules a new check. -/
def createATACatch (message : String) : JS State Unit :=
  if includes message "insufficient funds" then JS.setStatus "错误: 账户SOL余额不足支付交易费用"
  else if includes message "account already exists" then do
    JS.emit (Event.timer "checkTokenAccount" 1000)
    JS.setStatus "关联代币账户已存在"
  else JS.setStatus ("错误: " ++ message)

/-- The body of the `try` block of `createATA`. The program id passed to the instruction
constructor is its default, `TOKEN_PROGRAM_ID`. -/
def createATATry (env : Env) (publicKey : PublicKey) (s : State) : JS State Unit := do
  let mintPublicKey ← JS.await (env.newPublicKey s.formData.mintAddress)
  let associatedTokenAddress ← JS.await (env.getAssociatedTokenAddress mintPublicKey publicKey)
  let transaction := [Instr.createAssociatedTokenAccount publicKey associatedTokenAddress publicKey
    mintPublicKey]
  JS.emit (Event.build transaction)
  JS.emit (Event.send transaction [])
  let signature ← JS.await (env.sendTransaction transaction)
  JS.setStatus ("发送交易... 交易 hash: " ++ signature)
  let _ ← JS.request (Call.confirmTransaction signature) (env.confirmTransaction signature)
  JS.setStatus "关联代币账户创建成功！"
  JS.emit (Event.timer "checkTokenAccount" 2000)

/-- The handler `createATA`. -/
def createATA (env : Env) (publicKey : Option PublicKey) (s : State) : JS State Unit :=
  match publicKey with
  | none => JS.setStatus "请先连接钱包"
  | some publicKey =>
    if s.formData.mintAddress = "" then JS.setStatus "请填写代币的Mint地址"
    else do
      let valid ← isValidSolanaAddress env s.formData.mintAddress
      if !valid then JS.setStatus "无效的Solana地址格式"
      else do
        JS.setLoading true
        JS.setStatus "创建关联代币账户..."
        JS.tryFinally (JS.tryCatch (createATATry env publicKey s) createATACatch) (JS.setLoading false)

/-- The error mapping in the `catch` of `createATAForTarget`. -/
def targetErrorMessage (message : String) : String :=
  if includes message "insufficient funds" then "错误: 账户SOL余额不足支付交易费用"
  else if includes message "account already exists" then "目标地址的关联代币账户已存在"
  else "错误: " ++ message

/-- The body of the `try` block of `createATAForTarget`. -/
def createATAForTargetTry (env : Env) (publicKey : PublicKey) (s : State) : JS State Unit := do
  let mintPublicKey ← JS.await (env.newPublicKey s.formData.mintAddress)
  let targetPublicKey ← JS.await (env.newPublicKey s.formData.targetAddress)
  let targetAssociatedTokenAddress ← JS.await (env.getAssociatedTokenAddress mintPublicKey targetPublicKey)
  let transaction := [Instr.createAssociatedTokenAccount publicKey targetAssociatedTokenAddress
    targetPublicKey mintPublicKey]
  JS.emit (Event.build transaction)
  JS.emit (Event.send transaction [])
  let signature ← JS.await (env.sendTransaction transaction)
  JS.setStatus ("发送交易... 交易 hash: " ++ signature)
  let _ ← JS.request (Call.confirmTransaction signature) (env.confirmTransaction signature)
  JS.setStatus ("已成功为地址 " ++ s.formData.targetAddress.take 6 ++ "..." ++
    s.formData.targetAddress.takeRight 4 ++ " 创建代币账户！")

/-- The handler `createATAForTarget`. -/
def createATAForTarget (env : Env) (publicKey : Option PublicKey) (s : State) : JS State Unit :=
  match publicKey with
  | none => JS.setStatus "请先连接钱包"
  | some publicKey =>
    if s.formData.mintAddress = "" ∨ s.formData.targetAddress = "" then
      JS.setStatus "请填写代币的Mint地址和目标钱包地址"
    else do
      let mintValid ← isValidSolanaAddress env s.formData.mintAddress
      if !mintValid then JS.setStatus "无效的Solana地址格式"
      else do
        let targetValid ← isValidSolanaAddress env s.formData.targetAddress
        if !targetValid then JS.setStatus "无效的Solana地址格式"
        else do
          JS.setLoading true
          JS.setStatus "为目标地址创建关联代币账户..."
          JS.tryFinally
            (JS.tryCatch (createATAForTargetTry env publicKey s)
              (fun message => JS.setStatus (targetErrorMessage message)))
            (JS.setLoading false)

end TokenCreatorHelper

/-! ## The network hooks: _app.js, the pages, NetworkSelect.js, WalletContextProvider.js

The four `useState` hooks that hold a network, and the functions that set them. A setter is a
function on the hook values; a callback prop is such a function handed down the tree. -/

namespace App

/-- The network hooks of the rendered tree. -/
structure Hooks where
  /-- The hook `network` of `MyApp`. -/
  appNetwork : String
  /-- The hook `network` of `WalletContextProvider`. -/
  providerNetwork : String
  /-- The hook `network` of the page. -/
  pageNetwork : String
  /-- The hook `selectedNetwork` of `NetworkSelect`. -/
  selectedNetwork : String
  deriving DecidableEq

/-- The hooks at first render: every `useState` starts at Mainnet. -/
def initial : Hooks :=
  { appNetwork := WalletAdapterNetwork.Mainnet, providerNetwork := WalletAdapterNetwork.Mainnet,
    pageNetwork := WalletAdapterNetwork.Mainnet, selectedNetwork := WalletAdapterNetwork.Mainnet }

/-- The props `MyApp` adds to the page component. -/
structure PageProps where
  network : String
  onNetworkChange : String → Hooks → Hooks

/-- What a page hands to its children: the `onNetworkChange` prop of `NetworkSelect` and the
`network` prop of the operation component. -/
structure PageChildren where
  onNetworkChange : String → Hooks → Hooks
  network : String

namespace MyApp

/-- The callback `handleNetworkChange` of `MyApp`. -/
def handleNetworkChange (newNetwork : String) (h : Hooks) : Hooks := { h with appNetwork := newNetwork }

/-- The prop `initialNetwork` given to the provider. -/
def initialNetwork (h : Hooks) : String := h.appNetwork

/-- The props given to the page component. -/
def pageProps (h : Hooks) : PageProps :=
  { network := h.appNetwork, onNetworkChange := handleNetworkChange }

end MyApp

namespace Page

/-- The function `handleNetworkChange` of a page (the same in all six pages). -/
def handleNetworkChange (newNetwork : String) (h : Hooks) : Hooks := { h with pageNetwork := newNetwork }

/-- The render of a page. The page functions are declared without parameters: the props of
`MyApp` are not read, the children get the page hook and the page handler. -/
def render (_ : PageProps) (h : Hooks) : PageChildren :=
  { onNetworkChange := handleNetworkChange, network := h.pageNetwork }

end Page

namespace NetworkSelect

/-- The function `handleNetworkChange` of `NetworkSelect`, on the value of the chosen option. -/
def handleNetworkChange (value : String) (h : Hooks) : Hooks := { h with selectedNetwork := value }

/-- The effect of `NetworkSelect`: report the selected network through the callback prop. -/
def effect (onNetworkChange : String → Hooks → Hooks) (h : Hooks) : Hooks :=
  onNetworkChange h.selectedNetwork h

end NetworkSelect

namespace WalletContextProvider

/-- The effect of the provider on its prop: `setNetwork(initialNetwork)`. -/
def effect (initialNetwork : String) (h : Hooks) : Hooks := { h with providerNetwork := initialNetwork }

/-- The lookup `CUSTOM_RPC_ENDPOINTS[network]`: the table has the Mainnet entry only. -/
def endpoint (h : Hooks) : Option String :=
  if h.providerNetwork = WalletAdapterNetwork.Mainnet then some "***" else none

/-- The network the wallet adapters are constructed with. -/
def adapterNetwork (h : Hooks) : String := h.providerNetwork

end WalletContextProvider

/-- The user picks `value` in the `NetworkSelect` of the page; the effects then run: that of
`NetworkSelect` with the callback the page gave it, that of the provider with the prop `MyApp`
gives it. -/
def selectNetwork (value : String) (h : Hooks) : Hooks :=
  let h1 := NetworkSelect.handleNetworkChange value h
  let h2 := NetworkSelect.effect (Page.render (MyApp.pageProps h1) h1).onNetworkChange h1
  WalletContextProvider.effect (MyApp.initialNetwork h2) h2

/-- The `network` prop the operation component of the page receives. -/
def operationNetwork (h : Hooks) : String := (Page.render (MyApp.pageProps h) h).network

end App

/-! ## A sample environment

Concrete answers used to instantiate the general statements: one wallet, one mint, one
recipient, their associated token accounts, and a network on which every submission is
accepted. The wallet holds 1 raw unit of a token with 0 decimals; the recipient has no token
account yet. The keys are 32-byte values whose curve membership is as stated, and the three
token accounts are the associated addresses the SDK derives for their mint and owner. The
conversions and the arithmetic of the language are tabulated, in double precision, for the
texts and numbers the samples use (none of the texts has surrounding blanks, so `trim` leaves
them as they are); an argument outside a table gets a placeholder answer, NaN or a thrown
error. -/

namespace Sample

/-- The connected wallet: a point of the curve. -/
def wallet : PublicKey := ⟨"9WzDXwBbmkg8ZTbNMqUxvQRAyrZzDsGYdLVL9zYtAWWM"⟩

/-- The mint: a point of the curve. -/
def mint : PublicKey := ⟨"FtHLj2EmWuxjJz19PFwQqQn82nQ2SdY386z6EgeUMUrF"⟩

/-- The recipient wallet: a point of the curve. -/
def recipient : PublicKey := ⟨"FSTAYWEsoNcV25P2En63LGHb3ae8EwwQ3ip5mZPayaPC"⟩

/-- The associated token account of the wallet: a derived address, off the curve. -/
def walletAta : PublicKey := ⟨"2uFR8UFCsv4YWCio9WdtrGwgrtSYSEbzvM8Li71taNku"⟩

/-- The associated token account of the recipient: a derived address, off the curve. -/
def recipientAta : PublicKey := ⟨"2XEYByuuncACorK7dmTb4CiLW8iZRzuusPfxJzvy1Vn1"⟩

/-- The key of a freshly generated mint keypair: a point of the curve. -/
def newMint : PublicKey := ⟨"2wmVCSfPxGPjrnMMn7rchp4uaeoTqN39mXFC2zhPdri9"⟩

/-- The associated token account of the wallet for the new mint: a derived address, off the curve. -/
def newMintAta : PublicKey := ⟨"Aeec6oyj623EX9jsRrgRMhvpu4mdA3NWnuqTBoGbpMKd"⟩

/-- A 32-byte key that is not a point of the curve, as the address of a mint created at a
program-derived address is. -/
def derivedMint : PublicKey := ⟨"Dcs7MXKrP198qoHeWP57ZwGVv6WoKTjy8CfJtAQfgPyn"⟩

/-- The token program id. -/
def tokenProgram : PublicKey := ⟨"TokenkegQfeZyiNwAJbNbGKPFXCWuBvf9Ss623VQ5DA"⟩

/-- A transaction signature. -/
def signature : String :=
  "5VERv8NMvzbJMEkV8xnrLkEaWRtSz9CosKDYjCJjBRnbJLgp8uirBgmQpjKhoR4tjF3ZpRzrFmBV6UjKdiSZkQUW"

/-- The token account of the wallet as the network reports it. -/
def walletAccount : Account :=
  { address := walletAta, mint := mint, owner := wallet, amount := 1, isFrozen := false,
    mint_decimals := none }

/-- The mint as the network reports it: no freeze authority. -/
def mintInfo : MintInfo :=
  { address := mint, decimals := 0, supply := 1000, mintAuthority := some wallet, freezeAuthority := none }

/-- The double that `Number` and `parseFloat` both read from the number texts of the samples;
'0.3' is read as the double nearest to three tenths, which lies below it. Texts that are not
listed are not numbers of the samples and read as NaN. -/
def number (text : String) : JSNum :=
  if text = "1.5" then JSNum.fin (3 / 2)
  else if text = "2" then JSNum.fin 2
  else if text = "0.5" then JSNum.fin (1 / 2)
  else if text = "0" then JSNum.fin 0
  else if text = "-5" then JSNum.fin (-5)
  else if text = "0.3" then JSNum.fin (5404319552844595 / 18014398509481984)
  else if text = "9007199254740996" then JSNum.fin 9007199254740996
  else JSNum.nan

/-- The sample environment. -/
def env : Env where
  newPublicKey := fun text =>
    if text ∈ [wallet.toBase58, mint.toBase58, recipient.toBase58, walletAta.toBase58,
        recipientAta.toBase58, derivedMint.toBase58] then Except.ok ⟨text⟩
    else Except.error "Invalid public key input"
  isOnCurve := fun key => decide (key ∈ [wallet, mint, recipient])
  getAssociatedTokenAddress := fun m owner =>
    if m = mint ∧ owner = wallet then Except.ok walletAta
    else if m = mint ∧ owner = recipient then Except.ok recipientAta
    else if m = newMint ∧ owner = wallet then Except.ok newMintAta
    else Except.error "TokenOwnerOffCurveError"
  getAccount := fun address =>
    if address = walletAta then Except.ok walletAccount
    else Except.error "TokenAccountNotFoundError"
  getMint := fun address =>
    if address = mint then Except.ok mintInfo else Except.error "TokenAccountNotFoundError"
  getLatestBlockhash := Except.ok "EkSnNWid2cvwEVnVx9aBqawnmiCNiDgp3gUdkDPTKN1N"
  getMinimumBalanceForRentExemptMint := Except.ok 1461600
  sendTransaction := fun _ => Except.ok signature
  confirmTransaction := fun _ => Except.ok none
  generateKeypair := newMint
  metaplexFindByMint := fun _ => Except.ok ()
  metaplexUpdate := fun _ _ _ => Except.ok ()
  metaplexCreateSft := fun _ => Except.ok ()
  storageSetItem := fun _ _ => Except.ok ()
  nowISO := "2025-01-01T00:00:00.000Z"
  TOKEN_PROGRAM_ID := tokenProgram
  MINT_SIZE := 82
  parseFloat := number
  toNumber := fun text => if text = "" then JSNum.fin 0 else number text
  pow10Num := fun x =>
    if x = JSNum.fin 0 then JSNum.fin 1 else if x = JSNum.fin 1 then JSNum.fin 10 else JSNum.nan
  mul := fun x y =>
    if y = JSNum.fin 1 then x
    else if x = JSNum.fin (5404319552844595 / 18014398509481984) ∧ y = JSNum.fin 10 then JSNum.fin 3
    else JSNum.nan
  div := fun x y =>
    if y = JSNum.fin 1 then x
    else if x = JSNum.fin 5 ∧ y = JSNum.fin 10 then JSNum.fin (1 / 2)
    else JSNum.nan
  numberOfNat := fun n =>
    if n ≤ 9007199254740992 then JSNum.fin (n : ℚ)
    else if n = 9007199254740995 then JSNum.fin 9007199254740996
    else JSNum.nan
  encodeU64 := fun n =>
    if 0 ≤ n then Except.ok () else Except.error "Blob.encode[amount] requires (length 8) Uint8Array as src"
  toFixed := fun x digits =>
    if x = JSNum.fin 1 ∧ digits = 0 then Except.ok "1"
    else if x = JSNum.fin 0 ∧ digits = 0 then Except.ok "0"
    else Except.error "toFixed() digits argument must be between 0 and 100"
  numToString := fun x =>
    if x = JSNum.fin 0 then "0" else if x = JSNum.fin 1 then "1" else if x = JSNum.fin 2 then "2"
    else if x = JSNum.fin 3 then "3"
    else if x = JSNum.fin 9007199254740996 then "9007199254740996" else "NaN"
  trim := fun text => text
  bigIntRangeError := fun _ => "The number NaN cannot be converted to a BigInt because it is not an integer"
  undefinedTypeError := fun name => "Cannot read properties of undefined (reading " ++ name ++ ")"

/-- A fresh world of a component: not loading, empty status, empty log. -/
def world {σ : Type} (st : σ) : World σ := { loading := false, status := "", st := st, log := [] }

/-- A transfer form asking for 1.5 tokens to the recipient. -/
def transferState : TokenTransfer.State :=
  { accountInfo := none,
    formData := { mintAddress := mint.toBase58, recipientAddress := recipient.toBase58, amount := "1.5" } }

/-- A transfer form whose recipient is a derived (off-curve) address. -/
def transferToDerived : TokenTransfer.State :=
  { accountInfo := none,
    formData := { mintAddress := mint.toBase58, recipientAddress := recipientAta.toBase58, amount := "2" } }

/-- A burn form asking for 2 tokens while the fetched balance is 1 raw unit at 0 decimals. -/
def burnState : TokenBurn.State :=
  { tokenInfo :=
      some { mint := mint.toBase58, decimals := 0, supply := 1000, balance := 1,
             tokenAccount := walletAta.toBase58 },
    burnHistory := [],
    formData := { mintAddress := mint.toBase58, amount := "2" } }

/-- A burn record. -/
def burnRecord : BurnRecord :=
  { signature := signature, mintAddress := mint.toBase58, amount := "1", burnAmountRaw := "1",
    decimals := 0, timestamp := "2025-01-01T00:00:00.000Z", network := "devnet", status := "confirmed" }

/-- An older burn record, with another signature. -/
def olderRecord : BurnRecord :=
  { signature := "3AsdoALgZFuq2oUVWrDYhg2pNeaLJKPLf8hU2mQ6U8qJxeJ6hsrPVpMn9ma39DtfYCrDQSvngWRP8NnTpEhezJpE",
    mintAddress := mint.toBase58, amount := "5", burnAmountRaw := "5",
    decimals := 0, timestamp := "2024-12-31T00:00:00.000Z", network := "devnet", status := "confirmed" }

/-- A freeze form on the sample mint, whose fetched mint info has no freeze authority. -/
def freezeState : TokenFreeze.State :=
  { accountInfo := none, mintInfo := some mintInfo,
    formData := { mintAddress := mint.toBase58, tokenAccount := recipient.toBase58 } }

/-- An authority form that revokes the mint authority; the new-authority field holds stray text. -/
def revokeState : TokenAuthorityTransfer.State :=
  { formData := { mintAddress := mint.toBase58, newAuthority := "anything at all",
                  authorityType := "MintTokens", revokeAuthority := true } }

/-- A create-token form with the default switches, 0 decimals, supply 2 and no authority address. -/
def createState : TokenCreator.State :=
  { mintAddress := "",
    formData := { name := "BitDATA Loyalty Token", symbol := "BLT", logoUrl := "https://example.org/blt.json",
                  decimals := "0", supply := "2", isMutable := true, disableMinting := true,
                  enableFreezing := true, authorityAddress := "" } }

/-- A create-token form whose authority field holds text that is not a key. -/
def badAuthorityState : TokenCreator.State :=
  { createState with formData := { createState.formData with authorityAddress := "not-a-key-0OIl" } }

/-- A create-token form naming the recipient as authority, with freezing switched off. -/
def delegatedCreateState : TokenCreator.State :=
  { createState with
    formData := { createState.formData with authorityAddress := recipient.toBase58,
                                            enableFreezing := false } }

/-- The sample environment on a network where every confirmation resolves with a transaction
error (`value.err` set; its `toString()` is the text below). -/
def failedConfirmEnv : Env :=
  { env with confirmTransaction := fun _ => Except.ok (some "[object Object]") }

/-- A burn form asking for 2 tokens out of a fetched balance of 2 raw units at 0 decimals. -/
def burnAllState : TokenBurn.State :=
  { tokenInfo :=
      some { mint := mint.toBase58, decimals := 0, supply := 1000, balance := 2,
             tokenAccount := walletAta.toBase58 },
    burnHistory := [olderRecord],
    formData := { mintAddress := mint.toBase58, amount := "2" } }

/-- The mint as a network reports it when both authorities belong to the recipient, not to the
connected wallet. -/
def foreignMintInfo : MintInfo :=
  { mintInfo with mintAuthority := some recipient, freezeAuthority := some recipient }

/-- The sample environment on a network where the recipient holds the authorities of the mint
and a set-authority signed by anyone else is rejected when the wallet simulates it. -/
def foreignAuthorityEnv : Env :=
  { env with
    getMint := fun address =>
      if address = mint then Except.ok foreignMintInfo else Except.error "TokenAccountNotFoundError"
    sendTransaction := fun _ =>
      Except.error "Transaction simulation failed: Error processing Instruction 0: custom program error: 0x4" }

/-- The mint as the network reports it when the wallet holds the freeze authority. -/
def ownedMintInfo : MintInfo := { mintInfo with freezeAuthority := some wallet }

/-- A freeze form on the sample mint, whose fetched mint info names the wallet as freeze authority. -/
def ownedFreezeState : TokenFreeze.State := { freezeState with mintInfo := some ownedMintInfo }

/-- An authority form that asks to revoke the metadata update authority. -/
def revokeUpdateState : TokenAuthorityTransfer.State :=
  { formData := { mintAddress := mint.toBase58, newAuthority := "",
                  authorityType := "UpdateAuthority", revokeAuthority := true } }

/-- A transfer form whose mint field holds an off-curve address. -/
def transferOfDerivedMint : TokenTransfer.State :=
  { accountInfo := none,
    formData := { mintAddress := derivedMint.toBase58, recipientAddress := recipient.toBase58,
                  amount := "2" } }

/-- A burn form whose mint field holds an off-curve address, before any fetch. -/
def burnOfDerivedMint : TokenBurn.State :=
  { tokenInfo := none, burnHistory := [],
    formData := { mintAddress := derivedMint.toBase58, amount := "2" } }

/-- A transfer form asking for half a token to the recipient. -/
def halfTransferState : TokenTransfer.State :=
  { accountInfo := none,
    formData := { mintAddress := mint.toBase58, recipientAddress := recipient.toBase58, amount := "0.5" } }

/-- A create-token form with supply 0. -/
def zeroSupplyState : TokenCreator.State :=
  { createState with formData := { createState.formData with supply := "0" } }

/-- A create-token form with supply -5. -/
def negativeSupplyState : TokenCreator.State :=
  { createState with formData := { createState.formData with supply := "-5" } }

/-- A burn form asking for half a token while the fetched balance is 1 raw unit at 0 decimals. -/
def burnHalfState : TokenBurn.State :=
  { burnState with formData := { mintAddress := mint.toBase58, amount := "0.5" } }

/-- A burn form asking for half a token while the fetched balance is 0. -/
def burnHalfOfNothingState : TokenBurn.State :=
  { tokenInfo :=
      some { mint := mint.toBase58, decimals := 0, supply := 1000, balance := 0,
             tokenAccount := walletAta.toBase58 },
    burnHistory := [],
    formData := { mintAddress := mint.toBase58, amount := "0.5" } }

/-- A burn form asking for 9007199254740996 tokens while the fetched balance is
9007199254740995 raw units at 0 decimals: one unit less than asked, and an odd number above
2 ^ 53, so not a double. -/
def burnAboveLargeBalanceState : TokenBurn.State :=
  { tokenInfo :=
      some { mint := mint.toBase58, decimals := 0, supply := 18000000000000000,
             balance := 9007199254740995, tokenAccount := walletAta.toBase58 },
    burnHistory := [],
    formData := { mintAddress := mint.toBase58, amount := "9007199254740996" } }

/-- A burn form asking for 0.3 tokens while the fetched balance is 5 raw units at 1 decimal. -/
def burnThreeTenthsState : TokenBurn.State :=
  { tokenInfo :=
      some { mint := mint.toBase58, decimals := 1, supply := 1000, balance := 5,
             tokenAccount := walletAta.toBase58 },
    burnHistory := [],
    formData := { mintAddress := mint.toBase58, amount := "0.3" } }

end Sample

/-! ## Named pieces of logs -/

/-- The events every run of `transferToken` that reaches the balance check has logged by then. -/
def TokenTransfer.prelude (senderAta : PublicKey) : List Event :=
  [Event.setLoading true, Event.setStatus "准备转账...", Event.network (Call.getAccount senderAta)]

/-- The transaction `createRecipientATA` assembles for a missing recipient account. -/
def TokenTransfer.creationTx (publicKey recipientAta recipient mint : PublicKey) : List Instr :=
  [Instr.createAssociatedTokenAccount publicKey recipientAta recipient mint]

/-- The transaction `transferToken` assembles for the transfer itself. -/
def TokenTransfer.transferTx (env : Env) (senderAta recipientAta publicKey : PublicKey) (amount : Int) :
    List Instr :=
  [Instr.transfer senderAta recipientAta publicKey amount [] env.TOKEN_PROGRAM_ID]

/-! ## Step facts for the primitives -/

namespace JS

variable {σ α β : Type}

theorem pure_apply (a : α) (w : World σ) : (pure a : JS σ α) w = (Outcome.ok a, w) := rfl

theorem bind_apply (m : JS σ α) (f : α → JS σ β) (w : World σ) :
    (m >>= f) w = match m w with
      | (Outcome.ok a, w1) => f a w1
      | (Outcome.thrown e, w1) => (Outcome.thrown e, w1) := rfl

theorem ite_apply (c : Prop) [Decidable c] (m1 m2 : JS σ α) (w : World σ) :
    (if c then m1 else m2) w = if c then m1 w else m2 w := by
  split <;> rfl

theorem emit_apply (e : Event) (w : World σ) :
    (emit e : JS σ Unit) w = (Outcome.ok (), { w with log := w.log ++ [e] }) := rfl

theorem setStatus_apply (t : String) (w : World σ) :
    (setStatus t : JS σ Unit) w = (Outcome.ok (), { w with status := t, log := w.log ++ [Event.setStatus t] }) := rfl

theorem setLoading_apply (b : Bool) (w : World σ) :
    (setLoading b : JS σ Unit) w = (Outcome.ok (), { w with loading := b, log := w.log ++ [Event.setLoading b] }) := rfl

theorem modifySt_apply (f : σ → σ) (w : World σ) :
    (modifySt f : JS σ Unit) w = (Outcome.ok (), { w with st := f w.st }) := rfl

theorem raise_apply (e : String) (w : World σ) : (raise e : JS σ α) w = (Outcome.thrown e, w) := rfl

theorem await_ok (a : α) (w : World σ) : (await (Except.ok a) : JS σ α) w = (Outcome.ok a, w) := rfl

theorem await_error (e : String) (w : World σ) :
    (await (Except.error e) : JS σ α) w = (Outcome.thrown e, w) := rfl

theorem request_ok (c : Call) (a : α) (w : World σ) :
    (request c (Except.ok a) : JS σ α) w = (Outcome.ok a, { w with log := w.log ++ [Event.network c] }) := rfl

theorem request_error (c : Call) (e : String) (w : World σ) :
    (request c (Except.error e) : JS σ α) w =
      (Outcome.thrown e, { w with log := w.log ++ [Event.network c] }) := rfl

theorem tryCatch_apply (body : JS σ α) (handler : String → JS σ α) (w : World σ) :
    tryCatch body handler w = match body w with
      | (Outcome.ok a, w1) => (Outcome.ok a, w1)
      | (Outcome.thrown e, w1) => handler e w1 := rfl

theorem tryFinally_apply (body : JS σ α) (cleanup : JS σ Unit) (w : World σ) :
    tryFinally body cleanup w = match body w with
      | (r, w1) =>
        match cleanup w1 with
        | (Outcome.ok _, w2) => (r, w2)
        | (Outcome.thrown e, w2) => (Outcome.thrown e, w2) := rfl

end JS

/-! ## Facts about logs and numbers -/

theorem sentTxs_append (xs ys : List Event) : sentTxs (xs ++ ys) = sentTxs xs ++ sentTxs ys := by
  induction xs with
  | nil => rfl
  | cons e es ih => cases e <;> simp [sentTxs, ih]

theorem builtTxs_append (xs ys : List Event) : builtTxs (xs ++ ys) = builtTxs xs ++ builtTxs ys := by
  induction xs with
  | nil => rfl
  | cons e es ih => cases e <;> simp [builtTxs, ih]

theorem networkCalls_append (xs ys : List Event) :
    networkCalls (xs ++ ys) = networkCalls xs ++ networkCalls ys := by
  induction xs with
  | nil => rfl
  | cons e es ih => cases e <;> simp [networkCalls, ih]

theorem loadingSets_append (xs ys : List Event) :
    loadingSets (xs ++ ys) = loadingSets xs ++ loadingSets ys := by
  induction xs with
  | nil => rfl
  | cons e es ih => cases e <;> simp [loadingSets, ih]

/-- The value `BigInt(Math.floor(r))` of a finite number. -/
theorem JSNum.floor_fin_toBigInt (r : ℚ) : (JSNum.floor (JSNum.fin r)).toBigInt = some ⌊r⌋ := by
  simp [JSNum.floor, JSNum.toBigInt]

theorem JSNum.le0_fin_of_pos (a : ℚ) (h : 0 < a) : (JSNum.fin a).le0 = false := by
  simp [JSNum.le0, h]

/-- A number that compares greater than another is not NaN. -/
theorem JSNum.not_nan_of_gt (a y : JSNum) (h : a.gt y = true) : a.isNaN = false := by
  cases a <;> simp [JSNum.gt, JSNum.isNaN] at h ⊢

/-- The amount the sample create-token form mints: 2 times ten to the power 0. -/
theorem Sample.createState_mintAmount :
    TokenCreator.mintAmount Sample.env Sample.createState.formData = JSNum.fin 2 := by
  simp [TokenCreator.mintAmount, Sample.env, Sample.createState, Sample.number]

/-- The SDK accepts the amount of the sample create-token form. -/
theorem Sample.createState_accepted :
    Sample.env.instructionAmount (TokenCreator.mintAmount Sample.env Sample.createState.formData) =
      Except.ok 2 := by
  rw [Sample.createState_mintAmount]
  simp [Env.instructionAmount, JSNum.toBigInt, Sample.env]

/-- In the sample environment a product with ten to the power of the decimals read for the
wallet account (none, so 0) is the other factor. -/
theorem Sample.mul_at_no_decimals (q : ℚ) :
    Sample.env.mul (JSNum.fin q) (Sample.env.pow10 (Sample.walletAccount.mint_decimals.getD 0)) =
      JSNum.fin q := by
  simp [Sample.env, Env.pow10, Sample.walletAccount]

theorem Sample.floor_three_halves : ⌊(3 / 2 : ℚ)⌋ = 1 := by
  rw [Int.floor_eq_iff]
  norm_num

/-! ## The validators -/

/-- The validator of TokenBurn.js never throws and leaves the world alone. -/
theorem burn_isValid_apply {σ : Type} (env : Env) (address : String) (w : World σ) :
    TokenBurn.isValidSolanaAddress env address w =
      (Outcome.ok (match env.newPublicKey address with
        | Except.ok key => env.isOnCurve key
        | Except.error _ => false), w) := by
  cases h : env.newPublicKey address <;>
  simp [TokenBurn.isValidSolanaAddress, JS.tryCatch, JS.await, JS.raise, JS.bind_apply, JS.pure_apply, h]

/-- The validator of TokenTransfer.js never throws and leaves the world alone: it answers
whether the text decodes to a key on the curve. -/
theorem transfer_isValid_apply {σ : Type} (env : Env) (address : String) (w : World σ) :
    TokenTransfer.isValidSolanaAddress env address w =
      (Outcome.ok (match env.newPublicKey address with
        | Except.ok key => env.isOnCurve key
        | Except.error _ => false), w) := by
  cases h : env.newPublicKey address <;>
  simp [TokenTransfer.isValidSolanaAddress, JS.tryCatch, JS.await, JS.raise, JS.bind_apply, JS.pure_apply, h]

/-- The validator of TokenFreeze.js never throws and leaves the world alone: it answers
whether the text decodes. -/
theorem freeze_isValid_apply {σ : Type} (env : Env) (address : String) (w : World σ) :
    TokenFreeze.isValidSolanaAddress env address w =
      (Outcome.ok (match env.newPublicKey address with
        | Except.ok _ => true
        | Except.error _ => false), w) := by
  cases h : env.newPublicKey address <;>
  simp [TokenFreeze.isValidSolanaAddress, JS.tryCatch, JS.await, JS.raise, JS.bind_apply, JS.pure_apply, h]

/-- The validator of TokenAuthorityTransfer.js never throws and leaves the world alone. -/
theorem authority_isValid_apply {σ : Type} (env : Env) (address : String)
    (w : World σ) :
    TokenAuthorityTransfer.isValidSolanaAddress env address w =
      (Outcome.ok (match env.newPublicKey address with
        | Except.ok _ => true
        | Except.error _ => false), w) := by
  cases h : env.newPublicKey address <;>
  simp [TokenAuthorityTransfer.isValidSolanaAddress, JS.tryCatch, JS.await, JS.raise, JS.bind_apply,
    JS.pure_apply, h]

/-- The validator of TokenCreator.js never throws and leaves the world alone. -/
theorem creator_isValid_apply {σ : Type} (env : Env) (address : String) (w : World σ) :
    TokenCreator.isValidSolanaAddress env address w =
      (Outcome.ok (match env.newPublicKey address with
        | Except.ok _ => true
        | Except.error _ => false), w) := by
  cases h : env.newPublicKey address <;>
  simp [TokenCreator.isValidSolanaAddress, JS.tryCatch, JS.await, JS.raise, JS.bind_apply, JS.pure_apply, h]

/-! ## TokenTransfer: paths through `transferToken` -/

theorem transfer_check_found (env : Env) (pk m senderAta : PublicKey) (s : TokenTransfer.State)
    (info : Account)
    (hmint : s.formData.mintAddress ≠ "")
    (hm : env.newPublicKey s.formData.mintAddress = Except.ok m) (hmc : env.isOnCurve m = true)
    (hata : env.getAssociatedTokenAddress m pk = Except.ok senderAta)
    (hacc : env.getAccount senderAta = Except.ok info) (w : World TokenTransfer.State) :
    TokenTransfer.checkTokenBalance env (some pk) s w =
      (Outcome.ok (some (TokenTransfer.BalanceResult.found info)),
        { w with st := { w.st with accountInfo := some info },
                 log := w.log ++ [Event.network (Call.getAccount senderAta)] }) := by
  simp [TokenTransfer.checkTokenBalance, transfer_isValid_apply, JS.ite_apply, JS.bind_apply, JS.pure_apply,
    JS.tryCatch_apply, JS.await_ok, JS.request_ok, JS.modifySt_apply, hmint, hm, hmc, hata, hacc]

theorem transfer_createRecipientATA_apply (env : Env) (pk m r recipientAta : PublicKey)
    (hrata : env.getAssociatedTokenAddress m r = Except.ok recipientAta)
    (w : World TokenTransfer.State) :
    TokenTransfer.createRecipientATA env pk m r w =
      match env.getAccount recipientAta with
      | Except.ok _ =>
        (Outcome.ok { created := false, address := recipientAta },
          { w with log := w.log ++ [Event.network (Call.getAccount recipientAta)] })
      | Except.error _ =>
        match env.sendTransaction (TokenTransfer.creationTx pk recipientAta r m) with
        | Except.error e =>
          (Outcome.thrown e,
            { w with log := w.log ++ [Event.network (Call.getAccount recipientAta),
                Event.build (TokenTransfer.creationTx pk recipientAta r m),
                Event.send (TokenTransfer.creationTx pk recipientAta r m) []] })
        | Except.ok signature =>
          match env.confirmTransaction signature with
          | Except.error e =>
            (Outcome.thrown e,
              { w with log := w.log ++ [Event.network (Call.getAccount recipientAta),
                  Event.build (TokenTransfer.creationTx pk recipientAta r m),
                  Event.send (TokenTransfer.creationTx pk recipientAta r m) [],
                  Event.network (Call.confirmTransaction signature)] })
          | Except.ok _ =>
            (Outcome.ok { created := true, address := recipientAta },
              { w with log := w.log ++ [Event.network (Call.getAccount recipientAta),
                  Event.build (TokenTransfer.creationTx pk recipientAta r m),
                  Event.send (TokenTransfer.creationTx pk recipientAta r m) [],
                  Event.network (Call.confirmTransaction signature)] }) := by
  cases hlook : env.getAccount recipientAta with
  | ok acc =>
    simp [TokenTransfer.createRecipientATA, JS.bind_apply, JS.pure_apply, JS.tryCatch_apply, JS.await_ok,
      JS.request_ok, hrata, hlook]
  | error e0 =>
    cases hcs : env.sendTransaction (TokenTransfer.creationTx pk recipientAta r m) with
    | error e1 =>
      simp [TokenTransfer.creationTx] at hcs
      simp [TokenTransfer.createRecipientATA, TokenTransfer.creationTx, JS.bind_apply, JS.pure_apply,
        JS.tryCatch_apply, JS.await_ok, JS.await_error, JS.request_error, JS.emit_apply, JS.raise_apply,
        hrata, hlook, hcs]
    | ok sig1 =>
      simp [TokenTransfer.creationTx] at hcs
      cases hcc : env.confirmTransaction sig1 <;>
      simp [TokenTransfer.createRecipientATA, TokenTransfer.creationTx, JS.bind_apply, JS.pure_apply,
        JS.tryCatch_apply, JS.await_ok, JS.await_error, JS.request_ok, JS.request_error, JS.emit_apply,
        JS.raise_apply, hrata, hlook, hcs, hcc]

theorem transfer_sent_after_check (env : Env) (pk m r senderAta recipientAta : PublicKey)
    (s : TokenTransfer.State) (info : Account) (a x : ℚ) (w : World TokenTransfer.State)
    (hmint : s.formData.mintAddress ≠ "") (hrec : s.formData.recipientAddress ≠ "")
    (hamt : s.formData.amount ≠ "")
    (hm : env.newPublicKey s.formData.mintAddress = Except.ok m) (hmc : env.isOnCurve m = true)
    (hr : env.newPublicKey s.formData.recipientAddress = Except.ok r) (hrc : env.isOnCurve r = true)
    (ha : env.parseFloat s.formData.amount = JSNum.fin a) (hpos : 0 < a)
    (hmul : env.mul (JSNum.fin a) (env.pow10 (info.mint_decimals.getD 0)) = JSNum.fin x)
    (hata : env.getAssociatedTokenAddress m pk = Except.ok senderAta)
    (hacc : env.getAccount senderAta = Except.ok info)
    (hle : ⌊x⌋ ≤ (info.amount : ℤ))
    (hrata : env.getAssociatedTokenAddress m r = Except.ok recipientAta) :
    sentTxs ((TokenTransfer.transferToken env (some pk) s).exec w).log =
      sentTxs w.log ++
        (match env.getAccount recipientAta with
         | Except.ok _ =>
           [TokenTransfer.transferTx env senderAta recipientAta pk ⌊x⌋]
         | Except.error _ =>
           TokenTransfer.creationTx pk recipientAta r m ::
             (match env.sendTransaction (TokenTransfer.creationTx pk recipientAta r m) with
              | Except.error _ => []
              | Except.ok signature =>
                match env.confirmTransaction signature with
                | Except.error _ => []
                | Except.ok _ =>
                  [TokenTransfer.transferTx env senderAta recipientAta pk
                    ⌊x⌋])) := by
  have hnot : ¬ ((info.amount : ℤ) < ⌊x⌋) := not_lt.mpr hle
  have hstart : (TokenTransfer.transferToken env (some pk) s).exec w =
      ((JS.tryFinally (JS.tryCatch (TokenTransfer.transferTokenTry env pk s)
          (fun message => JS.setStatus (TokenTransfer.errorMessage message))) (JS.setLoading false))
        { w with loading := true, status := "准备转账...",
                 log := w.log ++ [Event.setLoading true, Event.setStatus "准备转账..."] }).2 := by
    simp [TokenTransfer.transferToken, transfer_isValid_apply, JS.exec, JS.ite_apply, JS.bind_apply,
      JS.setStatus_apply, JS.setLoading_apply, hmint, hrec, hamt, hm, hmc, hr, hrc, ha,
      JSNum.le0_fin_of_pos a hpos]
  rw [hstart]
  cases hlook : env.getAccount recipientAta with
  | ok acc =>
    cases hsend : env.sendTransaction
        (TokenTransfer.transferTx env senderAta recipientAta pk ⌊x⌋) with
    | error e =>
      simp [TokenTransfer.transferTx] at hsend
      simp [TokenTransfer.transferTokenTry, TokenTransfer.transferTx, TokenTransfer.creationTx,
        transfer_check_found env pk m senderAta s info hmint hm hmc hata hacc,
        transfer_createRecipientATA_apply env pk m r recipientAta hrata,
        JS.ite_apply, JS.bind_apply, JS.pure_apply, JS.tryCatch_apply, JS.tryFinally_apply, JS.await_ok,
        JS.await_error, JS.request_ok, JS.request_error, JS.emit_apply, JS.setStatus_apply,
        JS.setLoading_apply, JS.raise_apply, hm, hr, ha, hata, hmul, JSNum.floor_fin_toBigInt, hnot, hlook,
        sentTxs_append, sentTxs, hsend]
    | ok sig =>
      simp [TokenTransfer.transferTx] at hsend
      cases hconf : env.confirmTransaction sig <;>
      simp [TokenTransfer.transferTokenTry, TokenTransfer.transferTx, TokenTransfer.creationTx,
        transfer_check_found env pk m senderAta s info hmint hm hmc hata hacc,
        transfer_createRecipientATA_apply env pk m r recipientAta hrata,
        JS.ite_apply, JS.bind_apply, JS.pure_apply, JS.tryCatch_apply, JS.tryFinally_apply, JS.await_ok,
        JS.await_error, JS.request_ok, JS.request_error, JS.emit_apply, JS.setStatus_apply,
        JS.setLoading_apply, JS.raise_apply, hm, hr, ha, hata, hmul, JSNum.floor_fin_toBigInt, hnot, hlook,
        sentTxs_append, sentTxs, hsend, hconf]
  | error e0 =>
    cases hcs : env.sendTransaction (TokenTransfer.creationTx pk recipientAta r m) with
    | error e1 =>
      simp [TokenTransfer.creationTx] at hcs
      simp [TokenTransfer.transferTokenTry, TokenTransfer.transferTx, TokenTransfer.creationTx,
        transfer_check_found env pk m senderAta s info hmint hm hmc hata hacc,
        transfer_createRecipientATA_apply env pk m r recipientAta hrata,
        JS.ite_apply, JS.bind_apply, JS.pure_apply, JS.tryCatch_apply, JS.tryFinally_apply, JS.await_ok,
        JS.await_error, JS.request_ok, JS.request_error, JS.emit_apply, JS.setStatus_apply,
        JS.setLoading_apply, JS.raise_apply, hm, hr, ha, hata, hmul, JSNum.floor_fin_toBigInt, hnot, hlook,
        sentTxs_append, sentTxs, hcs]
    | ok sig1 =>
      simp [TokenTransfer.creationTx] at hcs
      cases hcc : env.confirmTransaction sig1 with
      | error e2 =>
        simp [TokenTransfer.transferTokenTry, TokenTransfer.transferTx, TokenTransfer.creationTx,
        transfer_check_found env pk m senderAta s info hmint hm hmc hata hacc,
        transfer_createRecipientATA_apply env pk m r recipientAta hrata,
        JS.ite_apply, JS.bind_apply, JS.pure_apply, JS.tryCatch_apply, JS.tryFinally_apply, JS.await_ok,
        JS.await_error, JS.request_ok, JS.request_error, JS.emit_apply, JS.setStatus_apply,
        JS.setLoading_apply, JS.raise_apply, hm, hr, ha, hata, hmul, JSNum.floor_fin_toBigInt, hnot, hlook,
        sentTxs_append, sentTxs, hcs, hcc]
      | ok c1 =>
        cases hsend : env.sendTransaction
            (TokenTransfer.transferTx env senderAta recipientAta pk ⌊x⌋) with
        | error e =>
          simp [TokenTransfer.transferTx] at hsend
          simp [TokenTransfer.transferTokenTry, TokenTransfer.transferTx, TokenTransfer.creationTx,
        transfer_check_found env pk m senderAta s info hmint hm hmc hata hacc,
        transfer_createRecipientATA_apply env pk m r recipientAta hrata,
        JS.ite_apply, JS.bind_apply, JS.pure_apply, JS.tryCatch_apply, JS.tryFinally_apply, JS.await_ok,
        JS.await_error, JS.request_ok, JS.request_error, JS.emit_apply, JS.setStatus_apply,
        JS.setLoading_apply, JS.raise_apply, hm, hr, ha, hata, hmul, JSNum.floor_fin_toBigInt, hnot, hlook,
        sentTxs_append, sentTxs, hcs, hcc, hsend]
        | ok sig =>
          simp [TokenTransfer.transferTx] at hsend
          cases hconf : env.confirmTransaction sig <;>
          simp [TokenTransfer.transferTokenTry, TokenTransfer.transferTx, TokenTransfer.creationTx,
        transfer_check_found env pk m senderAta s info hmint hm hmc hata hacc,
        transfer_createRecipientATA_apply env pk m r recipientAta hrata,
        JS.ite_apply, JS.bind_apply, JS.pure_apply, JS.tryCatch_apply, JS.tryFinally_apply, JS.await_ok,
        JS.await_error, JS.request_ok, JS.request_error, JS.emit_apply, JS.setStatus_apply,
        JS.setLoading_apply, JS.raise_apply, hm, hr, ha, hata, hmul, JSNum.floor_fin_toBigInt, hnot, hlook,
        sentTxs_append, sentTxs, hcs, hcc, hsend, hconf]

/-- The run of `transferToken` when the floored raw amount exceeds the balance. -/
theorem transfer_insufficient_run (env : Env) (pk m r senderAta : PublicKey) (s : TokenTransfer.State)
    (info : Account) (a x : ℚ) (w : World TokenTransfer.State)
    (hmint : s.formData.mintAddress ≠ "") (hrec : s.formData.recipientAddress ≠ "")
    (hamt : s.formData.amount ≠ "")
    (hm : env.newPublicKey s.formData.mintAddress = Except.ok m) (hmc : env.isOnCurve m = true)
    (hr : env.newPublicKey s.formData.recipientAddress = Except.ok r) (hrc : env.isOnCurve r = true)
    (ha : env.parseFloat s.formData.amount = JSNum.fin a) (hpos : 0 < a)
    (hmul : env.mul (JSNum.fin a) (env.pow10 (info.mint_decimals.getD 0)) = JSNum.fin x)
    (hata : env.getAssociatedTokenAddress m pk = Except.ok senderAta)
    (hacc : env.getAccount senderAta = Except.ok info)
    (hgt : (info.amount : ℤ) < ⌊x⌋) :
    TokenTransfer.transferToken env (some pk) s w =
      (Outcome.ok (),
        { loading := false,
          status := TokenTransfer.insufficientStatus env info.amount (info.mint_decimals.getD 0),
          st := { w.st with accountInfo := some info },
          log := w.log ++ (TokenTransfer.prelude senderAta ++
            [Event.setStatus (TokenTransfer.insufficientStatus env info.amount (info.mint_decimals.getD 0)),
             Event.setLoading false, Event.setLoading false]) }) := by
  simp [TokenTransfer.transferToken, TokenTransfer.transferTokenTry, TokenTransfer.prelude,
    transfer_check_found env pk m senderAta s info hmint hm hmc hata hacc,
    transfer_isValid_apply, JS.ite_apply, JS.bind_apply, JS.pure_apply,
    JS.tryCatch_apply, JS.tryFinally_apply, JS.await_ok, JS.setStatus_apply, JS.setLoading_apply,
    hmint, hrec, hamt, hm, hmc, hr, hrc, ha, JSNum.le0_fin_of_pos a hpos,
    hmul, JSNum.floor_fin_toBigInt, hgt]

/-- The run of `transferToken` once every submission is accepted and every confirmation call
resolves, whatever the confirmations report: the success status is shown. -/
theorem transfer_resolved_status (env : Env) (pk m r senderAta recipientAta : PublicKey)
    (s : TokenTransfer.State) (info : Account) (a x : ℚ) (w : World TokenTransfer.State)
    (sig1 sig : String) (c1 c : Option String)
    (hmint : s.formData.mintAddress ≠ "") (hrec : s.formData.recipientAddress ≠ "")
    (hamt : s.formData.amount ≠ "")
    (hm : env.newPublicKey s.formData.mintAddress = Except.ok m) (hmc : env.isOnCurve m = true)
    (hr : env.newPublicKey s.formData.recipientAddress = Except.ok r) (hrc : env.isOnCurve r = true)
    (ha : env.parseFloat s.formData.amount = JSNum.fin a) (hpos : 0 < a)
    (hmul : env.mul (JSNum.fin a) (env.pow10 (info.mint_decimals.getD 0)) = JSNum.fin x)
    (hata : env.getAssociatedTokenAddress m pk = Except.ok senderAta)
    (hacc : env.getAccount senderAta = Except.ok info)
    (hle : ⌊x⌋ ≤ (info.amount : ℤ))
    (hrata : env.getAssociatedTokenAddress m r = Except.ok recipientAta)
    (hlook : ∃ e, env.getAccount recipientAta = Except.error e)
    (hcs : env.sendTransaction (TokenTransfer.creationTx pk recipientAta r m) = Except.ok sig1)
    (hcc : env.confirmTransaction sig1 = Except.ok c1)
    (hsend : env.sendTransaction (TokenTransfer.transferTx env senderAta recipientAta pk
      ⌊x⌋) = Except.ok sig)
    (hconf : env.confirmTransaction sig = Except.ok c) :
    ((TokenTransfer.transferToken env (some pk) s).exec w).status =
      TokenTransfer.successStatus s.formData := by
  obtain ⟨e0, hlook⟩ := hlook
  have hnot : ¬ ((info.amount : ℤ) < ⌊x⌋) := not_lt.mpr hle
  have hstart : (TokenTransfer.transferToken env (some pk) s).exec w =
      ((JS.tryFinally (JS.tryCatch (TokenTransfer.transferTokenTry env pk s)
          (fun message => JS.setStatus (TokenTransfer.errorMessage message))) (JS.setLoading false))
        { w with loading := true, status := "准备转账...",
                 log := w.log ++ [Event.setLoading true, Event.setStatus "准备转账..."] }).2 := by
    simp [TokenTransfer.transferToken, transfer_isValid_apply, JS.exec, JS.ite_apply, JS.bind_apply,
      JS.setStatus_apply, JS.setLoading_apply, hmint, hrec, hamt, hm, hmc, hr, hrc, ha,
      JSNum.le0_fin_of_pos a hpos]
  rw [hstart]
  simp [TokenTransfer.creationTx] at hcs
  simp [TokenTransfer.transferTx] at hsend
  simp [TokenTransfer.transferTokenTry, TokenTransfer.transferTx, TokenTransfer.creationTx,
    transfer_check_found env pk m senderAta s info hmint hm hmc hata hacc,
    transfer_createRecipientATA_apply env pk m r recipientAta hrata,
    JS.ite_apply, JS.bind_apply, JS.pure_apply, JS.tryCatch_apply, JS.tryFinally_apply, JS.await_ok,
    JS.await_error, JS.request_ok, JS.request_error, JS.emit_apply, JS.setStatus_apply,
    JS.setLoading_apply, JS.raise_apply, hm, hr, ha, hata, hmul, JSNum.floor_fin_toBigInt, hnot, hlook,
    hcs, hcc, hsend, hconf]

/-- The run of `transferToken` when the recipient text does not decode to a key on the curve. -/
theorem transfer_invalid_recipient_run (env : Env) (pk m : PublicKey) (s : TokenTransfer.State)
    (w : World TokenTransfer.State)
    (hmint : s.formData.mintAddress ≠ "") (hrec : s.formData.recipientAddress ≠ "")
    (hamt : s.formData.amount ≠ "")
    (hm : env.newPublicKey s.formData.mintAddress = Except.ok m) (hmc : env.isOnCurve m = true)
    (hbad : ∀ key, env.newPublicKey s.formData.recipientAddress = Except.ok key → env.isOnCurve key = false) :
    TokenTransfer.transferToken env (some pk) s w =
      (Outcome.ok (),
        { w with status := "错误: 无效的接收方地址（地址不在椭圆曲线上）",
                 log := w.log ++ [Event.setStatus "错误: 无效的接收方地址（地址不在椭圆曲线上）"] }) := by
  have hv : (match env.newPublicKey s.formData.recipientAddress with
      | Except.ok key => env.isOnCurve key
      | Except.error _ => false) = false := by
    cases h : env.newPublicKey s.formData.recipientAddress with
    | error e => rfl
    | ok key => simpa using hbad key h
  simp [TokenTransfer.transferToken, transfer_isValid_apply, JS.ite_apply, JS.bind_apply,
    JS.setStatus_apply, hmint, hrec, hamt, hm, hmc, hv]

/-! ## TokenBurn: paths through `burnTokens` and `saveBurnRecord` -/

/-- The answer of `validateBurnAmount` on an amount above the balance. -/
theorem burn_validate_above (env : Env) (amount : String) (b d : Nat) (a : JSNum)
    (hne : amount ≠ "") (hnum : env.toNumber amount = a) (hpf : env.parseFloat amount = a)
    (hpos : a.le0 = false)
    (hgt : a.gt (env.div (env.numberOfNat b) (env.pow10 d)) = true) {σ : Type} (w : World σ) :
    TokenBurn.validateBurnAmount env amount (env.numberOfNat b) d w =
      match env.toFixed (env.div (env.numberOfNat b) (env.pow10 d)) d with
      | Except.ok shown => (Outcome.ok { valid := false, message := "燃烧数量不能超过余额 " ++ shown }, w)
      | Except.error e => (Outcome.thrown e, w) := by
  have h1 := JSNum.not_nan_of_gt a _ hgt
  have h2 := hpos
  cases hfix : env.toFixed (env.div (env.numberOfNat b) (env.pow10 d)) d <;>
  simp [TokenBurn.validateBurnAmount, JS.ite_apply, JS.bind_apply, JS.pure_apply, JS.await_ok,
    JS.await_error, hne, hnum, hpf, h1, h2, hgt, hfix]

/-- The run of `burnTokens` on an amount above the balance, wallet connected. -/
theorem burn_above_run (env : Env) (pk : PublicKey) (network : String) (s : TokenBurn.State)
    (ti : TokenBurn.TokenInfo) (a : JSNum) (w : World TokenBurn.State)
    (hti : s.tokenInfo = some ti) (hne : s.formData.amount ≠ "")
    (hnum : env.toNumber s.formData.amount = a) (hpf : env.parseFloat s.formData.amount = a)
    (hpos : a.le0 = false)
    (hgt : a.gt (env.div (env.numberOfNat ti.balance) (env.pow10 ti.decimals)) = true) :
    TokenBurn.burnTokens env (some pk) network s w =
      (Outcome.ok (),
        { w with
          loading := false,
          status := "燃烧失败: " ++
            (match env.toFixed (env.div (env.numberOfNat ti.balance) (env.pow10 ti.decimals)) ti.decimals with
             | Except.ok shown => "燃烧数量不能超过余额 " ++ shown
             | Except.error e => e),
          log := w.log ++ [Event.setLoading true, Event.setStatus "正在准备燃烧交易...",
            Event.setStatus ("燃烧失败: " ++
              (match env.toFixed (env.div (env.numberOfNat ti.balance) (env.pow10 ti.decimals))
                  ti.decimals with
               | Except.ok shown => "燃烧数量不能超过余额 " ++ shown
               | Except.error e => e)),
            Event.setLoading false] }) := by
  cases hfix : env.toFixed (env.div (env.numberOfNat ti.balance) (env.pow10 ti.decimals)) ti.decimals <;>
  simp [TokenBurn.burnTokens, TokenBurn.burnTokensTry, hti,
    burn_validate_above env s.formData.amount ti.balance ti.decimals a hne hnum hpf hpos hgt,
    JS.ite_apply, JS.bind_apply, JS.pure_apply, JS.tryCatch_apply, JS.tryFinally_apply,
    JS.setStatus_apply, JS.setLoading_apply, JS.raise_apply, hfix]

/-- The answer of `validateBurnAmount` on a numeric, positive amount within the balance. -/
theorem burn_validate_within (env : Env) (amount : String) (b d : Nat)
    (hne : amount ≠ "") (hnum : (env.toNumber amount).isNaN = false)
    (hpos : (env.parseFloat amount).le0 = false)
    (hle : (env.parseFloat amount).gt (env.div (env.numberOfNat b) (env.pow10 d)) = false)
    {σ : Type} (w : World σ) :
    TokenBurn.validateBurnAmount env amount (env.numberOfNat b) d w =
      (Outcome.ok { valid := true, message := "" }, w) := by
  simp [TokenBurn.validateBurnAmount, JS.ite_apply, JS.pure_apply, hne, hnum, hpos, hle]

/-- The run of `burnTokens` when the burn is submitted and confirmed without error: one burn
instruction is assembled and submitted, and the success status is shown. -/
theorem burn_confirmed_run (env : Env) (pk mintKey accountKey : PublicKey) (network : String)
    (s : TokenBurn.State) (ti : TokenBurn.TokenInfo) (blockhash signature : String)
    (w : World TokenBurn.State)
    (hti : s.tokenInfo = some ti) (hne : s.formData.amount ≠ "")
    (hnum : (env.toNumber s.formData.amount).isNaN = false)
    (hpos : (env.parseFloat s.formData.amount).le0 = false)
    (hle : (env.parseFloat s.formData.amount).gt
      (env.div (env.numberOfNat ti.balance) (env.pow10 ti.decimals)) = false)
    (hraw : (JSNum.floor (env.mul (env.parseFloat s.formData.amount)
      (env.pow10 ti.decimals))).le0 = false)
    (hmint : env.newPublicKey ti.mint = Except.ok mintKey)
    (hacc : env.newPublicKey ti.tokenAccount = Except.ok accountKey)
    (n : Int) (henc : env.instructionAmount (JSNum.floor (env.mul (env.parseFloat s.formData.amount)
      (env.pow10 ti.decimals))) = Except.ok n)
    (hblock : env.getLatestBlockhash = Except.ok blockhash)
    (hsend : env.sendTransaction [Instr.burn accountKey mintKey pk
      (JSNum.floor (env.mul (env.parseFloat s.formData.amount) (env.pow10 ti.decimals))) []
      env.TOKEN_PROGRAM_ID] = Except.ok signature)
    (hconf : env.confirmTransaction signature = Except.ok none)
    (hstore : ∀ records, env.storageSetItem "tokenBurnHistory" records = Except.ok ()) :
    (TokenBurn.burnTokens env (some pk) network s).result w = Outcome.ok () ∧
    ((TokenBurn.burnTokens env (some pk) network s).exec w).status = "燃烧成功! 交易签名: " ++ signature ∧
    builtTxs ((TokenBurn.burnTokens env (some pk) network s).exec w).log =
      builtTxs w.log ++ [[Instr.burn accountKey mintKey pk
        (JSNum.floor (env.mul (env.parseFloat s.formData.amount) (env.pow10 ti.decimals))) []
        env.TOKEN_PROGRAM_ID]] ∧
    sentTxs ((TokenBurn.burnTokens env (some pk) network s).exec w).log =
      sentTxs w.log ++ [[Instr.burn accountKey mintKey pk
        (JSNum.floor (env.mul (env.parseFloat s.formData.amount) (env.pow10 ti.decimals))) []
        env.TOKEN_PROGRAM_ID]] := by
  simp [TokenBurn.burnTokens, TokenBurn.burnTokensTry, TokenBurn.saveBurnRecord, hti, JS.result, JS.exec,
    burn_validate_within env s.formData.amount ti.balance ti.decimals hne hnum hpos hle,
    JS.ite_apply, JS.bind_apply, JS.pure_apply, JS.tryCatch_apply, JS.tryFinally_apply, JS.await_ok,
    JS.await_error, JS.request_ok, JS.emit_apply, JS.setStatus_apply, JS.setLoading_apply,
    JS.modifySt_apply, JS.raise_apply, hraw, hmint,
    hacc, henc, hblock, hsend, hconf, hstore, builtTxs_append, sentTxs_append, builtTxs, sentTxs]


/-- The run of `burnTokens` without a connected wallet. -/
theorem burn_no_wallet_run (env : Env) (network : String) (s : TokenBurn.State)
    (w : World TokenBurn.State) :
    TokenBurn.burnTokens env none network s w =
      (Outcome.ok (),
        { w with status := "请先连接钱包并获取代币信息",
                 log := w.log ++ [Event.setStatus "请先连接钱包并获取代币信息"] }) := by
  simp [TokenBurn.burnTokens, JS.setStatus_apply]

/-- The in-memory history after `saveBurnRecord`, whether or not the storage write throws. -/
theorem burn_saved_history (env : Env) (s : TokenBurn.State) (record : BurnRecord)
    (w : World TokenBurn.State) :
    ((TokenBurn.saveBurnRecord env s record).exec w).st.burnHistory =
      (record :: s.burnHistory).take 50 := by
  cases hset : env.storageSetItem "tokenBurnHistory" (record :: s.burnHistory.take 49) <;>
  simp [TokenBurn.saveBurnRecord, JS.exec, JS.bind_apply, JS.modifySt_apply, JS.await_ok, JS.await_error,
    JS.emit_apply, hset]

/-- A token info left in place by `getTokenInfo` has had its balance rendered by `toFixed`:
the fetch renders the very number `validateBurnAmount` renders, and resets the token info
when that throws. -/
theorem burn_fetched_balance_renders (env : Env) (pk : PublicKey) (s : TokenBurn.State)
    (ti : TokenBurn.TokenInfo) (w : World TokenBurn.State)
    (hmint : s.formData.mintAddress ≠ "")
    (hset : ((TokenBurn.getTokenInfo env (some pk) s).exec w).st.tokenInfo = some ti) :
    ∃ shown, env.toFixed (env.div (env.numberOfNat ti.balance) (env.pow10 ti.decimals)) ti.decimals =
      Except.ok shown := by
  cases hdec : env.newPublicKey s.formData.mintAddress with
  | error e =>
    simp [TokenBurn.getTokenInfo, burn_isValid_apply, JS.exec, JS.ite_apply, JS.bind_apply,
      JS.tryCatch_apply, JS.tryFinally_apply, JS.setStatus_apply, JS.setLoading_apply, JS.raise_apply,
      JS.modifySt_apply, hmint, hdec] at hset
  | ok m =>
    cases hcurve : env.isOnCurve m with
    | false =>
      simp [TokenBurn.getTokenInfo, burn_isValid_apply, JS.exec, JS.ite_apply, JS.bind_apply,
        JS.tryCatch_apply, JS.tryFinally_apply, JS.setStatus_apply, JS.setLoading_apply, JS.raise_apply,
        JS.modifySt_apply, hmint, hdec, hcurve] at hset
    | true =>
      cases hgm : env.getMint m with
      | error e =>
        simp [TokenBurn.getTokenInfo, burn_isValid_apply, JS.exec, JS.ite_apply, JS.bind_apply,
          JS.tryCatch_apply, JS.tryFinally_apply, JS.setStatus_apply, JS.setLoading_apply, JS.raise_apply,
          JS.modifySt_apply, JS.await_ok, JS.request_error, hmint, hdec, hcurve, hgm] at hset
      | ok mi =>
        cases hata : env.getAssociatedTokenAddress m pk with
        | error e =>
          simp [TokenBurn.getTokenInfo, burn_isValid_apply, JS.exec, JS.ite_apply, JS.bind_apply,
            JS.tryCatch_apply, JS.tryFinally_apply, JS.setStatus_apply, JS.setLoading_apply,
            JS.raise_apply, JS.modifySt_apply, JS.await_ok, JS.await_error, JS.request_ok, hmint, hdec,
            hcurve, hgm, hata] at hset
        | ok ata =>
          cases hacc : env.getAccount ata with
          | error e =>
            simp [TokenBurn.getTokenInfo, burn_isValid_apply, JS.exec, JS.ite_apply, JS.bind_apply,
              JS.tryCatch_apply, JS.tryFinally_apply, JS.setStatus_apply, JS.setLoading_apply,
              JS.raise_apply, JS.modifySt_apply, JS.await_ok, JS.await_error, JS.request_ok,
              JS.request_error, hmint, hdec, hcurve, hgm, hata, hacc] at hset
          | ok acc =>
            cases hfix : env.toFixed (env.div (env.numberOfNat acc.amount) (env.pow10 mi.decimals))
                mi.decimals with
            | error e =>
              simp [TokenBurn.getTokenInfo, burn_isValid_apply, JS.exec, JS.ite_apply, JS.bind_apply,
                JS.tryCatch_apply, JS.tryFinally_apply, JS.setStatus_apply, JS.setLoading_apply,
                JS.raise_apply, JS.modifySt_apply, JS.await_ok, JS.await_error, JS.request_ok,
                JS.request_error, hmint, hdec, hcurve, hgm, hata, hacc, hfix] at hset
            | ok shown =>
              simp [TokenBurn.getTokenInfo, burn_isValid_apply, JS.exec, JS.ite_apply, JS.bind_apply,
                JS.tryCatch_apply, JS.tryFinally_apply, JS.setStatus_apply, JS.setLoading_apply,
                JS.raise_apply, JS.modifySt_apply, JS.await_ok, JS.await_error, JS.request_ok,
                JS.request_error, hmint, hdec, hcurve, hgm, hata, hacc, hfix] at hset
              subst hset
              exact ⟨shown, hfix⟩

/-! ## TokenFreeze: paths through `toggleFreeze` -/

/-- The run of `toggleFreeze` once the fetched mint info has no freeze authority. -/
theorem freeze_no_authority_run (env : Env) (publicKey : Option PublicKey) (s : TokenFreeze.State)
    (mi : MintInfo) (freeze : Bool) (w : World TokenFreeze.State)
    (hmi : s.mintInfo = some mi) (hfa : mi.freezeAuthority = none) :
    TokenFreeze.toggleFreeze env publicKey s freeze w =
      (Outcome.ok (),
        { w with
          status :=
            (match publicKey with
             | none => "请先连接钱包"
             | some _ =>
               if s.formData.mintAddress = "" ∨ s.formData.tokenAccount = "" then
                 "请填写代币Mint地址和代币账户地址"
               else "错误: 此代币未设置冻结权限，无法冻结/解冻"),
          log := w.log ++ [Event.setStatus
            (match publicKey with
             | none => "请先连接钱包"
             | some _ =>
               if s.formData.mintAddress = "" ∨ s.formData.tokenAccount = "" then
                 "请填写代币Mint地址和代币账户地址"
               else "错误: 此代币未设置冻结权限，无法冻结/解冻")] }) := by
  cases publicKey with
  | none => simp [TokenFreeze.toggleFreeze, JS.setStatus_apply]
  | some pk =>
    by_cases hf : s.formData.mintAddress = "" ∨ s.formData.tokenAccount = ""
    · simp [TokenFreeze.toggleFreeze, JS.setStatus_apply, JS.ite_apply, hf]
    · simp [TokenFreeze.toggleFreeze, JS.setStatus_apply, JS.ite_apply, hf, hmi, hfa]

/-! ## TokenAuthorityTransfer: paths through `transferAuthority` -/

/-- The transactions assembled and submitted by `transferAuthority` for an SPL authority type,
given the new authority the form asks for. -/
theorem authority_spl_txs (env : Env) (pk m : PublicKey) (s : TokenAuthorityTransfer.State)
    (t : AuthorityType) (newAuthority : Option PublicKey) (w : World TokenAuthorityTransfer.State)
    (hmint : s.formData.mintAddress ≠ "")
    (hm : env.newPublicKey s.formData.mintAddress = Except.ok m)
    (hty : TokenAuthorityTransfer.getAuthorityTypeEnum s.formData.authorityType =
      TokenAuthorityTransfer.AuthorityKind.spl t)
    (hnew : (s.formData.revokeAuthority = true ∧ newAuthority = none) ∨
      (s.formData.revokeAuthority = false ∧ s.formData.newAuthority ≠ "" ∧
        ∃ key, env.newPublicKey s.formData.newAuthority = Except.ok key ∧ newAuthority = some key)) :
    builtTxs ((TokenAuthorityTransfer.transferAuthority env (some pk) s).exec w).log =
      builtTxs w.log ++ [[Instr.setAuthority m pk t newAuthority [] env.TOKEN_PROGRAM_ID]] ∧
    sentTxs ((TokenAuthorityTransfer.transferAuthority env (some pk) s).exec w).log =
      sentTxs w.log ++ [[Instr.setAuthority m pk t newAuthority [] env.TOKEN_PROGRAM_ID]] := by
  rcases hnew with ⟨hrev, hnone⟩ | ⟨hrev, hfilled, key, hkey, hsome⟩
  · subst hnone
    cases hsend : env.sendTransaction [Instr.setAuthority m pk t none [] env.TOKEN_PROGRAM_ID] with
    | error e =>
      simp [TokenAuthorityTransfer.transferAuthority, TokenAuthorityTransfer.transferAuthorityTry,
        authority_isValid_apply, JS.exec, JS.ite_apply,
        JS.bind_apply, JS.pure_apply, JS.tryCatch_apply, JS.tryFinally_apply, JS.await_ok, JS.await_error,
        JS.request_ok, JS.request_error, JS.emit_apply, JS.setStatus_apply, JS.setLoading_apply,
        JS.raise_apply, hmint, hm, hty, hrev, builtTxs_append, sentTxs_append, builtTxs, sentTxs, hsend]
    | ok sig =>
      cases hconf : env.confirmTransaction sig <;>
      simp [TokenAuthorityTransfer.transferAuthority, TokenAuthorityTransfer.transferAuthorityTry,
        authority_isValid_apply, JS.exec, JS.ite_apply,
        JS.bind_apply, JS.pure_apply, JS.tryCatch_apply, JS.tryFinally_apply, JS.await_ok, JS.await_error,
        JS.request_ok, JS.request_error, JS.emit_apply, JS.setStatus_apply, JS.setLoading_apply,
        JS.raise_apply, hmint, hm, hty, hrev, builtTxs_append, sentTxs_append, builtTxs, sentTxs, hsend, hconf]
  · subst hsome
    cases hsend : env.sendTransaction [Instr.setAuthority m pk t (some key) [] env.TOKEN_PROGRAM_ID] with
    | error e =>
      simp [TokenAuthorityTransfer.transferAuthority, TokenAuthorityTransfer.transferAuthorityTry,
        authority_isValid_apply, JS.exec, JS.ite_apply,
        JS.bind_apply, JS.pure_apply, JS.tryCatch_apply, JS.tryFinally_apply, JS.await_ok, JS.await_error,
        JS.request_ok, JS.request_error, JS.emit_apply, JS.setStatus_apply, JS.setLoading_apply,
        JS.raise_apply, hmint, hm, hty, hrev, builtTxs_append, sentTxs_append, builtTxs, sentTxs, hfilled, hkey, hsend]
    | ok sig =>
      cases hconf : env.confirmTransaction sig <;>
      simp [TokenAuthorityTransfer.transferAuthority, TokenAuthorityTransfer.transferAuthorityTry,
        authority_isValid_apply, JS.exec, JS.ite_apply,
        JS.bind_apply, JS.pure_apply, JS.tryCatch_apply, JS.tryFinally_apply, JS.await_ok, JS.await_error,
        JS.request_ok, JS.request_error, JS.emit_apply, JS.setStatus_apply, JS.setLoading_apply,
        JS.raise_apply, hmint, hm, hty, hrev, builtTxs_append, sentTxs_append, builtTxs, sentTxs, hfilled, hkey, hsend, hconf]

/-! ## TokenCreator: paths through `createToken` -/

/-- An accepted create-token form reaches the `try` block with the authority key chosen:
the wallet key when the trimmed field is empty, the key decoded from the trimmed field
otherwise (the untrimmed field decoding as well). -/
theorem creator_reaches_try (env : Env) (pk auth : PublicKey) (s : TokenCreator.State)
    (hname : s.formData.name ≠ "") (hsymbol : s.formData.symbol ≠ "") (hsupply : s.formData.supply ≠ "")
    (hauth : (env.trim s.formData.authorityAddress = "" ∧ auth = pk) ∨
      (env.trim s.formData.authorityAddress ≠ "" ∧
        env.newPublicKey (env.trim s.formData.authorityAddress) = Except.ok auth ∧
        ∃ key, env.newPublicKey s.formData.authorityAddress = Except.ok key))
    (w : World TokenCreator.State) :
    TokenCreator.createToken env (some pk) s w =
      JS.tryFinally
        (JS.tryCatch (TokenCreator.createTokenTry env pk auth s)
          (fun message => JS.setStatus ("错误: " ++ message)))
        (JS.setLoading false)
        { w with loading := true, status := "准备创建代币...",
                 log := w.log ++ [Event.setLoading true, Event.setStatus "准备创建代币..."] } := by
  rcases hauth with ⟨hblank, hpk⟩ | ⟨hfilled, hdec, key, hkey⟩
  · subst hpk
    simp [TokenCreator.createToken, JS.ite_apply, JS.bind_apply, JS.pure_apply, JS.setStatus_apply,
      JS.setLoading_apply, hname, hsymbol, hsupply, hblank]
  · simp [TokenCreator.createToken, creator_isValid_apply, JS.ite_apply, JS.bind_apply, JS.pure_apply,
      JS.await_ok, JS.setStatus_apply, JS.setLoading_apply, hname, hsymbol, hsupply, hfilled, hdec, hkey]

/-- The transactions of a run of the `try` block of `createToken` once the rent request and the
derivation of the associated token account have succeeded: the four-instruction transaction
first, then whatever follows. -/
theorem creator_try_txs (env : Env) (pk auth ata : PublicKey) (lamports : Nat) (s : TokenCreator.State)
    (hrent : env.getMinimumBalanceForRentExemptMint = Except.ok lamports)
    (hata : env.getAssociatedTokenAddress env.generateKeypair pk = Except.ok ata)
    (n : Int) (henc : env.instructionAmount (TokenCreator.mintAmount env s.formData) = Except.ok n)
    (w : World TokenCreator.State) :
    ∃ rest,
      builtTxs ((JS.tryFinally
        (JS.tryCatch (TokenCreator.createTokenTry env pk auth s)
          (fun message => JS.setStatus ("错误: " ++ message)))
        (JS.setLoading false) w).2).log =
        builtTxs w.log ++ TokenCreator.mintTransaction env pk env.generateKeypair ata auth lamports
          s.formData :: rest ∧
      sentTxs ((JS.tryFinally
        (JS.tryCatch (TokenCreator.createTokenTry env pk auth s)
          (fun message => JS.setStatus ("错误: " ++ message)))
        (JS.setLoading false) w).2).log =
        sentTxs w.log ++ TokenCreator.mintTransaction env pk env.generateKeypair ata auth lamports
          s.formData :: rest := by
  cases hsend : env.sendTransaction
      (TokenCreator.mintTransaction env pk env.generateKeypair ata auth lamports s.formData) with
  | error e =>
    refine ⟨[], ?_⟩
    simp only [TokenCreator.mintTransaction] at hsend
    simp [TokenCreator.createTokenTry, TokenCreator.mintTransaction, JS.ite_apply,
      JS.bind_apply, JS.pure_apply, JS.tryCatch_apply, JS.tryFinally_apply, JS.await_ok, JS.await_error,
      JS.request_ok, JS.request_error, JS.emit_apply, JS.setStatus_apply, JS.setLoading_apply,
      JS.modifySt_apply, JS.raise_apply, builtTxs_append, sentTxs_append, builtTxs, sentTxs, hrent, hata, henc, hsend]
  | ok sig =>
    simp only [TokenCreator.mintTransaction] at hsend
    cases hconf : env.confirmTransaction sig with
    | error e =>
      refine ⟨[], ?_⟩
      simp [TokenCreator.createTokenTry, TokenCreator.mintTransaction, JS.ite_apply,
        JS.bind_apply, JS.pure_apply, JS.tryCatch_apply, JS.tryFinally_apply, JS.await_ok, JS.await_error,
        JS.request_ok, JS.request_error, JS.emit_apply, JS.setStatus_apply, JS.setLoading_apply,
        JS.modifySt_apply, JS.raise_apply, builtTxs_append, sentTxs_append, builtTxs, sentTxs, hrent, hata, henc, hsend, hconf]
    | ok c =>
      cases hsft : env.metaplexCreateSft
          { uri := s.formData.logoUrl, name := s.formData.name, symbol := s.formData.symbol,
            sellerFeeBasisPoints := 0, isMutable := s.formData.isMutable,
            useNewMint := env.generateKeypair } with
      | error e =>
        refine ⟨[], ?_⟩
        simp [TokenCreator.createTokenTry, TokenCreator.mintTransaction, JS.ite_apply,
          JS.bind_apply, JS.pure_apply, JS.tryCatch_apply, JS.tryFinally_apply, JS.await_ok, JS.await_error,
          JS.request_ok, JS.request_error, JS.emit_apply, JS.setStatus_apply, JS.setLoading_apply,
          JS.modifySt_apply, JS.raise_apply, builtTxs_append, sentTxs_append, builtTxs, sentTxs, hrent, hata, henc, hsend, hconf, hsft]
      | ok u =>
        cases hdis : s.formData.disableMinting with
        | false =>
          refine ⟨[], ?_⟩
          simp [TokenCreator.createTokenTry, TokenCreator.mintTransaction, JS.ite_apply,
            JS.bind_apply, JS.pure_apply, JS.tryCatch_apply, JS.tryFinally_apply, JS.await_ok, JS.await_error,
            JS.request_ok, JS.request_error, JS.emit_apply, JS.setStatus_apply, JS.setLoading_apply,
            JS.modifySt_apply, JS.raise_apply, builtTxs_append, sentTxs_append, builtTxs, sentTxs, hrent, hata, henc, hsend, hconf, hsft, hdis]
        | true =>
          refine ⟨[[Instr.setAuthority env.generateKeypair auth AuthorityType.MintTokens none []
            env.TOKEN_PROGRAM_ID]], ?_⟩
          cases hsend2 : env.sendTransaction [Instr.setAuthority env.generateKeypair auth
              AuthorityType.MintTokens none [] env.TOKEN_PROGRAM_ID] with
          | error e =>
            simp [TokenCreator.createTokenTry, TokenCreator.mintTransaction, JS.ite_apply,
              JS.bind_apply, JS.pure_apply, JS.tryCatch_apply, JS.tryFinally_apply, JS.await_ok, JS.await_error,
              JS.request_ok, JS.request_error, JS.emit_apply, JS.setStatus_apply, JS.setLoading_apply,
              JS.modifySt_apply, JS.raise_apply, builtTxs_append, sentTxs_append, builtTxs, sentTxs, hrent, hata, henc, hsend, hconf, hsft, hdis, hsend2]
          | ok sig2 =>
            cases hconf2 : env.confirmTransaction sig2 <;>
            simp [TokenCreator.createTokenTry, TokenCreator.mintTransaction, JS.ite_apply,
              JS.bind_apply, JS.pure_apply, JS.tryCatch_apply, JS.tryFinally_apply, JS.await_ok, JS.await_error,
              JS.request_ok, JS.request_error, JS.emit_apply, JS.setStatus_apply, JS.setLoading_apply,
              JS.modifySt_apply, JS.raise_apply, builtTxs_append, sentTxs_append, builtTxs, sentTxs, hrent, hata, henc, hsend, hconf, hsft, hdis, hsend2, hconf2]

/-- The `try` block of `createToken` assembles nothing when the rent request fails, when the
derivation of the associated token account fails, or when `createMintToInstruction` throws on
the amount. -/
theorem creator_try_no_txs (env : Env) (pk auth : PublicKey) (s : TokenCreator.State)
    (hfail : (∃ e, env.getMinimumBalanceForRentExemptMint = Except.error e) ∨
      (∃ e, env.getAssociatedTokenAddress env.generateKeypair pk = Except.error e) ∨
      (∃ e, env.instructionAmount (TokenCreator.mintAmount env s.formData) = Except.error e))
    (w : World TokenCreator.State) :
    builtTxs ((JS.tryFinally
      (JS.tryCatch (TokenCreator.createTokenTry env pk auth s)
        (fun message => JS.setStatus ("错误: " ++ message)))
      (JS.setLoading false) w).2).log = builtTxs w.log ∧
    sentTxs ((JS.tryFinally
      (JS.tryCatch (TokenCreator.createTokenTry env pk auth s)
        (fun message => JS.setStatus ("错误: " ++ message)))
      (JS.setLoading false) w).2).log = sentTxs w.log := by
  cases hrent : env.getMinimumBalanceForRentExemptMint with
  | error e =>
    simp [TokenCreator.createTokenTry, JS.bind_apply, JS.tryCatch_apply, JS.tryFinally_apply,
      JS.request_error, JS.setStatus_apply, JS.setLoading_apply, builtTxs_append, sentTxs_append,
      builtTxs, sentTxs, hrent]
  | ok lamports =>
    cases hata : env.getAssociatedTokenAddress env.generateKeypair pk with
    | error e =>
      simp [TokenCreator.createTokenTry, JS.bind_apply, JS.tryCatch_apply, JS.tryFinally_apply,
        JS.request_ok, JS.await_error, JS.setStatus_apply, JS.setLoading_apply, builtTxs_append,
        sentTxs_append, builtTxs, sentTxs, hrent, hata]
    | ok ata =>
      rcases hfail with ⟨e, he⟩ | ⟨e, he⟩ | ⟨e, he⟩
      · rw [hrent] at he
        cases he
      · rw [hata] at he
        cases he
      · simp [TokenCreator.createTokenTry, JS.bind_apply, JS.tryCatch_apply, JS.tryFinally_apply,
          JS.request_ok, JS.await_ok, JS.await_error, JS.setStatus_apply, JS.setLoading_apply,
          builtTxs_append, sentTxs_append, builtTxs, sentTxs, hrent, hata, he]

/-! ## C1: undecodable text is invalid, without a throw -/

/-- C1. For every text on which `new PublicKey` throws, `isValidSolanaAddress` of TokenBurn,
TokenTransfer, TokenFreeze and TokenAuthorityTransfer returns `false` normally (outcome `ok`,
not `thrown`) and changes nothing. -/
theorem C1_isValidSolanaAddress_false_on_decode_failure {σ : Type} (env : Env) (address error : String)
    (w : World σ) (h : env.newPublicKey address = Except.error error) :
    TokenBurn.isValidSolanaAddress env address w = (Outcome.ok false, w) ∧
    TokenTransfer.isValidSolanaAddress env address w = (Outcome.ok false, w) ∧
    TokenFreeze.isValidSolanaAddress env address w = (Outcome.ok false, w) ∧
    TokenAuthorityTransfer.isValidSolanaAddress env address w = (Outcome.ok false, w) := by
  simp [burn_isValid_apply, transfer_isValid_apply,
    freeze_isValid_apply, authority_isValid_apply, h]

/-- C1 at the sample environment, for a text that is not base58. -/
theorem C1_witness :
    Sample.env.newPublicKey "not-a-key-0OIl" = Except.error "Invalid public key input" ∧
    TokenBurn.isValidSolanaAddress Sample.env "not-a-key-0OIl" (Sample.world ()) =
      (Outcome.ok false, Sample.world ()) ∧
    TokenTransfer.isValidSolanaAddress Sample.env "not-a-key-0OIl" (Sample.world ()) =
      (Outcome.ok false, Sample.world ()) ∧
    TokenFreeze.isValidSolanaAddress Sample.env "not-a-key-0OIl" (Sample.world ()) =
      (Outcome.ok false, Sample.world ()) ∧
    TokenAuthorityTransfer.isValidSolanaAddress Sample.env "not-a-key-0OIl" (Sample.world ()) =
      (Outcome.ok false, Sample.world ()) :=
  ⟨rfl, C1_isValidSolanaAddress_false_on_decode_failure Sample.env "not-a-key-0OIl"
    "Invalid public key input" (Sample.world ()) rfl⟩

/-! ## C2: burn above the balance -/

/-- What the balance check of the burn page does establish. For every fetched balance,
decimals and amount text whose numeric value `a` (the same under `Number` and `parseFloat`)
is positive and compares greater than the quotient the handler computes in double precision,
`Number(balance) / Math.pow(10, decimals)`: `validateBurnAmount` returns `valid = false` with
the exceeds-balance message (the quotient rendered by `toFixed`), and `burnTokens` assembles
nothing, submits nothing and issues no network request; with a wallet connected it ends not
loading, with a status that starts with the failure marker of the handler and carries that
message. -/
theorem burn_rejects_amount_above_computed_balance (env : Env) (publicKey : Option PublicKey)
    (network : String) (s : TokenBurn.State) (ti : TokenBurn.TokenInfo) (a : JSNum)
    (w : World TokenBurn.State)
    (hti : s.tokenInfo = some ti) (hne : s.formData.amount ≠ "")
    (hnum : env.toNumber s.formData.amount = a) (hpf : env.parseFloat s.formData.amount = a)
    (hpos : a.le0 = false)
    (hgt : a.gt (env.div (env.numberOfNat ti.balance) (env.pow10 ti.decimals)) = true) :
    (∀ shown,
      env.toFixed (env.div (env.numberOfNat ti.balance) (env.pow10 ti.decimals)) ti.decimals =
        Except.ok shown →
      TokenBurn.validateBurnAmount env s.formData.amount (env.numberOfNat ti.balance) ti.decimals w =
        (Outcome.ok { valid := false, message := "燃烧数量不能超过余额 " ++ shown }, w)) ∧
    builtTxs ((TokenBurn.burnTokens env publicKey network s).exec w).log = builtTxs w.log ∧
    sentTxs ((TokenBurn.burnTokens env publicKey network s).exec w).log = sentTxs w.log ∧
    networkCalls ((TokenBurn.burnTokens env publicKey network s).exec w).log = networkCalls w.log ∧
    (∀ pk, publicKey = some pk →
      (TokenBurn.burnTokens env publicKey network s).result w = Outcome.ok () ∧
      ((TokenBurn.burnTokens env publicKey network s).exec w).loading = false ∧
      ∃ reason,
        ((TokenBurn.burnTokens env publicKey network s).exec w).status = "燃烧失败: " ++ reason ∧
        (∀ shown,
          env.toFixed (env.div (env.numberOfNat ti.balance) (env.pow10 ti.decimals)) ti.decimals =
            Except.ok shown →
          reason = "燃烧数量不能超过余额 " ++ shown)) := by
  refine ⟨?_, ?_, ?_, ?_, ?_⟩
  · intro shown hshown
    rw [burn_validate_above env s.formData.amount ti.balance ti.decimals a hne hnum hpf hpos hgt w, hshown]
  · cases publicKey with
    | none => simp [JS.exec, burn_no_wallet_run, builtTxs_append, builtTxs]
    | some pk =>
      simp [JS.exec, burn_above_run env pk network s ti a w hti hne hnum hpf hpos hgt, builtTxs_append, builtTxs]
  · cases publicKey with
    | none => simp [JS.exec, burn_no_wallet_run, sentTxs_append, sentTxs]
    | some pk =>
      simp [JS.exec, burn_above_run env pk network s ti a w hti hne hnum hpf hpos hgt, sentTxs_append, sentTxs]
  · cases publicKey with
    | none => simp [JS.exec, burn_no_wallet_run, networkCalls_append, networkCalls]
    | some pk =>
      simp [JS.exec, burn_above_run env pk network s ti a w hti hne hnum hpf hpos hgt, networkCalls_append,
        networkCalls]
  · intro pk hpk
    subst hpk
    refine ⟨?_, ?_, (match env.toFixed (env.div (env.numberOfNat ti.balance) (env.pow10 ti.decimals))
        ti.decimals with
      | Except.ok shown => "燃烧数量不能超过余额 " ++ shown
      | Except.error e => e), ?_, ?_⟩
    · simp [JS.result, burn_above_run env pk network s ti a w hti hne hnum hpf hpos hgt]
    · simp [JS.exec, burn_above_run env pk network s ti a w hti hne hnum hpf hpos hgt]
    · simp only [JS.exec, burn_above_run env pk network s ti a w hti hne hnum hpf hpos hgt]
    · intro shown hshown
      simp [hshown]

/-- C2 fails on the code. The fetched balance reaches `validateBurnAmount` as
`Number(tokenInfo.balance)`, a double, so a balance above 2 ^ 53 is rounded before the amount
is compared with it. With a balance of 9007199254740995 raw units at 0 decimals and the amount
9007199254740996, the amount exceeds the balance; `Number` rounds the balance to
9007199254740996, `validateBurnAmount` answers valid, and `burnTokens` assembles and submits a
burn of 9007199254740996 raw units and shows the success status. -/
theorem C2_burn_above_large_balance_is_submitted :
    Sample.env.toNumber "9007199254740996" = JSNum.fin 9007199254740996 ∧
    Sample.env.parseFloat "9007199254740996" = JSNum.fin 9007199254740996 ∧
    ((9007199254740995 : ℕ) : ℚ) / 10 ^ 0 < 9007199254740996 ∧
    Sample.env.numberOfNat 9007199254740995 = JSNum.fin 9007199254740996 ∧
    TokenBurn.validateBurnAmount Sample.env "9007199254740996"
        (Sample.env.numberOfNat 9007199254740995) 0 (Sample.world Sample.burnAboveLargeBalanceState) =
      (Outcome.ok { valid := true, message := "" }, Sample.world Sample.burnAboveLargeBalanceState) ∧
    builtTxs ((TokenBurn.burnTokens Sample.env (some Sample.wallet) "devnet"
        Sample.burnAboveLargeBalanceState).exec (Sample.world Sample.burnAboveLargeBalanceState)).log =
      [[Instr.burn Sample.walletAta Sample.mint Sample.wallet (JSNum.fin 9007199254740996) []
        Sample.tokenProgram]] ∧
    sentTxs ((TokenBurn.burnTokens Sample.env (some Sample.wallet) "devnet"
        Sample.burnAboveLargeBalanceState).exec (Sample.world Sample.burnAboveLargeBalanceState)).log =
      [[Instr.burn Sample.walletAta Sample.mint Sample.wallet (JSNum.fin 9007199254740996) []
        Sample.tokenProgram]] ∧
    ((TokenBurn.burnTokens Sample.env (some Sample.wallet) "devnet"
        Sample.burnAboveLargeBalanceState).exec (Sample.world Sample.burnAboveLargeBalanceState)).status =
      "燃烧成功! 交易签名: " ++ Sample.signature := by
  have hraw : JSNum.floor (Sample.env.mul (Sample.env.parseFloat
      Sample.burnAboveLargeBalanceState.formData.amount) (Sample.env.pow10 0)) =
      JSNum.fin 9007199254740996 := by
    simp [Sample.env, Sample.number, Sample.burnAboveLargeBalanceState, Env.pow10, JSNum.floor]
  have hle : (Sample.env.parseFloat Sample.burnAboveLargeBalanceState.formData.amount).gt
      (Sample.env.div (Sample.env.numberOfNat 9007199254740995) (Sample.env.pow10 0)) = false := by
    simp [Sample.env, Sample.number, Sample.burnAboveLargeBalanceState, Env.pow10, JSNum.gt]
  have hnan : (Sample.env.toNumber Sample.burnAboveLargeBalanceState.formData.amount).isNaN = false := by
    simp [Sample.env, Sample.number, Sample.burnAboveLargeBalanceState, JSNum.isNaN]
  have hpos : (Sample.env.parseFloat Sample.burnAboveLargeBalanceState.formData.amount).le0 = false := by
    simp [Sample.env, Sample.number, Sample.burnAboveLargeBalanceState, JSNum.le0]
  have h := burn_confirmed_run Sample.env Sample.wallet Sample.mint Sample.walletAta "devnet"
    Sample.burnAboveLargeBalanceState
    { mint := Sample.mint.toBase58, decimals := 0, supply := 18000000000000000,
      balance := 9007199254740995, tokenAccount := Sample.walletAta.toBase58 }
    "EkSnNWid2cvwEVnVx9aBqawnmiCNiDgp3gUdkDPTKN1N" Sample.signature
    (Sample.world Sample.burnAboveLargeBalanceState) rfl (by decide) hnan hpos hle
    (by rw [hraw]; simp [JSNum.le0]) rfl rfl 9007199254740996
    (by rw [hraw]; simp [Env.instructionAmount, JSNum.toBigInt, Sample.env])
    rfl rfl rfl (fun _ => rfl)
  rw [hraw] at h
  refine ⟨by simp [Sample.env, Sample.number], by simp [Sample.env, Sample.number], by norm_num,
    by simp [Sample.env], ?_, h.2.2.1, h.2.2.2, h.2.1⟩
  exact burn_validate_within Sample.env "9007199254740996" 9007199254740995 0 (by decide) hnan hpos hle _

/-! ## C3: transfer above the balance -/

/-- What the balance check of `transferToken` does establish. For every sender balance
`b = info.amount`, decimals `d` (what the handler reads at `info.mint._decimals`, else 0) and
positive amount `a` for which the floor of the product `a * 10 ** d` the runtime computes
exceeds `b`, `transferToken` (wallet connected, fields filled, both addresses valid, sender
account found) returns normally with the insufficient-balance status and `loading = false`,
and neither assembles nor submits any transaction. -/
theorem transfer_rejects_floor_above_balance (env : Env) (pk m r senderAta : PublicKey)
    (s : TokenTransfer.State) (info : Account) (a x : ℚ) (w : World TokenTransfer.State)
    (hmint : s.formData.mintAddress ≠ "") (hrec : s.formData.recipientAddress ≠ "")
    (hamt : s.formData.amount ≠ "")
    (hm : env.newPublicKey s.formData.mintAddress = Except.ok m) (hmc : env.isOnCurve m = true)
    (hr : env.newPublicKey s.formData.recipientAddress = Except.ok r) (hrc : env.isOnCurve r = true)
    (ha : env.parseFloat s.formData.amount = JSNum.fin a) (hpos : 0 < a)
    (hmul : env.mul (JSNum.fin a) (env.pow10 (info.mint_decimals.getD 0)) = JSNum.fin x)
    (hata : env.getAssociatedTokenAddress m pk = Except.ok senderAta)
    (hacc : env.getAccount senderAta = Except.ok info)
    (hgt : (info.amount : ℤ) < ⌊x⌋) :
    (TokenTransfer.transferToken env (some pk) s).result w = Outcome.ok () ∧
    ((TokenTransfer.transferToken env (some pk) s).exec w).status =
      "错误: 余额不足。您的余额为 " ++
        env.numToString (env.div (env.numberOfNat info.amount) (env.pow10 (info.mint_decimals.getD 0))) ∧
    ((TokenTransfer.transferToken env (some pk) s).exec w).loading = false ∧
    builtTxs ((TokenTransfer.transferToken env (some pk) s).exec w).log = builtTxs w.log ∧
    sentTxs ((TokenTransfer.transferToken env (some pk) s).exec w).log = sentTxs w.log := by
  have h := transfer_insufficient_run env pk m r senderAta s info a x w hmint hrec hamt hm hmc hr hrc ha hpos hmul
    hata hacc hgt
  simp [JS.result, JS.exec, h, TokenTransfer.insufficientStatus, TokenTransfer.prelude, builtTxs_append,
    sentTxs_append, builtTxs, sentTxs]

/-- C3 fails on the code. Amount 1.5 of a token read with 0 decimals against a balance of
1 raw unit has `a * 10^d = 1.5 > 1`, yet `transferToken` does not stop at the balance check:
it compares the floored raw amount 1 with the balance, hands two transactions to the wallet
(the creation of the recipient account, then a transfer of 1 raw unit) and shows the success
status for 1.5 tokens. The balance check of the burn page rejects the same amount against the
same balance. -/
theorem C3_transfer_above_balance_is_sent :
    Sample.env.parseFloat Sample.transferState.formData.amount = JSNum.fin (3 / 2) ∧
    Sample.env.getAccount Sample.walletAta = Except.ok Sample.walletAccount ∧
    (Sample.walletAccount.amount : ℚ) < 3 / 2 * 10 ^ (Sample.walletAccount.mint_decimals.getD 0) ∧
    sentTxs ((TokenTransfer.transferToken Sample.env (some Sample.wallet) Sample.transferState).exec
        (Sample.world Sample.transferState)).log =
      [[Instr.createAssociatedTokenAccount Sample.wallet Sample.recipientAta Sample.recipient Sample.mint],
       [Instr.transfer Sample.walletAta Sample.recipientAta Sample.wallet 1 [] Sample.tokenProgram]] ∧
    ((TokenTransfer.transferToken Sample.env (some Sample.wallet) Sample.transferState).exec
        (Sample.world Sample.transferState)).status =
      TokenTransfer.successStatus Sample.transferState.formData ∧
    TokenBurn.validateBurnAmount Sample.env "1.5" (Sample.env.numberOfNat 1) 0 (Sample.world ()) =
      (Outcome.ok { valid := false, message := "燃烧数量不能超过余额 1" }, Sample.world ()) := by
  refine ⟨rfl, rfl, by norm_num [Sample.walletAccount], ?_, ?_, ?_⟩
  · have h := transfer_sent_after_check Sample.env Sample.wallet Sample.mint Sample.recipient
      Sample.walletAta Sample.recipientAta Sample.transferState Sample.walletAccount (3 / 2) (3 / 2)
      (Sample.world Sample.transferState) (by decide) (by decide) (by decide) rfl rfl rfl rfl rfl
      (by norm_num) (Sample.mul_at_no_decimals _) rfl rfl
      (by rw [Sample.floor_three_halves]; decide) rfl
    rw [h, Sample.floor_three_halves]
    rfl
  · exact transfer_resolved_status Sample.env Sample.wallet Sample.mint Sample.recipient
      Sample.walletAta Sample.recipientAta Sample.transferState Sample.walletAccount (3 / 2) (3 / 2)
      (Sample.world Sample.transferState) Sample.signature Sample.signature _ _
      (by decide) (by decide) (by decide) rfl rfl rfl rfl rfl
      (by norm_num) (Sample.mul_at_no_decimals _) rfl rfl
      (by rw [Sample.floor_three_halves]; decide) rfl ⟨_, rfl⟩ rfl rfl rfl rfl
  · have h := burn_validate_above Sample.env "1.5" 1 0 (JSNum.fin (3 / 2)) (by decide) rfl rfl
      (by simp [JSNum.le0])
      (by simp [Sample.env, Env.pow10, JSNum.gt]; norm_num) (Sample.world ())
    rw [h]
    have hfix : Sample.env.toFixed (Sample.env.div (Sample.env.numberOfNat 1) (Sample.env.pow10 0)) 0 =
        Except.ok "1" := by
      simp [Sample.env, Env.pow10]
    rw [hfix]
    rfl

/-! ## C4: no freeze authority, no freeze or thaw -/

/-- C4. Whenever the fetched mint info has `freezeAuthority = null`, `toggleFreeze(true)` and
`toggleFreeze(false)` return normally having assembled, submitted and requested nothing; when
a wallet is connected and both address fields are filled, the status is the message that the
token has no freeze authority and cannot be frozen or thawed. -/
theorem C4_no_freeze_authority_blocks_toggle (env : Env) (publicKey : Option PublicKey)
    (s : TokenFreeze.State) (mi : MintInfo) (freeze : Bool) (w : World TokenFreeze.State)
    (hmi : s.mintInfo = some mi) (hfa : mi.freezeAuthority = none) :
    (TokenFreeze.toggleFreeze env publicKey s freeze).result w = Outcome.ok () ∧
    sentTxs ((TokenFreeze.toggleFreeze env publicKey s freeze).exec w).log = sentTxs w.log ∧
    builtTxs ((TokenFreeze.toggleFreeze env publicKey s freeze).exec w).log = builtTxs w.log ∧
    networkCalls ((TokenFreeze.toggleFreeze env publicKey s freeze).exec w).log = networkCalls w.log ∧
    (∀ pk, publicKey = some pk → s.formData.mintAddress ≠ "" → s.formData.tokenAccount ≠ "" →
      ((TokenFreeze.toggleFreeze env publicKey s freeze).exec w).status =
        "错误: 此代币未设置冻结权限，无法冻结/解冻") := by
  have h := freeze_no_authority_run env publicKey s mi freeze w hmi hfa
  refine ⟨?_, ?_, ?_, ?_, ?_⟩
  · simp [JS.result, h]
  · simp [JS.exec, h, sentTxs_append, sentTxs]
  · simp [JS.exec, h, builtTxs_append, builtTxs]
  · simp [JS.exec, h, networkCalls_append, networkCalls]
  · intro pk hpk hm ht
    subst hpk
    simp [JS.exec, h, hm, ht]

/-- C4 at the sample environment, for a freeze and for a thaw. -/
theorem C4_witness :
    ((TokenFreeze.toggleFreeze Sample.env (some Sample.wallet) Sample.freezeState true).exec
      (Sample.world Sample.freezeState)).status = "错误: 此代币未设置冻结权限，无法冻结/解冻" ∧
    ((TokenFreeze.toggleFreeze Sample.env (some Sample.wallet) Sample.freezeState false).exec
      (Sample.world Sample.freezeState)).status = "错误: 此代币未设置冻结权限，无法冻结/解冻" :=
  ⟨(C4_no_freeze_authority_blocks_toggle Sample.env (some Sample.wallet) Sample.freezeState
      Sample.mintInfo true (Sample.world Sample.freezeState) rfl rfl).2.2.2.2 Sample.wallet rfl
      (by decide) (by decide),
    (C4_no_freeze_authority_blocks_toggle Sample.env (some Sample.wallet) Sample.freezeState
      Sample.mintInfo false (Sample.world Sample.freezeState) rfl rfl).2.2.2.2 Sample.wallet rfl
      (by decide) (by decide)⟩

/-! ## C5 and C6: the burn history -/

/-- C5. For every previous history `h` (of any length) and every record `r`, after
`saveBurnRecord(r)` the in-memory history starts with `r`, has length `min (|h| + 1) 50`,
hence at most 50, every entry after the first was already in `h`, and, `r` being new (not an
entry of `h`), `r` is the one and only entry that was not in `h`. -/
theorem C5_saved_history_has_one_new_head (env : Env) (s : TokenBurn.State) (record : BurnRecord)
    (w : World TokenBurn.State) :
    ((TokenBurn.saveBurnRecord env s record).exec w).st.burnHistory.head? = some record ∧
    ((TokenBurn.saveBurnRecord env s record).exec w).st.burnHistory.length =
      min (s.burnHistory.length + 1) 50 ∧
    ((TokenBurn.saveBurnRecord env s record).exec w).st.burnHistory.length ≤ 50 ∧
    (∀ x ∈ ((TokenBurn.saveBurnRecord env s record).exec w).st.burnHistory.tail, x ∈ s.burnHistory) ∧
    (record ∉ s.burnHistory →
      ((TokenBurn.saveBurnRecord env s record).exec w).st.burnHistory.filter
        (fun x => decide (x ∉ s.burnHistory)) = [record]) := by
  rw [burn_saved_history]
  refine ⟨by simp, ?_, ?_, ?_, ?_⟩
  · simp [List.length_take]
    omega
  · simp [List.length_take]
  · intro x hx
    simp at hx
    exact List.mem_of_mem_take hx
  · intro hnew
    have htake : (s.burnHistory.take 49).filter (fun x => decide (x ∉ s.burnHistory)) = [] := by
      rw [List.filter_eq_nil_iff]
      intro x hx
      simpa using List.mem_of_mem_take hx
    simp only [List.take_succ_cons, List.filter_cons, hnew, htake, not_false_eq_true, decide_True,
      if_true]

/-- C5 at a history of one older record. -/
theorem C5_witness :
    Sample.burnRecord ∉ [Sample.olderRecord] ∧
    ((TokenBurn.saveBurnRecord Sample.env { Sample.burnState with burnHistory := [Sample.olderRecord] }
        Sample.burnRecord).exec (Sample.world Sample.burnState)).st.burnHistory.filter
      (fun x => decide (x ∉ [Sample.olderRecord])) = [Sample.burnRecord] :=
  ⟨by decide, (C5_saved_history_has_one_new_head Sample.env
    { Sample.burnState with burnHistory := [Sample.olderRecord] } Sample.burnRecord
    (Sample.world Sample.burnState)).2.2.2.2 (by decide)⟩

/-- C6. For every previous history `h` and record `r`, the history after `saveBurnRecord(r)`
is `r` followed by the first 49 entries of `h` in their order; what the cap drops is exactly
the rest of `h` after its first 49 entries, the oldest ones. -/
theorem C6_saved_history_is_record_then_first_49 (env : Env) (s : TokenBurn.State)
    (record : BurnRecord) (w : World TokenBurn.State) :
    ((TokenBurn.saveBurnRecord env s record).exec w).st.burnHistory =
      record :: s.burnHistory.take 49 ∧
    ((TokenBurn.saveBurnRecord env s record).exec w).st.burnHistory.tail <+: s.burnHistory ∧
    s.burnHistory =
      ((TokenBurn.saveBurnRecord env s record).exec w).st.burnHistory.tail ++ s.burnHistory.drop 49 := by
  rw [burn_saved_history]
  refine ⟨by simp, ?_, ?_⟩
  · simp only [List.take_succ_cons, List.tail_cons]
    exact ⟨s.burnHistory.drop 49, List.take_append_drop 49 s.burnHistory⟩
  · simp

/-! ## C7: revoking sends an empty new authority -/

/-- C7. For every authority-transfer form that passes validation with authority type
MintTokens or FreezeAccount: with `revokeAuthority` set, the handler assembles and submits
exactly one transaction, made of exactly one set-authority instruction on the mint with the
connected wallet as current authority and new authority `null`, whatever the `newAuthority`
field holds; with `revokeAuthority` unset, the new authority is the key decoded from the
`newAuthority` field. -/
theorem C7_revoke_sets_null_authority (env : Env) (pk m : PublicKey)
    (s : TokenAuthorityTransfer.State) (t : AuthorityType) (w : World TokenAuthorityTransfer.State)
    (hmint : s.formData.mintAddress ≠ "")
    (hm : env.newPublicKey s.formData.mintAddress = Except.ok m)
    (hty : (s.formData.authorityType = "MintTokens" ∧ t = AuthorityType.MintTokens) ∨
      (s.formData.authorityType = "FreezeAccount" ∧ t = AuthorityType.FreezeAccount)) :
    (s.formData.revokeAuthority = true →
      builtTxs ((TokenAuthorityTransfer.transferAuthority env (some pk) s).exec w).log =
        builtTxs w.log ++ [[Instr.setAuthority m pk t none [] env.TOKEN_PROGRAM_ID]] ∧
      sentTxs ((TokenAuthorityTransfer.transferAuthority env (some pk) s).exec w).log =
        sentTxs w.log ++ [[Instr.setAuthority m pk t none [] env.TOKEN_PROGRAM_ID]]) ∧
    (∀ key, s.formData.revokeAuthority = false → s.formData.newAuthority ≠ "" →
      env.newPublicKey s.formData.newAuthority = Except.ok key →
      builtTxs ((TokenAuthorityTransfer.transferAuthority env (some pk) s).exec w).log =
        builtTxs w.log ++ [[Instr.setAuthority m pk t (some key) [] env.TOKEN_PROGRAM_ID]] ∧
      sentTxs ((TokenAuthorityTransfer.transferAuthority env (some pk) s).exec w).log =
        sentTxs w.log ++ [[Instr.setAuthority m pk t (some key) [] env.TOKEN_PROGRAM_ID]]) := by
  have hkind : TokenAuthorityTransfer.getAuthorityTypeEnum s.formData.authorityType =
      TokenAuthorityTransfer.AuthorityKind.spl t := by
    rcases hty with ⟨h1, h2⟩ | ⟨h1, h2⟩ <;> subst h2 <;>
    simp [TokenAuthorityTransfer.getAuthorityTypeEnum, h1]
  constructor
  · intro hrev
    exact authority_spl_txs env pk m s t none w hmint hm hkind (Or.inl ⟨hrev, rfl⟩)
  · intro key hrev hfilled hkey
    exact authority_spl_txs env pk m s t (some key) w hmint hm hkind
      (Or.inr ⟨hrev, hfilled, key, hkey, rfl⟩)

/-- C7 at the sample environment: a revocation whose new-authority field holds stray text. -/
theorem C7_witness :
    Sample.revokeState.formData.newAuthority = "anything at all" ∧
    sentTxs ((TokenAuthorityTransfer.transferAuthority Sample.env (some Sample.wallet)
        Sample.revokeState).exec (Sample.world Sample.revokeState)).log =
      sentTxs (Sample.world Sample.revokeState).log ++
        [[Instr.setAuthority Sample.mint Sample.wallet AuthorityType.MintTokens none []
          Sample.env.TOKEN_PROGRAM_ID]] :=
  ⟨rfl, ((C7_revoke_sets_null_authority Sample.env Sample.wallet Sample.mint Sample.revokeState
    AuthorityType.MintTokens (Sample.world Sample.revokeState) (by decide) rfl
    (Or.inl ⟨rfl, rfl⟩)).1 rfl).2⟩

/-! ## C8: the first transaction of `createToken` -/

/-- C8. For every accepted create-token form (wallet connected; name, symbol and supply
filled; authority field blank after trimming, or decodable), with `authority` the wallet key
or the decoded key: once the rent request and the derivation of the wallet's associated token
account answer and `createMintToInstruction` accepts the amount, the first transaction
`createToken` assembles, which is also the first it submits, is exactly four instructions in
this order: create the mint account, initialize the mint, create the wallet's associated token
account, mint-to into that account. If either answer fails, or the constructor throws on the
amount, nothing is assembled or submitted. -/
theorem C8_create_token_first_transaction (env : Env) (pk authority : PublicKey)
    (s : TokenCreator.State) (w : World TokenCreator.State)
    (hname : s.formData.name ≠ "") (hsymbol : s.formData.symbol ≠ "") (hsupply : s.formData.supply ≠ "")
    (hauth : (env.trim s.formData.authorityAddress = "" ∧ authority = pk) ∨
      (env.trim s.formData.authorityAddress ≠ "" ∧
        env.newPublicKey (env.trim s.formData.authorityAddress) = Except.ok authority ∧
        ∃ key, env.newPublicKey s.formData.authorityAddress = Except.ok key)) :
    (∀ lamports ata n, env.getMinimumBalanceForRentExemptMint = Except.ok lamports →
      env.getAssociatedTokenAddress env.generateKeypair pk = Except.ok ata →
      env.instructionAmount (TokenCreator.mintAmount env s.formData) = Except.ok n →
      ∃ rest,
        builtTxs ((TokenCreator.createToken env (some pk) s).exec w).log =
          builtTxs w.log ++
            [ Instr.createAccount pk env.generateKeypair env.MINT_SIZE lamports env.TOKEN_PROGRAM_ID,
              Instr.initializeMint env.generateKeypair (env.toNumber s.formData.decimals) authority
                (if s.formData.enableFreezing then some authority else none) env.TOKEN_PROGRAM_ID,
              Instr.createAssociatedTokenAccount pk ata pk env.generateKeypair,
              Instr.mintTo env.generateKeypair ata authority
                (TokenCreator.mintAmount env s.formData)
                [] env.TOKEN_PROGRAM_ID ] :: rest ∧
        sentTxs ((TokenCreator.createToken env (some pk) s).exec w).log =
          sentTxs w.log ++
            [ Instr.createAccount pk env.generateKeypair env.MINT_SIZE lamports env.TOKEN_PROGRAM_ID,
              Instr.initializeMint env.generateKeypair (env.toNumber s.formData.decimals) authority
                (if s.formData.enableFreezing then some authority else none) env.TOKEN_PROGRAM_ID,
              Instr.createAssociatedTokenAccount pk ata pk env.generateKeypair,
              Instr.mintTo env.generateKeypair ata authority
                (TokenCreator.mintAmount env s.formData)
                [] env.TOKEN_PROGRAM_ID ] :: rest) ∧
    ((∃ e, env.getMinimumBalanceForRentExemptMint = Except.error e) ∨
        (∃ e, env.getAssociatedTokenAddress env.generateKeypair pk = Except.error e) ∨
        (∃ e, env.instructionAmount (TokenCreator.mintAmount env s.formData) = Except.error e) →
      builtTxs ((TokenCreator.createToken env (some pk) s).exec w).log = builtTxs w.log ∧
      sentTxs ((TokenCreator.createToken env (some pk) s).exec w).log = sentTxs w.log) := by
  have hstart := creator_reaches_try env pk authority s hname hsymbol hsupply hauth w
  constructor
  · intro lamports ata n hrent hata henc
    obtain ⟨rest, hb, hs⟩ := creator_try_txs env pk authority ata lamports s hrent hata n henc
      { w with loading := true, status := "准备创建代币...",
               log := w.log ++ [Event.setLoading true, Event.setStatus "准备创建代币..."] }
    refine ⟨rest, ?_, ?_⟩
    · rw [JS.exec, hstart, hb]
      simp [TokenCreator.mintTransaction, builtTxs_append, builtTxs]
    · rw [JS.exec, hstart, hs]
      simp [TokenCreator.mintTransaction, sentTxs_append, sentTxs]
  · intro hfail
    obtain ⟨hb, hs⟩ := creator_try_no_txs env pk authority s hfail
      { w with loading := true, status := "准备创建代币...",
               log := w.log ++ [Event.setLoading true, Event.setStatus "准备创建代币..."] }
    constructor
    · rw [JS.exec, hstart, hb]
      simp [builtTxs_append, builtTxs]
    · rw [JS.exec, hstart, hs]
      simp [sentTxs_append, sentTxs]

/-- C8 at the sample environment: the first transaction handed to the wallet is the four
instructions, in that order, and the amount minted is 2. -/
theorem C8_witness :
    TokenCreator.mintAmount Sample.env Sample.createState.formData = JSNum.fin 2 ∧
    (sentTxs ((TokenCreator.createToken Sample.env (some Sample.wallet) Sample.createState).exec
        (Sample.world Sample.createState)).log).head? =
      some
        [ Instr.createAccount Sample.wallet Sample.newMint 82 1461600 Sample.tokenProgram,
          Instr.initializeMint Sample.newMint
            (Sample.env.toNumber Sample.createState.formData.decimals) Sample.wallet
            (some Sample.wallet) Sample.tokenProgram,
          Instr.createAssociatedTokenAccount Sample.wallet Sample.newMintAta Sample.wallet Sample.newMint,
          Instr.mintTo Sample.newMint Sample.newMintAta Sample.wallet
            (TokenCreator.mintAmount Sample.env Sample.createState.formData)
            [] Sample.tokenProgram ] := by
  obtain ⟨rest, _, hs⟩ := (C8_create_token_first_transaction Sample.env Sample.wallet Sample.wallet
    Sample.createState (Sample.world Sample.createState) (by decide) (by decide) (by decide)
    (Or.inl ⟨rfl, rfl⟩)).1 1461600 Sample.newMintAta 2 rfl rfl Sample.createState_accepted
  rw [hs]
  exact ⟨Sample.createState_mintAmount, rfl⟩

/-! ## C9: the recipient account is created first when it is missing -/

/-- C9. For every transfer that passes validation and the balance check (the floored raw
amount, the floor of the product `a * 10 ** d` as the runtime computes it, is at most the
balance), with `recipientAta` the associated token account derived for
(recipient, mint): if the lookup of `recipientAta` fails, the first transaction handed to the
wallet is the creation of `recipientAta` for (recipient, mint) paid by the wallet, and the only
thing that can follow it is the transfer, which does follow once the creation is sent and
confirmed; if the lookup succeeds, the transfer is the only transaction handed to the wallet.
In both cases the destination of the transfer instruction is `recipientAta`. -/
theorem C9_recipient_account_created_before_transfer (env : Env)
    (pk m r senderAta recipientAta : PublicKey)
    (s : TokenTransfer.State) (info : Account) (a x : ℚ) (w : World TokenTransfer.State)
    (hmint : s.formData.mintAddress ≠ "") (hrec : s.formData.recipientAddress ≠ "")
    (hamt : s.formData.amount ≠ "")
    (hm : env.newPublicKey s.formData.mintAddress = Except.ok m) (hmc : env.isOnCurve m = true)
    (hr : env.newPublicKey s.formData.recipientAddress = Except.ok r) (hrc : env.isOnCurve r = true)
    (ha : env.parseFloat s.formData.amount = JSNum.fin a) (hpos : 0 < a)
    (hmul : env.mul (JSNum.fin a) (env.pow10 (info.mint_decimals.getD 0)) = JSNum.fin x)
    (hata : env.getAssociatedTokenAddress m pk = Except.ok senderAta)
    (hacc : env.getAccount senderAta = Except.ok info)
    (hle : ⌊x⌋ ≤ (info.amount : ℤ))
    (hrata : env.getAssociatedTokenAddress m r = Except.ok recipientAta) :
    (∀ e, env.getAccount recipientAta = Except.error e →
      ∃ rest,
        sentTxs ((TokenTransfer.transferToken env (some pk) s).exec w).log =
          sentTxs w.log ++ [Instr.createAssociatedTokenAccount pk recipientAta r m] :: rest ∧
        (rest = [] ∨
          rest = [[Instr.transfer senderAta recipientAta pk ⌊x⌋ []
            env.TOKEN_PROGRAM_ID]]) ∧
        (∀ signature err,
          env.sendTransaction [Instr.createAssociatedTokenAccount pk recipientAta r m] =
            Except.ok signature →
          env.confirmTransaction signature = Except.ok err →
          rest = [[Instr.transfer senderAta recipientAta pk ⌊x⌋ []
            env.TOKEN_PROGRAM_ID]])) ∧
    (∀ account, env.getAccount recipientAta = Except.ok account →
      sentTxs ((TokenTransfer.transferToken env (some pk) s).exec w).log =
        sentTxs w.log ++
          [[Instr.transfer senderAta recipientAta pk ⌊x⌋ []
            env.TOKEN_PROGRAM_ID]]) := by
  have h := transfer_sent_after_check env pk m r senderAta recipientAta s info a x w hmint hrec hamt hm hmc
    hr hrc ha hpos hmul hata hacc hle hrata
  constructor
  · intro e he
    rw [he] at h
    simp only [TokenTransfer.creationTx, TokenTransfer.transferTx] at h
    cases hcs : env.sendTransaction [Instr.createAssociatedTokenAccount pk recipientAta r m] with
    | error e1 =>
      simp only [hcs] at h
      exact ⟨[], h, Or.inl rfl, fun signature err hs _ => by cases hs⟩
    | ok sig1 =>
      cases hcc : env.confirmTransaction sig1 with
      | error e2 =>
        simp only [hcs, hcc] at h
        refine ⟨[], h, Or.inl rfl, fun signature err hs hc => ?_⟩
        cases hs
        rw [hcc] at hc
        cases hc
      | ok c1 =>
        simp only [hcs, hcc] at h
        exact ⟨_, h, Or.inr rfl, fun _ _ _ _ => rfl⟩
  · intro account hacc2
    rw [hacc2] at h
    simpa [TokenTransfer.transferTx] using h

/-- C9 at the sample environment: the recipient has no token account, the creation is
confirmed, and the wallet receives the creation first and the transfer second. -/
theorem C9_witness :
    Sample.env.getAccount Sample.recipientAta = Except.error "TokenAccountNotFoundError" ∧
    sentTxs ((TokenTransfer.transferToken Sample.env (some Sample.wallet) Sample.transferState).exec
        (Sample.world Sample.transferState)).log =
      [[Instr.createAssociatedTokenAccount Sample.wallet Sample.recipientAta Sample.recipient Sample.mint],
       [Instr.transfer Sample.walletAta Sample.recipientAta Sample.wallet 1 [] Sample.tokenProgram]] := by
  refine ⟨rfl, ?_⟩
  obtain ⟨rest, h1, _, h3⟩ := (C9_recipient_account_created_before_transfer Sample.env Sample.wallet
    Sample.mint Sample.recipient Sample.walletAta Sample.recipientAta Sample.transferState
    Sample.walletAccount (3 / 2) (3 / 2) (Sample.world Sample.transferState) (by decide) (by decide)
    (by decide)
    rfl rfl rfl rfl rfl (by norm_num) (Sample.mul_at_no_decimals _) rfl rfl
    (by rw [Sample.floor_three_halves]; decide) rfl).1
    "TokenAccountNotFoundError" rfl
  rw [h1, h3 Sample.signature none rfl rfl, Sample.floor_three_halves]
  rfl

/-! ## C10: an undecodable or off-curve recipient stops the transfer at once -/

/-- C10. With a wallet connected, all three fields filled and a valid mint address: if the
recipient text fails decoding or decodes to a key off the curve, `transferToken` returns
normally, its only effect is setting the invalid-recipient status: no network request, no
assembled or submitted transaction, no call of `setLoading`. -/
theorem C10_invalid_recipient_blocks_transfer (env : Env) (pk m : PublicKey) (s : TokenTransfer.State)
    (w : World TokenTransfer.State)
    (hmint : s.formData.mintAddress ≠ "") (hrec : s.formData.recipientAddress ≠ "")
    (hamt : s.formData.amount ≠ "")
    (hm : env.newPublicKey s.formData.mintAddress = Except.ok m) (hmc : env.isOnCurve m = true)
    (hbad : (∃ e, env.newPublicKey s.formData.recipientAddress = Except.error e) ∨
      (∃ key, env.newPublicKey s.formData.recipientAddress = Except.ok key ∧ env.isOnCurve key = false)) :
    (TokenTransfer.transferToken env (some pk) s).result w = Outcome.ok () ∧
    ((TokenTransfer.transferToken env (some pk) s).exec w).status =
      "错误: 无效的接收方地址（地址不在椭圆曲线上）" ∧
    ((TokenTransfer.transferToken env (some pk) s).exec w).log =
      w.log ++ [Event.setStatus "错误: 无效的接收方地址（地址不在椭圆曲线上）"] ∧
    networkCalls ((TokenTransfer.transferToken env (some pk) s).exec w).log = networkCalls w.log ∧
    builtTxs ((TokenTransfer.transferToken env (some pk) s).exec w).log = builtTxs w.log ∧
    sentTxs ((TokenTransfer.transferToken env (some pk) s).exec w).log = sentTxs w.log ∧
    loadingSets ((TokenTransfer.transferToken env (some pk) s).exec w).log = loadingSets w.log ∧
    ((TokenTransfer.transferToken env (some pk) s).exec w).loading = w.loading := by
  have hbad2 : ∀ key, env.newPublicKey s.formData.recipientAddress = Except.ok key →
      env.isOnCurve key = false := by
    intro key hk
    rcases hbad with ⟨e, he⟩ | ⟨key2, hk2, hc⟩
    · rw [he] at hk
      cases hk
    · rw [hk2] at hk
      cases hk
      exact hc
  have h := transfer_invalid_recipient_run env pk m s w hmint hrec hamt hm hmc hbad2
  simp [JS.result, JS.exec, h, networkCalls_append, builtTxs_append, sentTxs_append, loadingSets_append,
    networkCalls, builtTxs, sentTxs, loadingSets]

/-- C10 at the sample environment: the recipient text is a derived address, which decodes
but is off the curve. -/
theorem C10_witness :
    Sample.env.newPublicKey Sample.transferToDerived.formData.recipientAddress =
      Except.ok Sample.recipientAta ∧
    Sample.env.isOnCurve Sample.recipientAta = false ∧
    ((TokenTransfer.transferToken Sample.env (some Sample.wallet) Sample.transferToDerived).exec
      (Sample.world Sample.transferToDerived)).log =
      [] ++ [Event.setStatus "错误: 无效的接收方地址（地址不在椭圆曲线上）"] :=
  ⟨rfl, rfl, (C10_invalid_recipient_blocks_transfer Sample.env Sample.wallet Sample.mint
    Sample.transferToDerived (Sample.world Sample.transferToDerived) (by decide) (by decide) (by decide)
    rfl rfl (Or.inr ⟨Sample.recipientAta, rfl, rfl⟩)).2.2.1⟩

/-! ## Statuses that stay set -/

namespace JS
variable {σ α β : Type}

theorem keeps_pure (a : α) : KeepsStatus (pure a : JS σ α) := ⟨fun _ h => h⟩

theorem keeps_raise (e : String) : KeepsStatus (raise e : JS σ α) := ⟨fun _ h => h⟩

theorem keeps_await (x : Except String α) : KeepsStatus (await x : JS σ α) := by
  constructor
  intro w h
  cases x <;> exact h

theorem keeps_emit (e : Event) : KeepsStatus (emit e : JS σ Unit) := ⟨fun _ h => h⟩

theorem keeps_setLoading (b : Bool) : KeepsStatus (setLoading b : JS σ Unit) := ⟨fun _ h => h⟩

theorem keeps_modifySt (f : σ → σ) : KeepsStatus (modifySt f : JS σ Unit) := ⟨fun _ h => h⟩

theorem keeps_setStatus (t : String) (ht : t ≠ "") : KeepsStatus (setStatus t : JS σ Unit) :=
  ⟨fun _ _ => ht⟩

theorem keeps_request (c : Call) (x : Except String α) : KeepsStatus (request c x : JS σ α) := by
  constructor
  intro w h
  cases x <;> exact h

theorem keeps_bind (m : JS σ α) (f : α → JS σ β) (hm : KeepsStatus m) (hf : ∀ a, KeepsStatus (f a)) :
    KeepsStatus (m >>= f) := by
  constructor
  intro w h
  have h1 := hm.keeps w h
  rw [bind_apply]
  cases hrun : m w with
  | mk r w1 =>
    rw [hrun] at h1
    cases r with
    | ok a => exact (hf a).keeps w1 h1
    | thrown e => exact h1

theorem keeps_tryCatch (body : JS σ α) (handler : String → JS σ α) (hb : KeepsStatus body)
    (hh : ∀ e, KeepsStatus (handler e)) : KeepsStatus (tryCatch body handler) := by
  constructor
  intro w h
  have h1 := hb.keeps w h
  rw [tryCatch_apply]
  cases hrun : body w with
  | mk r w1 =>
    rw [hrun] at h1
    cases r with
    | ok a => exact h1
    | thrown e => exact (hh e).keeps w1 h1

theorem keeps_ite (c : Prop) [Decidable c] (m1 m2 : JS σ α) (h1 : KeepsStatus m1)
    (h2 : KeepsStatus m2) : KeepsStatus (if c then m1 else m2) := by
  split
  · exact h1
  · exact h2

theorem sets_setLoading_bind (b : Bool) (f : Unit → JS σ α) (hf : ∀ u, SetsStatus (f u)) :
    SetsStatus (setLoading b >>= f) := by
  constructor
  intro w
  rw [bind_apply, setLoading_apply]
  exact (hf ()).sets _

theorem sets_setStatus_bind (t : String) (ht : t ≠ "") (f : Unit → JS σ α)
    (hf : ∀ u, KeepsStatus (f u)) : SetsStatus (setStatus t >>= f) := by
  constructor
  intro w
  rw [bind_apply, setStatus_apply]
  exact (hf ()).keeps _ ht

/-- A `try` body that keeps the status set, entered with the status set, under a `catch` that
shows a non-empty text and a `finally` that resets loading: the whole returns normally, not
loading, with the status set. -/
theorem finish_of_keeps (body : JS σ Unit) (g : String → String) (hg : ∀ e, g e ≠ "")
    (hb : KeepsStatus body) (w : World σ) (hw : w.status ≠ "") :
    (tryFinally (tryCatch body (fun message => setStatus (g message))) (setLoading false) w).1 =
      Outcome.ok () ∧
    (tryFinally (tryCatch body (fun message => setStatus (g message))) (setLoading false) w).2.loading =
      false ∧
    (tryFinally (tryCatch body (fun message => setStatus (g message))) (setLoading false) w).2.status ≠
      "" := by
  have h1 := hb.keeps w hw
  rw [tryFinally_apply, tryCatch_apply]
  cases hrun : body w with
  | mk r w1 =>
    rw [hrun] at h1
    cases r with
    | ok a => exact ⟨rfl, rfl, h1⟩
    | thrown e => exact ⟨rfl, rfl, hg e⟩

/-- The same for a `try` body that sets the status itself. -/
theorem finish_of_sets (body : JS σ Unit) (g : String → String) (hg : ∀ e, g e ≠ "")
    (hb : SetsStatus body) (w : World σ) :
    (tryFinally (tryCatch body (fun message => setStatus (g message))) (setLoading false) w).1 =
      Outcome.ok () ∧
    (tryFinally (tryCatch body (fun message => setStatus (g message))) (setLoading false) w).2.loading =
      false ∧
    (tryFinally (tryCatch body (fun message => setStatus (g message))) (setLoading false) w).2.status ≠
      "" := by
  have h1 := hb.sets w
  rw [tryFinally_apply, tryCatch_apply]
  cases hrun : body w with
  | mk r w1 =>
    rw [hrun] at h1
    cases r with
    | ok a => exact ⟨rfl, rfl, h1⟩
    | thrown e => exact ⟨rfl, rfl, hg e⟩

end JS

theorem append_ne_empty (a b : String) (ha : a ≠ "") : a ++ b ≠ "" := by
  intro h
  apply ha
  have hd : (a ++ b).data = [] := by rw [h]
  rw [String.data_append] at hd
  exact String.ext (List.append_eq_nil.mp hd).1

/-- The texts `transferToken` shows at the balance check and after a confirmed transfer are
not empty. -/
theorem transfer_status_ne (env : Env) (balance decimals : Nat) (formData : TokenTransfer.FormData) :
    TokenTransfer.insufficientStatus env balance decimals ≠ "" ∧
    TokenTransfer.successStatus formData ≠ "" := by
  constructor
  · exact append_ne_empty _ _ (by decide)
  · unfold TokenTransfer.successStatus
    repeat' apply append_ne_empty
    decide

theorem transfer_errorMessage_ne (m : String) : TokenTransfer.errorMessage m ≠ "" := by
  unfold TokenTransfer.errorMessage
  split_ifs
  · decide
  · decide
  · decide
  · decide
  · exact append_ne_empty _ _ (by decide)

theorem freeze_errorMessage_ne (m : String) : TokenFreeze.errorMessage m ≠ "" := by
  unfold TokenFreeze.errorMessage
  split_ifs
  · decide
  · decide
  · decide
  · exact append_ne_empty _ _ (by decide)

theorem authority_errorMessage_ne (m : String) : TokenAuthorityTransfer.errorMessage m ≠ "" := by
  unfold TokenAuthorityTransfer.errorMessage
  split_ifs
  · decide
  · decide
  · decide
  · exact append_ne_empty _ _ (by decide)

/-- The five validators keep the status: they leave the world as it is. -/
theorem isValid_keeps {σ : Type} (env : Env) (address : String) :
    JS.KeepsStatus (TokenTransfer.isValidSolanaAddress env address : JS σ Bool) ∧
    JS.KeepsStatus (TokenBurn.isValidSolanaAddress env address : JS σ Bool) ∧
    JS.KeepsStatus (TokenFreeze.isValidSolanaAddress env address : JS σ Bool) ∧
    JS.KeepsStatus (TokenAuthorityTransfer.isValidSolanaAddress env address : JS σ Bool) ∧
    JS.KeepsStatus (TokenCreator.isValidSolanaAddress env address : JS σ Bool) := by
  refine ⟨⟨fun w h => ?_⟩, ⟨fun w h => ?_⟩, ⟨fun w h => ?_⟩, ⟨fun w h => ?_⟩, ⟨fun w h => ?_⟩⟩
  · rw [transfer_isValid_apply]
    exact h
  · rw [burn_isValid_apply]
    exact h
  · rw [freeze_isValid_apply]
    exact h
  · rw [authority_isValid_apply]
    exact h
  · rw [creator_isValid_apply]
    exact h

theorem transfer_try_keeps (env : Env) (pk : PublicKey) (s : TokenTransfer.State) :
    JS.KeepsStatus (TokenTransfer.transferTokenTry env pk s) := by
  unfold TokenTransfer.transferTokenTry TokenTransfer.checkTokenBalance TokenTransfer.createRecipientATA
  repeat' (first
    | with_reducible apply JS.keeps_bind
    | with_reducible apply JS.keeps_tryCatch
    | with_reducible apply JS.keeps_ite
    | with_reducible apply JS.keeps_pure
    | with_reducible apply JS.keeps_raise
    | with_reducible apply JS.keeps_await
    | with_reducible apply JS.keeps_emit
    | with_reducible apply JS.keeps_setLoading
    | with_reducible apply JS.keeps_modifySt
    | with_reducible apply JS.keeps_request
    | with_reducible exact (isValid_keeps _ _).1
    | with_reducible exact JS.keeps_setStatus _ (by decide)
    | with_reducible exact JS.keeps_setStatus _ (append_ne_empty _ _ (by decide))
    | with_reducible exact JS.keeps_setStatus _ (append_ne_empty _ _ (append_ne_empty _ _ (by decide)))
    | with_reducible exact JS.keeps_setStatus _ (transfer_status_ne _ _ _ _).1
    | with_reducible exact JS.keeps_setStatus _ (transfer_status_ne env 0 0 _).2
    | intro _
    | split
    | dsimp only)

theorem freeze_try_keeps (env : Env) (pk : PublicKey) (s : TokenFreeze.State) (freeze : Bool) :
    JS.KeepsStatus (TokenFreeze.toggleFreezeTry env pk s freeze) := by
  unfold TokenFreeze.toggleFreezeTry TokenFreeze.resolveTokenAccount
  repeat' (first
    | with_reducible apply JS.keeps_bind
    | with_reducible apply JS.keeps_tryCatch
    | with_reducible apply JS.keeps_ite
    | with_reducible apply JS.keeps_pure
    | with_reducible apply JS.keeps_raise
    | with_reducible apply JS.keeps_await
    | with_reducible apply JS.keeps_emit
    | with_reducible apply JS.keeps_setLoading
    | with_reducible apply JS.keeps_modifySt
    | with_reducible apply JS.keeps_request
    | with_reducible exact (isValid_keeps _ _).1
    | with_reducible exact JS.keeps_setStatus _ (by decide)
    | with_reducible exact JS.keeps_setStatus _ (append_ne_empty _ _ (by decide))
    | with_reducible exact JS.keeps_setStatus _ (append_ne_empty _ _ (append_ne_empty _ _ (by decide)))
    | with_reducible exact JS.keeps_setStatus _ (transfer_status_ne _ _ _ _).1
    | with_reducible exact JS.keeps_setStatus _ (transfer_status_ne env 0 0 _).2
    | intro _
    | split)

theorem authority_try_keeps (env : Env) (pk : PublicKey) (s : TokenAuthorityTransfer.State) :
    JS.KeepsStatus (TokenAuthorityTransfer.transferAuthorityTry env pk s) := by
  unfold TokenAuthorityTransfer.transferAuthorityTry
  repeat' (first
    | with_reducible apply JS.keeps_bind
    | with_reducible apply JS.keeps_tryCatch
    | with_reducible apply JS.keeps_ite
    | with_reducible apply JS.keeps_pure
    | with_reducible apply JS.keeps_raise
    | with_reducible apply JS.keeps_await
    | with_reducible apply JS.keeps_emit
    | with_reducible apply JS.keeps_setLoading
    | with_reducible apply JS.keeps_modifySt
    | with_reducible apply JS.keeps_request
    | with_reducible exact (isValid_keeps _ _).1
    | with_reducible exact JS.keeps_setStatus _ (by decide)
    | with_reducible exact JS.keeps_setStatus _ (append_ne_empty _ _ (by decide))
    | with_reducible exact JS.keeps_setStatus _ (append_ne_empty _ _ (append_ne_empty _ _ (by decide)))
    | with_reducible exact JS.keeps_setStatus _ (transfer_status_ne _ _ _ _).1
    | with_reducible exact JS.keeps_setStatus _ (transfer_status_ne env 0 0 _).2
    | intro _
    | split)

theorem creator_try_keeps (env : Env) (pk authority : PublicKey) (s : TokenCreator.State) :
    JS.KeepsStatus (TokenCreator.createTokenTry env pk authority s) := by
  unfold TokenCreator.createTokenTry
  repeat' (first
    | with_reducible apply JS.keeps_bind
    | with_reducible apply JS.keeps_tryCatch
    | with_reducible apply JS.keeps_ite
    | with_reducible apply JS.keeps_pure
    | with_reducible apply JS.keeps_raise
    | with_reducible apply JS.keeps_await
    | with_reducible apply JS.keeps_emit
    | with_reducible apply JS.keeps_setLoading
    | with_reducible apply JS.keeps_modifySt
    | with_reducible apply JS.keeps_request
    | with_reducible exact (isValid_keeps _ _).1
    | with_reducible exact JS.keeps_setStatus _ (by decide)
    | with_reducible exact JS.keeps_setStatus _ (append_ne_empty _ _ (by decide))
    | with_reducible exact JS.keeps_setStatus _ (append_ne_empty _ _ (append_ne_empty _ _ (by decide)))
    | with_reducible exact JS.keeps_setStatus _ (transfer_status_ne _ _ _ _).1
    | with_reducible exact JS.keeps_setStatus _ (transfer_status_ne env 0 0 _).2
    | intro _)

theorem burn_try_sets (env : Env) (pk : PublicKey) (ti : TokenBurn.TokenInfo) (network : String)
    (s : TokenBurn.State) : JS.SetsStatus (TokenBurn.burnTokensTry env pk ti network s) := by
  unfold TokenBurn.burnTokensTry TokenBurn.validateBurnAmount TokenBurn.saveBurnRecord
  apply JS.sets_setLoading_bind
  intro _
  apply JS.sets_setStatus_bind _ (by decide)
  repeat' (first
    | with_reducible apply JS.keeps_bind
    | with_reducible apply JS.keeps_tryCatch
    | with_reducible apply JS.keeps_ite
    | with_reducible apply JS.keeps_pure
    | with_reducible apply JS.keeps_raise
    | with_reducible apply JS.keeps_await
    | with_reducible apply JS.keeps_emit
    | with_reducible apply JS.keeps_setLoading
    | with_reducible apply JS.keeps_modifySt
    | with_reducible apply JS.keeps_request
    | with_reducible exact (isValid_keeps _ _).1
    | with_reducible exact JS.keeps_setStatus _ (by decide)
    | with_reducible exact JS.keeps_setStatus _ (append_ne_empty _ _ (by decide))
    | with_reducible exact JS.keeps_setStatus _ (append_ne_empty _ _ (append_ne_empty _ _ (by decide)))
    | with_reducible exact JS.keeps_setStatus _ (transfer_status_ne _ _ _ _).1
    | with_reducible exact JS.keeps_setStatus _ (transfer_status_ne env 0 0 _).2
    | intro _
    | split)


/-- A validated authority-transfer form reaches the `try` block. -/
theorem authority_reaches_try (env : Env) (pk m : PublicKey) (s : TokenAuthorityTransfer.State)
    (hmint : s.formData.mintAddress ≠ "")
    (hm : env.newPublicKey s.formData.mintAddress = Except.ok m)
    (hnew : s.formData.revokeAuthority = true ∨
      (s.formData.newAuthority ≠ "" ∧ ∃ key, env.newPublicKey s.formData.newAuthority = Except.ok key))
    (w : World TokenAuthorityTransfer.State) :
    TokenAuthorityTransfer.transferAuthority env (some pk) s w =
      JS.tryFinally
        (JS.tryCatch (TokenAuthorityTransfer.transferAuthorityTry env pk s)
          (fun message => JS.setStatus (TokenAuthorityTransfer.errorMessage message)))
        (JS.setLoading false)
        { w with loading := true, status := "准备转移权限...",
                 log := w.log ++ [Event.setLoading true, Event.setStatus "准备转移权限..."] } := by
  cases hrev : s.formData.revokeAuthority with
  | true =>
    simp [TokenAuthorityTransfer.transferAuthority, authority_isValid_apply, JS.ite_apply, JS.bind_apply,
      JS.pure_apply, JS.setStatus_apply, JS.setLoading_apply, hmint, hm, hrev]
  | false =>
    rcases hnew with h | ⟨hfilled, key, hkey⟩
    · rw [hrev] at h
      cases h
    · simp [TokenAuthorityTransfer.transferAuthority, authority_isValid_apply, JS.ite_apply,
        JS.bind_apply, JS.pure_apply, JS.setStatus_apply, JS.setLoading_apply, hmint, hm, hrev, hfilled,
        hkey]

/-- Once `transferToken` has called `setLoading`, it returns normally, not loading, with the
status set. -/
theorem transfer_finishes (env : Env) (publicKey : Option PublicKey) (s : TokenTransfer.State)
    (w : World TokenTransfer.State)
    (hset : loadingSets ((TokenTransfer.transferToken env publicKey s).exec w).log ≠ loadingSets w.log) :
    (TokenTransfer.transferToken env publicKey s).result w = Outcome.ok () ∧
    ((TokenTransfer.transferToken env publicKey s).exec w).loading = false ∧
    ((TokenTransfer.transferToken env publicKey s).exec w).status ≠ "" := by
  cases publicKey with
  | none =>
    simp [TokenTransfer.transferToken, JS.exec, JS.setStatus_apply, loadingSets_append, loadingSets] at hset
  | some pk =>
    by_cases hf : s.formData.mintAddress = "" ∨ s.formData.recipientAddress = "" ∨ s.formData.amount = ""
    · simp [TokenTransfer.transferToken, JS.exec, JS.ite_apply, JS.setStatus_apply, loadingSets_append,
        loadingSets, hf] at hset
    · cases hdm : env.newPublicKey s.formData.mintAddress with
      | error e =>
        simp [TokenTransfer.transferToken, transfer_isValid_apply, JS.exec, JS.ite_apply, JS.bind_apply,
          JS.setStatus_apply, loadingSets_append, loadingSets, hf, hdm] at hset
      | ok m =>
        cases hcm : env.isOnCurve m with
        | false =>
          simp [TokenTransfer.transferToken, transfer_isValid_apply, JS.exec, JS.ite_apply, JS.bind_apply,
            JS.setStatus_apply, loadingSets_append, loadingSets, hf, hdm, hcm] at hset
        | true =>
          cases hdr : env.newPublicKey s.formData.recipientAddress with
          | error e =>
            simp [TokenTransfer.transferToken, transfer_isValid_apply, JS.exec, JS.ite_apply, JS.bind_apply,
              JS.setStatus_apply, loadingSets_append, loadingSets, hf, hdm, hcm, hdr] at hset
          | ok r =>
            cases hcr : env.isOnCurve r with
            | false =>
              simp [TokenTransfer.transferToken, transfer_isValid_apply, JS.exec, JS.ite_apply, JS.bind_apply,
                JS.setStatus_apply, loadingSets_append, loadingSets, hf, hdm, hcm, hdr, hcr] at hset
            | true =>
              cases hle : (env.parseFloat s.formData.amount).le0 with
              | true =>
                simp [TokenTransfer.transferToken, transfer_isValid_apply, JS.exec, JS.ite_apply, JS.bind_apply,
                  JS.setStatus_apply, loadingSets_append, loadingSets, hf, hdm, hcm, hdr, hcr, hle] at hset
              | false =>
                have hstart : TokenTransfer.transferToken env (some pk) s w =
                    JS.tryFinally
                      (JS.tryCatch (TokenTransfer.transferTokenTry env pk s)
                        (fun message => JS.setStatus (TokenTransfer.errorMessage message)))
                      (JS.setLoading false)
                      { w with loading := true, status := "准备转账...",
                               log := w.log ++ [Event.setLoading true, Event.setStatus "准备转账..."] } := by
                  simp [TokenTransfer.transferToken, transfer_isValid_apply, JS.ite_apply, JS.bind_apply,
                    JS.setStatus_apply, JS.setLoading_apply, hf, hdm, hcm, hdr, hcr, hle]
                rw [JS.result, JS.exec, hstart]
                exact JS.finish_of_keeps _ _ transfer_errorMessage_ne (transfer_try_keeps env pk s) _
                  (by simp)


/-- Once `burnTokens` has called `setLoading`, it returns normally, not loading, with the
status set. -/
theorem burn_finishes (env : Env) (publicKey : Option PublicKey) (network : String)
    (s : TokenBurn.State) (w : World TokenBurn.State)
    (hset : loadingSets ((TokenBurn.burnTokens env publicKey network s).exec w).log ≠
      loadingSets w.log) :
    (TokenBurn.burnTokens env publicKey network s).result w = Outcome.ok () ∧
    ((TokenBurn.burnTokens env publicKey network s).exec w).loading = false ∧
    ((TokenBurn.burnTokens env publicKey network s).exec w).status ≠ "" := by
  cases publicKey with
  | none =>
    simp [TokenBurn.burnTokens, JS.exec, JS.setStatus_apply, loadingSets_append, loadingSets] at hset
  | some pk =>
    cases hti : s.tokenInfo with
    | none =>
      simp [TokenBurn.burnTokens, JS.exec, JS.setStatus_apply, loadingSets_append, loadingSets,
        hti] at hset
    | some ti =>
      have hstart : TokenBurn.burnTokens env (some pk) network s w =
          JS.tryFinally
            (JS.tryCatch (TokenBurn.burnTokensTry env pk ti network s)
              (fun message => JS.setStatus ("燃烧失败: " ++ message)))
            (JS.setLoading false) w := by
        simp [TokenBurn.burnTokens, hti]
      rw [JS.result, JS.exec, hstart]
      exact JS.finish_of_sets _ _ (fun e => append_ne_empty _ e (by decide))
        (burn_try_sets env pk ti network s) w

/-- Once `toggleFreeze` has called `setLoading`, it returns normally, not loading, with the
status set. -/
theorem freeze_finishes (env : Env) (publicKey : Option PublicKey) (s : TokenFreeze.State)
    (freeze : Bool) (w : World TokenFreeze.State)
    (hset : loadingSets ((TokenFreeze.toggleFreeze env publicKey s freeze).exec w).log ≠
      loadingSets w.log) :
    (TokenFreeze.toggleFreeze env publicKey s freeze).result w = Outcome.ok () ∧
    ((TokenFreeze.toggleFreeze env publicKey s freeze).exec w).loading = false ∧
    ((TokenFreeze.toggleFreeze env publicKey s freeze).exec w).status ≠ "" := by
  cases publicKey with
  | none =>
    simp [TokenFreeze.toggleFreeze, JS.exec, JS.setStatus_apply, loadingSets_append, loadingSets] at hset
  | some pk =>
    by_cases hf : s.formData.mintAddress = "" ∨ s.formData.tokenAccount = ""
    · simp [TokenFreeze.toggleFreeze, freeze_isValid_apply, JS.exec, JS.ite_apply, JS.bind_apply, JS.pure_apply,
      JS.setStatus_apply, JS.await_ok, JS.await_error, loadingSets_append, loadingSets, hf] at hset
    · cases hmi : s.mintInfo with
      | none =>
        simp [TokenFreeze.toggleFreeze, freeze_isValid_apply, JS.exec, JS.ite_apply, JS.bind_apply, JS.pure_apply,
          JS.setStatus_apply, JS.await_ok, JS.await_error, loadingSets_append, loadingSets, hf, hmi] at hset
      | some mi =>
        cases hfa : mi.freezeAuthority with
        | none =>
          simp [TokenFreeze.toggleFreeze, freeze_isValid_apply, JS.exec, JS.ite_apply, JS.bind_apply, JS.pure_apply,
            JS.setStatus_apply, JS.await_ok, JS.await_error, loadingSets_append, loadingSets, hf, hmi, hfa] at hset
        | some fa =>
          by_cases hne : fa.toBase58 ≠ pk.toBase58
          · simp [TokenFreeze.toggleFreeze, freeze_isValid_apply, JS.exec, JS.ite_apply, JS.bind_apply, JS.pure_apply,
            JS.setStatus_apply, JS.await_ok, JS.await_error, loadingSets_append, loadingSets, hf, hmi, hfa, hne] at hset
          · cases hdm : env.newPublicKey s.formData.mintAddress with
            | error e =>
              simp [TokenFreeze.toggleFreeze, freeze_isValid_apply, JS.exec, JS.ite_apply, JS.bind_apply, JS.pure_apply,
                JS.setStatus_apply, JS.await_ok, JS.await_error, loadingSets_append, loadingSets, hf, hmi, hfa, hne, hdm] at hset
            | ok m =>
              cases hda : env.newPublicKey s.formData.tokenAccount with
              | error e =>
                simp [TokenFreeze.toggleFreeze, freeze_isValid_apply, JS.exec, JS.ite_apply, JS.bind_apply, JS.pure_apply,
                  JS.setStatus_apply, JS.await_ok, JS.await_error, loadingSets_append, loadingSets, hf, hmi, hfa, hne, hdm, hda] at hset
              | ok a =>
                have hstart : TokenFreeze.toggleFreeze env (some pk) s freeze w =
                    JS.tryFinally
                      (JS.tryCatch (TokenFreeze.toggleFreezeTry env pk s freeze)
                        (fun message => JS.setStatus (TokenFreeze.errorMessage message)))
                      (JS.setLoading false)
                      { w with loading := true,
                               status := (if freeze then "准备冻结账户..." else "准备解冻账户..."),
                               log := w.log ++ [Event.setLoading true,
                                 Event.setStatus (if freeze then "准备冻结账户..." else "准备解冻账户...")] } := by
                  simp [TokenFreeze.toggleFreeze, freeze_isValid_apply, JS.ite_apply, JS.bind_apply,
                    JS.setStatus_apply, JS.setLoading_apply, hf, hmi, hfa, hne, hdm, hda]
                rw [JS.result, JS.exec, hstart]
                exact JS.finish_of_keeps _ _ freeze_errorMessage_ne (freeze_try_keeps env pk s freeze) _
                  (by cases freeze <;> simp)

/-- Once `transferAuthority` has called `setLoading`, it returns normally, not loading, with
the status set. -/
theorem authority_finishes (env : Env) (publicKey : Option PublicKey)
    (s : TokenAuthorityTransfer.State) (w : World TokenAuthorityTransfer.State)
    (hset : loadingSets ((TokenAuthorityTransfer.transferAuthority env publicKey s).exec w).log ≠
      loadingSets w.log) :
    (TokenAuthorityTransfer.transferAuthority env publicKey s).result w = Outcome.ok () ∧
    ((TokenAuthorityTransfer.transferAuthority env publicKey s).exec w).loading = false ∧
    ((TokenAuthorityTransfer.transferAuthority env publicKey s).exec w).status ≠ "" := by
  cases publicKey with
  | none =>
    simp [TokenAuthorityTransfer.transferAuthority, JS.exec, JS.setStatus_apply, loadingSets_append,
      loadingSets] at hset
  | some pk =>
    by_cases hmint : s.formData.mintAddress = ""
    · simp [TokenAuthorityTransfer.transferAuthority, authority_isValid_apply, JS.exec, JS.ite_apply, JS.bind_apply, JS.pure_apply,
      JS.setStatus_apply, JS.await_ok, JS.await_error, loadingSets_append, loadingSets, hmint] at hset
    · cases hdm : env.newPublicKey s.formData.mintAddress with
      | error e =>
        by_cases hnone : s.formData.revokeAuthority = false ∧ s.formData.newAuthority = ""
        · simp [TokenAuthorityTransfer.transferAuthority, authority_isValid_apply, JS.exec, JS.ite_apply, JS.bind_apply, JS.pure_apply,
            JS.setStatus_apply, JS.await_ok, JS.await_error, loadingSets_append, loadingSets, hmint, hnone] at hset
        · simp [TokenAuthorityTransfer.transferAuthority, authority_isValid_apply, JS.exec, JS.ite_apply, JS.bind_apply, JS.pure_apply,
            JS.setStatus_apply, JS.await_ok, JS.await_error, loadingSets_append, loadingSets, hmint, hnone, hdm] at hset
      | ok m =>
        by_cases hnew : s.formData.revokeAuthority = true ∨
            (s.formData.newAuthority ≠ "" ∧
              ∃ key, env.newPublicKey s.formData.newAuthority = Except.ok key)
        · rw [JS.result, JS.exec, authority_reaches_try env pk m s hmint hdm hnew w]
          exact JS.finish_of_keeps _ _ authority_errorMessage_ne (authority_try_keeps env pk s) _
            (by simp)
        · cases hrev : s.formData.revokeAuthority with
          | true => exact absurd (Or.inl hrev) hnew
          | false =>
            by_cases hfilled : s.formData.newAuthority = ""
            · simp [TokenAuthorityTransfer.transferAuthority, authority_isValid_apply, JS.exec, JS.ite_apply, JS.bind_apply, JS.pure_apply,
                JS.setStatus_apply, JS.await_ok, JS.await_error, loadingSets_append, loadingSets, hmint, hdm, hrev, hfilled] at hset
            · cases hdn : env.newPublicKey s.formData.newAuthority with
              | ok key => exact absurd (Or.inr ⟨hfilled, key, hdn⟩) hnew
              | error e =>
                simp [TokenAuthorityTransfer.transferAuthority, authority_isValid_apply, JS.exec, JS.ite_apply, JS.bind_apply, JS.pure_apply,
                  JS.setStatus_apply, JS.await_ok, JS.await_error, loadingSets_append, loadingSets, hmint, hdm, hrev, hfilled, hdn] at hset

/-- Once `createToken` has called `setLoading`, it returns normally, not loading, with the
status set. -/
theorem creator_finishes (env : Env) (publicKey : Option PublicKey) (s : TokenCreator.State)
    (w : World TokenCreator.State)
    (hset : loadingSets ((TokenCreator.createToken env publicKey s).exec w).log ≠ loadingSets w.log) :
    (TokenCreator.createToken env publicKey s).result w = Outcome.ok () ∧
    ((TokenCreator.createToken env publicKey s).exec w).loading = false ∧
    ((TokenCreator.createToken env publicKey s).exec w).status ≠ "" := by
  cases publicKey with
  | none =>
    simp [TokenCreator.createToken, JS.exec, JS.setStatus_apply, loadingSets_append, loadingSets] at hset
  | some pk =>
    by_cases hf : s.formData.name = "" ∨ s.formData.symbol = "" ∨ s.formData.supply = ""
    · simp [TokenCreator.createToken, creator_isValid_apply, JS.exec, JS.ite_apply, JS.bind_apply, JS.pure_apply,
      JS.setStatus_apply, JS.await_ok, JS.await_error, loadingSets_append, loadingSets, hf] at hset
    · have hname : s.formData.name ≠ "" := fun h => hf (Or.inl h)
      have hsymbol : s.formData.symbol ≠ "" := fun h => hf (Or.inr (Or.inl h))
      have hsupply : s.formData.supply ≠ "" := fun h => hf (Or.inr (Or.inr h))
      have hfin : ∀ authority,
          ((env.trim s.formData.authorityAddress = "" ∧ authority = pk) ∨
            (env.trim s.formData.authorityAddress ≠ "" ∧
              env.newPublicKey (env.trim s.formData.authorityAddress) = Except.ok authority ∧
              ∃ key, env.newPublicKey s.formData.authorityAddress = Except.ok key)) →
          (TokenCreator.createToken env (some pk) s).result w = Outcome.ok () ∧
          ((TokenCreator.createToken env (some pk) s).exec w).loading = false ∧
          ((TokenCreator.createToken env (some pk) s).exec w).status ≠ "" := by
        intro authority hauth
        rw [JS.result, JS.exec, creator_reaches_try env pk authority s hname hsymbol hsupply hauth w]
        exact JS.finish_of_keeps _ (fun e => "错误: " ++ e) (fun e => append_ne_empty _ e (by decide))
          (creator_try_keeps env pk authority s) _ (by simp)
      by_cases hblank : env.trim s.formData.authorityAddress = ""
      · exact hfin pk (Or.inl ⟨hblank, rfl⟩)
      · cases hdt : env.newPublicKey (env.trim s.formData.authorityAddress) with
        | error e =>
          simp [TokenCreator.createToken, creator_isValid_apply, JS.exec, JS.ite_apply, JS.bind_apply, JS.pure_apply,
            JS.setStatus_apply, JS.await_ok, JS.await_error, loadingSets_append, loadingSets, hf, hblank, hdt] at hset
        | ok authority =>
          cases hdu : env.newPublicKey s.formData.authorityAddress with
          | error e =>
            simp [TokenCreator.createToken, creator_isValid_apply, JS.exec, JS.ite_apply, JS.bind_apply, JS.pure_apply,
              JS.setStatus_apply, JS.await_ok, JS.await_error, loadingSets_append, loadingSets, hf, hblank, hdt, hdu] at hset
          | ok key => exact hfin authority (Or.inr ⟨hblank, hdt, key, hdu⟩)

/-! ## C11: freeze and thaw only as the freeze authority -/

/-- The run of `toggleFreeze` in a state where the wallet is not the freeze authority of the
fetched mint info: one of the five guard messages is set and the handler returns. -/
theorem freeze_blocked_run (env : Env) (publicKey : Option PublicKey) (s : TokenFreeze.State)
    (freeze : Bool)
    (hnot : ¬ ∃ pk mi fa, publicKey = some pk ∧ s.mintInfo = some mi ∧ mi.freezeAuthority = some fa ∧
      fa.toBase58 = pk.toBase58)
    (w : World TokenFreeze.State) :
    ∃ msg, msg ∈ ["请先连接钱包", "请填写代币Mint地址和代币账户地址", "错误: 未能获取代币信息",
        "错误: 此代币未设置冻结权限，无法冻结/解冻", "错误: 当前钱包不是该代币的冻结权限地址"] ∧
      TokenFreeze.toggleFreeze env publicKey s freeze w =
        (Outcome.ok (), { w with status := msg, log := w.log ++ [Event.setStatus msg] }) := by
  cases publicKey with
  | none => exact ⟨"请先连接钱包", by simp, by simp [TokenFreeze.toggleFreeze, JS.setStatus_apply]⟩
  | some pk =>
    by_cases hf : s.formData.mintAddress = "" ∨ s.formData.tokenAccount = ""
    · exact ⟨"请填写代币Mint地址和代币账户地址", by simp, by simp [TokenFreeze.toggleFreeze, JS.setStatus_apply, JS.ite_apply, hf]⟩
    · cases hmi : s.mintInfo with
      | none =>
        exact ⟨"错误: 未能获取代币信息", by simp, by simp [TokenFreeze.toggleFreeze, JS.setStatus_apply, JS.ite_apply, hf, hmi]⟩
      | some mi =>
        cases hfa : mi.freezeAuthority with
        | none =>
          exact ⟨"错误: 此代币未设置冻结权限，无法冻结/解冻", by simp,
            by simp [TokenFreeze.toggleFreeze, JS.setStatus_apply, JS.ite_apply, hf, hmi, hfa]⟩
        | some fa =>
          have hne : fa.toBase58 ≠ pk.toBase58 := fun h => hnot ⟨pk, mi, fa, rfl, hmi, hfa, h⟩
          exact ⟨"错误: 当前钱包不是该代币的冻结权限地址", by simp,
            by simp [TokenFreeze.toggleFreeze, JS.setStatus_apply, JS.ite_apply, hf, hmi, hfa, hne]⟩

/-- C11. `toggleFreeze` hands a freeze or thaw transaction to the wallet only if a wallet is
connected and the fetched mint info has a freeze authority whose base58 form equals that of the
wallet key. In every other state it returns having assembled, submitted and requested nothing,
and the status is one of its five guard messages, none of which contains the word for
success. -/
theorem C11_toggleFreeze_sends_only_as_freeze_authority (env : Env) (publicKey : Option PublicKey)
    (s : TokenFreeze.State) (freeze : Bool) (w : World TokenFreeze.State) :
    (sentTxs ((TokenFreeze.toggleFreeze env publicKey s freeze).exec w).log ≠ sentTxs w.log →
      ∃ pk mi fa, publicKey = some pk ∧ s.mintInfo = some mi ∧ mi.freezeAuthority = some fa ∧
        fa.toBase58 = pk.toBase58) ∧
    ((¬ ∃ pk mi fa, publicKey = some pk ∧ s.mintInfo = some mi ∧ mi.freezeAuthority = some fa ∧
        fa.toBase58 = pk.toBase58) →
      (TokenFreeze.toggleFreeze env publicKey s freeze).result w = Outcome.ok () ∧
      sentTxs ((TokenFreeze.toggleFreeze env publicKey s freeze).exec w).log = sentTxs w.log ∧
      builtTxs ((TokenFreeze.toggleFreeze env publicKey s freeze).exec w).log = builtTxs w.log ∧
      networkCalls ((TokenFreeze.toggleFreeze env publicKey s freeze).exec w).log = networkCalls w.log ∧
      ((TokenFreeze.toggleFreeze env publicKey s freeze).exec w).status ∈
        ["请先连接钱包", "请填写代币Mint地址和代币账户地址", "错误: 未能获取代币信息",
          "错误: 此代币未设置冻结权限，无法冻结/解冻", "错误: 当前钱包不是该代币的冻结权限地址"] ∧
      includes ((TokenFreeze.toggleFreeze env publicKey s freeze).exec w).status "成功" = false) := by
  have hblocked : (¬ ∃ pk mi fa, publicKey = some pk ∧ s.mintInfo = some mi ∧
        mi.freezeAuthority = some fa ∧ fa.toBase58 = pk.toBase58) →
      (TokenFreeze.toggleFreeze env publicKey s freeze).result w = Outcome.ok () ∧
      sentTxs ((TokenFreeze.toggleFreeze env publicKey s freeze).exec w).log = sentTxs w.log ∧
      builtTxs ((TokenFreeze.toggleFreeze env publicKey s freeze).exec w).log = builtTxs w.log ∧
      networkCalls ((TokenFreeze.toggleFreeze env publicKey s freeze).exec w).log = networkCalls w.log ∧
      ((TokenFreeze.toggleFreeze env publicKey s freeze).exec w).status ∈
        ["请先连接钱包", "请填写代币Mint地址和代币账户地址", "错误: 未能获取代币信息",
          "错误: 此代币未设置冻结权限，无法冻结/解冻", "错误: 当前钱包不是该代币的冻结权限地址"] ∧
      includes ((TokenFreeze.toggleFreeze env publicKey s freeze).exec w).status "成功" = false := by
    intro hnot
    obtain ⟨msg, hmem, hrun⟩ := freeze_blocked_run env publicKey s freeze hnot w
    have hmsg : includes msg "成功" = false := by
      simp only [List.mem_cons, List.mem_singleton, List.not_mem_nil, or_false] at hmem
      rcases hmem with h | h | h | h | h <;> subst h <;> decide
    refine ⟨?_, ?_, ?_, ?_, ?_, ?_⟩
    · simp [JS.result, hrun]
    · simp [JS.exec, hrun, sentTxs_append, sentTxs]
    · simp [JS.exec, hrun, builtTxs_append, builtTxs]
    · simp [JS.exec, hrun, networkCalls_append, networkCalls]
    · simpa [JS.exec, hrun] using hmem
    · simpa [JS.exec, hrun] using hmsg
  refine ⟨?_, hblocked⟩
  intro hsent
  by_contra hnot
  exact hsent (hblocked hnot).2.1

/-- C11 at the sample environment: the fetched mint info has no freeze authority. -/
theorem C11_witness :
    sentTxs ((TokenFreeze.toggleFreeze Sample.env (some Sample.wallet) Sample.freezeState true).exec
      (Sample.world Sample.freezeState)).log = sentTxs (Sample.world Sample.freezeState).log ∧
    includes ((TokenFreeze.toggleFreeze Sample.env (some Sample.wallet) Sample.freezeState true).exec
      (Sample.world Sample.freezeState)).status "成功" = false :=
  have h := (C11_toggleFreeze_sends_only_as_freeze_authority Sample.env (some Sample.wallet)
    Sample.freezeState true (Sample.world Sample.freezeState)).2
    (by
      rintro ⟨pk, mi, fa, _, hmi, hfa, _⟩
      cases hmi
      cases hfa)
  ⟨h.2.1, h.2.2.2.2.2⟩

/-! ## C12: no comparison with the on-chain authority before submission -/

/-- The run of `transferAuthority` for an SPL authority type: the requests it makes and what it
shows when the submission is rejected. -/
theorem authority_spl_calls (env : Env) (pk m : PublicKey) (s : TokenAuthorityTransfer.State)
    (t : AuthorityType) (newAuthority : Option PublicKey) (w : World TokenAuthorityTransfer.State)
    (hmint : s.formData.mintAddress ≠ "")
    (hm : env.newPublicKey s.formData.mintAddress = Except.ok m)
    (hty : TokenAuthorityTransfer.getAuthorityTypeEnum s.formData.authorityType =
      TokenAuthorityTransfer.AuthorityKind.spl t)
    (hnew : (s.formData.revokeAuthority = true ∧ newAuthority = none) ∨
      (s.formData.revokeAuthority = false ∧ s.formData.newAuthority ≠ "" ∧
        ∃ key, env.newPublicKey s.formData.newAuthority = Except.ok key ∧ newAuthority = some key)) :
    networkCalls ((TokenAuthorityTransfer.transferAuthority env (some pk) s).exec w).log =
      networkCalls w.log ++
        (match env.sendTransaction [Instr.setAuthority m pk t newAuthority [] env.TOKEN_PROGRAM_ID] with
         | Except.ok signature => [Call.confirmTransaction signature]
         | Except.error _ => []) ∧
    (∀ e, env.sendTransaction [Instr.setAuthority m pk t newAuthority [] env.TOKEN_PROGRAM_ID] =
        Except.error e →
      ((TokenAuthorityTransfer.transferAuthority env (some pk) s).exec w).status =
        TokenAuthorityTransfer.errorMessage e ∧
      ((TokenAuthorityTransfer.transferAuthority env (some pk) s).exec w).loading = false) := by
  rcases hnew with ⟨hrev, hnone⟩ | ⟨hrev, hfilled, key, hkey, hsome⟩
  · subst hnone
    cases hsend : env.sendTransaction [Instr.setAuthority m pk t none [] env.TOKEN_PROGRAM_ID] with
    | error e =>
      simp [TokenAuthorityTransfer.transferAuthority, TokenAuthorityTransfer.transferAuthorityTry,
        authority_isValid_apply, JS.exec, JS.ite_apply,
        JS.bind_apply, JS.pure_apply, JS.tryCatch_apply, JS.tryFinally_apply, JS.await_ok, JS.await_error,
        JS.request_ok, JS.request_error, JS.emit_apply, JS.setStatus_apply, JS.setLoading_apply,
        JS.raise_apply, hmint, hm, hty, hrev, networkCalls_append, networkCalls, hsend]
    | ok sig =>
      cases hconf : env.confirmTransaction sig <;>
      simp [TokenAuthorityTransfer.transferAuthority, TokenAuthorityTransfer.transferAuthorityTry,
        authority_isValid_apply, JS.exec, JS.ite_apply,
        JS.bind_apply, JS.pure_apply, JS.tryCatch_apply, JS.tryFinally_apply, JS.await_ok, JS.await_error,
        JS.request_ok, JS.request_error, JS.emit_apply, JS.setStatus_apply, JS.setLoading_apply,
        JS.raise_apply, hmint, hm, hty, hrev, networkCalls_append, networkCalls, hsend, hconf]
  · subst hsome
    cases hsend : env.sendTransaction [Instr.setAuthority m pk t (some key) [] env.TOKEN_PROGRAM_ID] with
    | error e =>
      simp [TokenAuthorityTransfer.transferAuthority, TokenAuthorityTransfer.transferAuthorityTry,
        authority_isValid_apply, JS.exec, JS.ite_apply,
        JS.bind_apply, JS.pure_apply, JS.tryCatch_apply, JS.tryFinally_apply, JS.await_ok, JS.await_error,
        JS.request_ok, JS.request_error, JS.emit_apply, JS.setStatus_apply, JS.setLoading_apply,
        JS.raise_apply, hmint, hm, hty, hrev, networkCalls_append, networkCalls, hfilled, hkey, hsend]
    | ok sig =>
      cases hconf : env.confirmTransaction sig <;>
      simp [TokenAuthorityTransfer.transferAuthority, TokenAuthorityTransfer.transferAuthorityTry,
        authority_isValid_apply, JS.exec, JS.ite_apply,
        JS.bind_apply, JS.pure_apply, JS.tryCatch_apply, JS.tryFinally_apply, JS.await_ok, JS.await_error,
        JS.request_ok, JS.request_error, JS.emit_apply, JS.setStatus_apply, JS.setLoading_apply,
        JS.raise_apply, hmint, hm, hty, hrev, networkCalls_append, networkCalls, hfilled, hkey, hsend, hconf]

/-- The run of `transferAuthority` for the metadata update authority, not revoking: the lookup
of the metadata, then the update with the wallet as update authority. -/
theorem authority_update_calls (env : Env) (pk m key : PublicKey) (s : TokenAuthorityTransfer.State)
    (w : World TokenAuthorityTransfer.State)
    (hmint : s.formData.mintAddress ≠ "")
    (hm : env.newPublicKey s.formData.mintAddress = Except.ok m)
    (hty : s.formData.authorityType = "UpdateAuthority")
    (hrev : s.formData.revokeAuthority = false) (hfilled : s.formData.newAuthority ≠ "")
    (hkey : env.newPublicKey s.formData.newAuthority = Except.ok key) :
    networkCalls ((TokenAuthorityTransfer.transferAuthority env (some pk) s).exec w).log =
      networkCalls w.log ++
        (Call.metaplexFindByMint m ::
          (match env.metaplexFindByMint m with
           | Except.ok _ => [Call.metaplexUpdate m pk key]
           | Except.error _ => [])) ∧
    sentTxs ((TokenAuthorityTransfer.transferAuthority env (some pk) s).exec w).log = sentTxs w.log := by
  have hkind : TokenAuthorityTransfer.getAuthorityTypeEnum s.formData.authorityType =
      TokenAuthorityTransfer.AuthorityKind.UpdateAuthority := by
    simp [TokenAuthorityTransfer.getAuthorityTypeEnum, hty]
  cases hfind : env.metaplexFindByMint m with
  | error e =>
    simp [TokenAuthorityTransfer.transferAuthority, TokenAuthorityTransfer.transferAuthorityTry,
      authority_isValid_apply, JS.exec, JS.ite_apply,
      JS.bind_apply, JS.pure_apply, JS.tryCatch_apply, JS.tryFinally_apply, JS.await_ok, JS.await_error,
      JS.request_ok, JS.request_error, JS.emit_apply, JS.setStatus_apply, JS.setLoading_apply,
      JS.raise_apply, hmint, hm, hkind, hrev, networkCalls_append, networkCalls, sentTxs_append, sentTxs,
      hfilled, hkey, hfind]
  | ok u =>
    cases hupd : env.metaplexUpdate m pk key <;>
    simp [TokenAuthorityTransfer.transferAuthority, TokenAuthorityTransfer.transferAuthorityTry,
      authority_isValid_apply, JS.exec, JS.ite_apply,
      JS.bind_apply, JS.pure_apply, JS.tryCatch_apply, JS.tryFinally_apply, JS.await_ok, JS.await_error,
      JS.request_ok, JS.request_error, JS.emit_apply, JS.setStatus_apply, JS.setLoading_apply,
      JS.raise_apply, hmint, hm, hkind, hrev, networkCalls_append, networkCalls, sentTxs_append, sentTxs,
      hfilled, hkey, hfind, hupd]

/-- C12, as stated, fails. On a network that reports the recipient, not the connected wallet,
as mint authority of the sample mint, `transferAuthority` is not stopped before submission: it
asks nothing about the mint and hands the wallet a set-authority transaction naming the
connected wallet as current authority. The stop comes from the network, whose rejection is the
status shown. -/
theorem C12_counterexample :
    Sample.foreignAuthorityEnv.getMint Sample.mint = Except.ok Sample.foreignMintInfo ∧
    Sample.foreignMintInfo.mintAuthority = some Sample.recipient ∧
    Sample.recipient.toBase58 ≠ Sample.wallet.toBase58 ∧
    sentTxs ((TokenAuthorityTransfer.transferAuthority Sample.foreignAuthorityEnv (some Sample.wallet)
        Sample.revokeState).exec (Sample.world Sample.revokeState)).log =
      [[Instr.setAuthority Sample.mint Sample.wallet AuthorityType.MintTokens none []
        Sample.tokenProgram]] ∧
    networkCalls ((TokenAuthorityTransfer.transferAuthority Sample.foreignAuthorityEnv
        (some Sample.wallet) Sample.revokeState).exec (Sample.world Sample.revokeState)).log = [] ∧
    ((TokenAuthorityTransfer.transferAuthority Sample.foreignAuthorityEnv (some Sample.wallet)
        Sample.revokeState).exec (Sample.world Sample.revokeState)).status =
      "错误: Transaction simulation failed: Error processing Instruction 0: custom program error: 0x4" := by
  refine ⟨rfl, rfl, by decide, by decide, by decide, by decide⟩

/-- C12, amended. `transferAuthority` compares the connected wallet with nothing on chain. For
every validated form (wallet connected, mint address decodable): with authority type MintTokens
or FreezeAccount it hands the wallet exactly one set-authority transaction naming the connected
wallet as current authority, whatever the network would report about the mint, and the only
request it makes is the confirmation of that transaction once the wallet has accepted it; when
the wallet or the network rejects the submission, the mapped error message becomes the status
and loading ends false. With type UpdateAuthority, not revoking, it requests the metadata
lookup and, when that answers, the update with the connected wallet as update authority. -/
theorem C12_authority_is_checked_by_the_network_only (env : Env) (pk m : PublicKey)
    (s : TokenAuthorityTransfer.State) (w : World TokenAuthorityTransfer.State)
    (hmint : s.formData.mintAddress ≠ "")
    (hm : env.newPublicKey s.formData.mintAddress = Except.ok m) :
    (∀ t newAuthority,
      TokenAuthorityTransfer.getAuthorityTypeEnum s.formData.authorityType =
        TokenAuthorityTransfer.AuthorityKind.spl t →
      ((s.formData.revokeAuthority = true ∧ newAuthority = none) ∨
        (s.formData.revokeAuthority = false ∧ s.formData.newAuthority ≠ "" ∧
          ∃ key, env.newPublicKey s.formData.newAuthority = Except.ok key ∧ newAuthority = some key)) →
      sentTxs ((TokenAuthorityTransfer.transferAuthority env (some pk) s).exec w).log =
        sentTxs w.log ++ [[Instr.setAuthority m pk t newAuthority [] env.TOKEN_PROGRAM_ID]] ∧
      networkCalls ((TokenAuthorityTransfer.transferAuthority env (some pk) s).exec w).log =
        networkCalls w.log ++
          (match env.sendTransaction [Instr.setAuthority m pk t newAuthority [] env.TOKEN_PROGRAM_ID] with
           | Except.ok signature => [Call.confirmTransaction signature]
           | Except.error _ => []) ∧
      (∀ e, env.sendTransaction [Instr.setAuthority m pk t newAuthority [] env.TOKEN_PROGRAM_ID] =
          Except.error e →
        ((TokenAuthorityTransfer.transferAuthority env (some pk) s).exec w).status =
          TokenAuthorityTransfer.errorMessage e ∧
        ((TokenAuthorityTransfer.transferAuthority env (some pk) s).exec w).loading = false)) ∧
    (∀ key, s.formData.authorityType = "UpdateAuthority" → s.formData.revokeAuthority = false →
      s.formData.newAuthority ≠ "" → env.newPublicKey s.formData.newAuthority = Except.ok key →
      networkCalls ((TokenAuthorityTransfer.transferAuthority env (some pk) s).exec w).log =
        networkCalls w.log ++
          (Call.metaplexFindByMint m ::
            (match env.metaplexFindByMint m with
             | Except.ok _ => [Call.metaplexUpdate m pk key]
             | Except.error _ => [])) ∧
      sentTxs ((TokenAuthorityTransfer.transferAuthority env (some pk) s).exec w).log = sentTxs w.log) := by
  constructor
  · intro t newAuthority hty hnew
    exact ⟨(authority_spl_txs env pk m s t newAuthority w hmint hm hty hnew).2,
      authority_spl_calls env pk m s t newAuthority w hmint hm hty hnew⟩
  · intro key hty hrev hfilled hkey
    exact authority_update_calls env pk m key s w hmint hm hty hrev hfilled hkey

/-- C12 amended, at the sample environment whose network accepts the submission: the one
request of the run is the confirmation of the set-authority transaction. -/
theorem C12_witness :
    Sample.revokeState.formData.mintAddress ≠ "" ∧
    Sample.env.newPublicKey Sample.revokeState.formData.mintAddress = Except.ok Sample.mint ∧
    sentTxs ((TokenAuthorityTransfer.transferAuthority Sample.env (some Sample.wallet)
        Sample.revokeState).exec (Sample.world Sample.revokeState)).log =
      sentTxs (Sample.world Sample.revokeState).log ++
        [[Instr.setAuthority Sample.mint Sample.wallet AuthorityType.MintTokens none []
          Sample.env.TOKEN_PROGRAM_ID]] ∧
    networkCalls ((TokenAuthorityTransfer.transferAuthority Sample.env (some Sample.wallet)
        Sample.revokeState).exec (Sample.world Sample.revokeState)).log =
      networkCalls (Sample.world Sample.revokeState).log ++
        [Call.confirmTransaction Sample.signature] :=
  have h := (C12_authority_is_checked_by_the_network_only Sample.env Sample.wallet Sample.mint
    Sample.revokeState (Sample.world Sample.revokeState) (by decide) rfl).1
    AuthorityType.MintTokens none rfl (Or.inl ⟨rfl, rfl⟩)
  ⟨by decide, rfl, h.1, h.2.1⟩

/-! ## C13 and C14: the error mappers -/

theorem includesChars_iff (text part : List Char) : includesChars text part = true ↔ part <:+: text := by
  induction text with
  | nil =>
    cases part <;> simp [includesChars]
  | cons c cs ih =>
    rw [includesChars, Bool.or_eq_true, ih, List.infix_cons_iff, List.isPrefixOf_iff_prefix]

theorem includes_false_of_part (text middle part : String) (hpart : includes middle part = true)
    (hlacks : includes text part = false) : includes text middle = false := by
  cases h : includes text middle with
  | false => rfl
  | true =>
    have h1 : part.data <:+: middle.data := (includesChars_iff _ _).mp hpart
    have h2 : middle.data <:+: text.data := (includesChars_iff _ _).mp h
    have h3 : includes text part = true := (includesChars_iff _ _).mpr (h1.trans h2)
    rw [h3] at hlacks
    cases hlacks

/-- A `catch` that shows `f error.message`, followed by the `finally` that resets loading:
when the body throws `m`, the handler part returns normally, not loading, with status `f m`. -/
theorem JS.catch_shows {σ : Type} (body : JS σ Unit) (f : String → String) (m : String)
    (w w1 : World σ) (hthrown : body w = (Outcome.thrown m, w1)) :
    JS.tryFinally (JS.tryCatch body (fun message => JS.setStatus (f message))) (JS.setLoading false) w =
      (Outcome.ok (),
        { w1 with loading := false, status := f m,
                  log := w1.log ++ [Event.setStatus (f m), Event.setLoading false] }) := by
  simp [JS.tryFinally_apply, JS.tryCatch_apply, JS.setStatus_apply, JS.setLoading_apply, hthrown]

/-- The `catch` of `createATA` shows `createATAErrorMessage`. -/
theorem helper_catch_status (m : String) (w : World TokenCreatorHelper.State) :
    (TokenCreatorHelper.createATACatch m w).1 = Outcome.ok () ∧
    (TokenCreatorHelper.createATACatch m w).2.status = TokenCreatorHelper.createATAErrorMessage m := by
  by_cases h1 : includes m "insufficient funds" = true
  · simp [TokenCreatorHelper.createATACatch, TokenCreatorHelper.createATAErrorMessage, JS.ite_apply,
      JS.setStatus_apply, h1]
  · by_cases h2 : includes m "account already exists" = true
    · simp [TokenCreatorHelper.createATACatch, TokenCreatorHelper.createATAErrorMessage, JS.ite_apply,
        JS.bind_apply, JS.emit_apply, JS.setStatus_apply, h1, h2]
    · simp [TokenCreatorHelper.createATACatch, TokenCreatorHelper.createATAErrorMessage, JS.ite_apply,
        JS.setStatus_apply, h1, h2]

/-- C13. For every error message `m`: when `m` contains none of the substrings a component
matches, the text its `catch` chooses is the prefix '错误: ' followed by `m` unchanged, and that
text is the status left by the `catch`/`finally` of the handler whenever its `try` block throws
`m`. Proved for transfer (whose `catch` also receives the errors rethrown by the creation of
the recipient account), freeze/thaw, authority transfer, and the two account-creation handlers
of TokenCreatorHelper. -/
theorem C13_unmatched_error_passes_through (m : String) :
    (includes m "insufficient funds" = false → includes m "0x1" = false →
      includes m "Transaction was not confirmed" = false →
      includes m "TokenOwnerOffCurveError" = false →
      TokenTransfer.errorMessage m = "错误: " ++ m ∧
      ∀ env pk s w w1, TokenTransfer.transferTokenTry env pk s w = (Outcome.thrown m, w1) →
        ((JS.tryFinally (JS.tryCatch (TokenTransfer.transferTokenTry env pk s)
          (fun message => JS.setStatus (TokenTransfer.errorMessage message)))
          (JS.setLoading false)).exec w).status = "错误: " ++ m) ∧
    (includes m "insufficient funds" = false → includes m "authority does not match" = false →
      includes m "Account does not exist" = false →
      TokenFreeze.errorMessage m = "错误: " ++ m ∧
      ∀ env pk s freeze w w1, TokenFreeze.toggleFreezeTry env pk s freeze w = (Outcome.thrown m, w1) →
        ((JS.tryFinally (JS.tryCatch (TokenFreeze.toggleFreezeTry env pk s freeze)
          (fun message => JS.setStatus (TokenFreeze.errorMessage message)))
          (JS.setLoading false)).exec w).status = "错误: " ++ m) ∧
    (includes m "insufficient funds" = false → includes m "owner does not match" = false →
      includes m "authority does not match" = false →
      TokenAuthorityTransfer.errorMessage m = "错误: " ++ m ∧
      ∀ env pk s w w1,
        TokenAuthorityTransfer.transferAuthorityTry env pk s w = (Outcome.thrown m, w1) →
        ((JS.tryFinally (JS.tryCatch (TokenAuthorityTransfer.transferAuthorityTry env pk s)
          (fun message => JS.setStatus (TokenAuthorityTransfer.errorMessage message)))
          (JS.setLoading false)).exec w).status = "错误: " ++ m) ∧
    (includes m "insufficient funds" = false → includes m "account already exists" = false →
      TokenCreatorHelper.createATAErrorMessage m = "错误: " ++ m ∧
      TokenCreatorHelper.targetErrorMessage m = "错误: " ++ m ∧
      (∀ env pk s w w1, TokenCreatorHelper.createATATry env pk s w = (Outcome.thrown m, w1) →
        ((JS.tryFinally (JS.tryCatch (TokenCreatorHelper.createATATry env pk s)
          TokenCreatorHelper.createATACatch) (JS.setLoading false)).exec w).status = "错误: " ++ m) ∧
      (∀ env pk s w w1, TokenCreatorHelper.createATAForTargetTry env pk s w = (Outcome.thrown m, w1) →
        ((JS.tryFinally (JS.tryCatch (TokenCreatorHelper.createATAForTargetTry env pk s)
          (fun message => JS.setStatus (TokenCreatorHelper.targetErrorMessage message)))
          (JS.setLoading false)).exec w).status = "错误: " ++ m)) := by
  refine ⟨?_, ?_, ?_, ?_⟩
  · intro h1 h2 h3 h4
    have hmap : TokenTransfer.errorMessage m = "错误: " ++ m := by
      simp [TokenTransfer.errorMessage, h1, h2, h3, h4]
    refine ⟨hmap, fun env pk s w w1 hthrown => ?_⟩
    rw [JS.exec, JS.catch_shows _ _ m w w1 hthrown]
    exact hmap
  · intro h1 h2 h3
    have hmap : TokenFreeze.errorMessage m = "错误: " ++ m := by
      simp [TokenFreeze.errorMessage, h1, h2, h3]
    refine ⟨hmap, fun env pk s freeze w w1 hthrown => ?_⟩
    rw [JS.exec, JS.catch_shows _ _ m w w1 hthrown]
    exact hmap
  · intro h1 h2 h3
    have hmap : TokenAuthorityTransfer.errorMessage m = "错误: " ++ m := by
      simp [TokenAuthorityTransfer.errorMessage, h1, h2, h3]
    refine ⟨hmap, fun env pk s w w1 hthrown => ?_⟩
    rw [JS.exec, JS.catch_shows _ _ m w w1 hthrown]
    exact hmap
  · intro h1 h2
    have hmap : TokenCreatorHelper.createATAErrorMessage m = "错误: " ++ m := by
      simp [TokenCreatorHelper.createATAErrorMessage, h1, h2]
    have hmap2 : TokenCreatorHelper.targetErrorMessage m = "错误: " ++ m := by
      simp [TokenCreatorHelper.targetErrorMessage, h1, h2]
    refine ⟨hmap, hmap2, fun env pk s w w1 hthrown => ?_, fun env pk s w w1 hthrown => ?_⟩
    · have hc := helper_catch_status m w1
      simp only [JS.exec, JS.tryFinally_apply, JS.tryCatch_apply, hthrown]
      cases hrun : TokenCreatorHelper.createATACatch m w1 with
      | mk r w2 =>
        rw [hrun] at hc
        cases r with
        | ok u => simpa [JS.setLoading_apply, hmap] using hc.2
        | thrown e => simp at hc
    · rw [JS.exec, JS.catch_shows _ _ m w w1 hthrown]
      exact hmap2

/-- C13 at a message no component matches. -/
theorem C13_witness :
    TokenTransfer.errorMessage "User rejected the request." = "错误: User rejected the request." ∧
    TokenFreeze.errorMessage "User rejected the request." = "错误: User rejected the request." ∧
    TokenAuthorityTransfer.errorMessage "User rejected the request." =
      "错误: User rejected the request." ∧
    TokenCreatorHelper.createATAErrorMessage "User rejected the request." =
      "错误: User rejected the request." :=
  have h := C13_unmatched_error_passes_through "User rejected the request."
  ⟨(h.1 (by decide) (by decide) (by decide) (by decide)).1,
    (h.2.1 (by decide) (by decide) (by decide)).1,
    (h.2.2.1 (by decide) (by decide) (by decide)).1,
    (h.2.2.2 (by decide) (by decide)).1⟩

/-- C14. In the authority-transfer error mapping, for every error message `m`: a message
containing 'insufficient funds' gives the insufficient-SOL text; otherwise one containing
'owner does not match' gives the not-the-owner text; otherwise one containing 'authority does
not match' gives the not-the-authority text. This text is the status the `catch`/`finally` of
`transferAuthority` leaves when its `try` block throws `m`, and in these three cases it does
not contain `m`. -/
theorem C14_authority_error_mapping_order (m : String) :
    (includes m "insufficient funds" = true →
      TokenAuthorityTransfer.errorMessage m = "错误: 账户SOL余额不足支付交易费用") ∧
    (includes m "insufficient funds" = false → includes m "owner does not match" = true →
      TokenAuthorityTransfer.errorMessage m = "错误: 您不是此账户的所有者，无权转移所有权") ∧
    (includes m "insufficient funds" = false → includes m "owner does not match" = false →
      includes m "authority does not match" = true →
      TokenAuthorityTransfer.errorMessage m = "错误: 您不是此代币的权限持有者，无法执行此操作") ∧
    (includes m "insufficient funds" = true ∨ includes m "owner does not match" = true ∨
        includes m "authority does not match" = true →
      includes (TokenAuthorityTransfer.errorMessage m) m = false) ∧
    (∀ env pk s w w1,
      TokenAuthorityTransfer.transferAuthorityTry env pk s w = (Outcome.thrown m, w1) →
      ((JS.tryFinally (JS.tryCatch (TokenAuthorityTransfer.transferAuthorityTry env pk s)
        (fun message => JS.setStatus (TokenAuthorityTransfer.errorMessage message)))
        (JS.setLoading false)).exec w).status = TokenAuthorityTransfer.errorMessage m) := by
  refine ⟨?_, ?_, ?_, ?_, ?_⟩
  · intro h1
    simp [TokenAuthorityTransfer.errorMessage, h1]
  · intro h1 h2
    simp [TokenAuthorityTransfer.errorMessage, h1, h2]
  · intro h1 h2 h3
    simp [TokenAuthorityTransfer.errorMessage, h1, h2, h3]
  · intro h
    by_cases h1 : includes m "insufficient funds" = true
    · have he : TokenAuthorityTransfer.errorMessage m = "错误: 账户SOL余额不足支付交易费用" := by
        simp [TokenAuthorityTransfer.errorMessage, h1]
      rw [he]
      exact includes_false_of_part _ m "insufficient funds" h1 (by decide)
    · by_cases h2 : includes m "owner does not match" = true
      · have he : TokenAuthorityTransfer.errorMessage m = "错误: 您不是此账户的所有者，无权转移所有权" := by
          simp [TokenAuthorityTransfer.errorMessage, h1, h2]
        rw [he]
        exact includes_false_of_part _ m "owner does not match" h2 (by decide)
      · have h3 : includes m "authority does not match" = true := by
          rcases h with h | h | h
          · exact absurd h h1
          · exact absurd h h2
          · exact h
        have he : TokenAuthorityTransfer.errorMessage m =
            "错误: 您不是此代币的权限持有者，无法执行此操作" := by
          simp [TokenAuthorityTransfer.errorMessage, h1, h2, h3]
        rw [he]
        exact includes_false_of_part _ m "authority does not match" h3 (by decide)
  · intro env pk s w w1 hthrown
    rw [JS.exec, JS.catch_shows _ _ m w w1 hthrown]

/-- C14 at a message that contains the first and the second pattern: the first decides. -/
theorem C14_witness :
    includes "owner does not match; insufficient funds for fee" "owner does not match" = true ∧
    TokenAuthorityTransfer.errorMessage "owner does not match; insufficient funds for fee" =
      "错误: 账户SOL余额不足支付交易费用" :=
  ⟨by decide, (C14_authority_error_mapping_order "owner does not match; insufficient funds for fee").1
    (by decide)⟩

/-! ## C15: a burn whose confirmation reports an error -/

theorem storageWrites_append (xs ys : List Event) :
    storageWrites (xs ++ ys) = storageWrites xs ++ storageWrites ys := by
  induction xs with
  | nil => rfl
  | cons e es ih => cases e <;> simp [storageWrites, ih]

/-- The run of `burnTokens` when the burn is submitted and its confirmation resolves with a
transaction error. -/
theorem burn_confirm_error_run (env : Env) (pk mintKey accountKey : PublicKey) (network : String)
    (s : TokenBurn.State) (ti : TokenBurn.TokenInfo) (blockhash signature err : String)
    (w : World TokenBurn.State)
    (hti : s.tokenInfo = some ti) (hne : s.formData.amount ≠ "")
    (hnum : (env.toNumber s.formData.amount).isNaN = false)
    (hpos : (env.parseFloat s.formData.amount).le0 = false)
    (hle : (env.parseFloat s.formData.amount).gt
      (env.div (env.numberOfNat ti.balance) (env.pow10 ti.decimals)) = false)
    (hraw : (JSNum.floor (env.mul (env.parseFloat s.formData.amount)
      (env.pow10 ti.decimals))).le0 = false)
    (hmint : env.newPublicKey ti.mint = Except.ok mintKey)
    (hacc : env.newPublicKey ti.tokenAccount = Except.ok accountKey)
    (n : Int) (henc : env.instructionAmount (JSNum.floor (env.mul (env.parseFloat s.formData.amount)
      (env.pow10 ti.decimals))) = Except.ok n)
    (hblock : env.getLatestBlockhash = Except.ok blockhash)
    (hsend : env.sendTransaction [Instr.burn accountKey mintKey pk
      (JSNum.floor (env.mul (env.parseFloat s.formData.amount) (env.pow10 ti.decimals))) []
      env.TOKEN_PROGRAM_ID] = Except.ok signature)
    (hconf : env.confirmTransaction signature = Except.ok (some err)) :
    TokenBurn.burnTokens env (some pk) network s w =
      (Outcome.ok (),
        { w with
          loading := false,
          status := "燃烧失败: " ++ ("交易失败: " ++ err),
          log := w.log ++ [Event.setLoading true, Event.setStatus "正在准备燃烧交易...",
            Event.build [Instr.burn accountKey mintKey pk
              (JSNum.floor (env.mul (env.parseFloat s.formData.amount) (env.pow10 ti.decimals))) []
              env.TOKEN_PROGRAM_ID],
            Event.network Call.getLatestBlockhash,
            Event.setStatus "请在钱包中确认燃烧交易...",
            Event.send [Instr.burn accountKey mintKey pk
              (JSNum.floor (env.mul (env.parseFloat s.formData.amount) (env.pow10 ti.decimals))) []
              env.TOKEN_PROGRAM_ID] [],
            Event.setStatus "正在确认交易...",
            Event.network (Call.confirmTransaction signature),
            Event.setStatus ("燃烧失败: " ++ ("交易失败: " ++ err)),
            Event.setLoading false] }) := by
  simp [TokenBurn.burnTokens, TokenBurn.burnTokensTry, hti,
    burn_validate_within env s.formData.amount ti.balance ti.decimals hne hnum hpos hle,
    JS.ite_apply, JS.bind_apply, JS.pure_apply, JS.tryCatch_apply, JS.tryFinally_apply, JS.await_ok,
    JS.request_ok, JS.emit_apply, JS.setStatus_apply, JS.setLoading_apply, JS.raise_apply, hraw, hmint,
    hacc, henc, hblock, hsend, hconf]

/-- C15. When a burn that passed validation has been assembled (`createBurnInstruction`
accepted the amount) and submitted, and its confirmation resolves with a transaction error (`confirmation.value.err` set), `burnTokens` returns normally with
status '燃烧失败: 交易失败: ' followed by the error, loading false, the in-memory history and the
amount field as they were, and no write to browser storage. -/
theorem C15_failed_confirmation_saves_nothing (env : Env) (pk mintKey accountKey : PublicKey)
    (network : String) (s : TokenBurn.State) (ti : TokenBurn.TokenInfo)
    (blockhash signature err : String) (w : World TokenBurn.State)
    (hti : s.tokenInfo = some ti) (hne : s.formData.amount ≠ "")
    (hnum : (env.toNumber s.formData.amount).isNaN = false)
    (hpos : (env.parseFloat s.formData.amount).le0 = false)
    (hle : (env.parseFloat s.formData.amount).gt
      (env.div (env.numberOfNat ti.balance) (env.pow10 ti.decimals)) = false)
    (hraw : (JSNum.floor (env.mul (env.parseFloat s.formData.amount)
      (env.pow10 ti.decimals))).le0 = false)
    (hmint : env.newPublicKey ti.mint = Except.ok mintKey)
    (hacc : env.newPublicKey ti.tokenAccount = Except.ok accountKey)
    (n : Int) (henc : env.instructionAmount (JSNum.floor (env.mul (env.parseFloat s.formData.amount)
      (env.pow10 ti.decimals))) = Except.ok n)
    (hblock : env.getLatestBlockhash = Except.ok blockhash)
    (hsend : env.sendTransaction [Instr.burn accountKey mintKey pk
      (JSNum.floor (env.mul (env.parseFloat s.formData.amount) (env.pow10 ti.decimals))) []
      env.TOKEN_PROGRAM_ID] = Except.ok signature)
    (hconf : env.confirmTransaction signature = Except.ok (some err)) :
    (TokenBurn.burnTokens env (some pk) network s).result w = Outcome.ok () ∧
    ((TokenBurn.burnTokens env (some pk) network s).exec w).status = "燃烧失败: 交易失败: " ++ err ∧
    ((TokenBurn.burnTokens env (some pk) network s).exec w).loading = false ∧
    ((TokenBurn.burnTokens env (some pk) network s).exec w).st.burnHistory = w.st.burnHistory ∧
    ((TokenBurn.burnTokens env (some pk) network s).exec w).st.formData = w.st.formData ∧
    storageWrites ((TokenBurn.burnTokens env (some pk) network s).exec w).log = storageWrites w.log := by
  have h := burn_confirm_error_run env pk mintKey accountKey network s ti blockhash signature err w hti
    hne hnum hpos hle hraw hmint hacc n henc hblock hsend hconf
  refine ⟨?_, ?_, ?_, ?_, ?_, ?_⟩
  · rw [JS.result, h]
  · have hs : "燃烧失败: " ++ "交易失败: " = "燃烧失败: 交易失败: " := by decide
    rw [JS.exec, h, ← hs, String.append_assoc]
  · rw [JS.exec, h]
  · rw [JS.exec, h]
  · rw [JS.exec, h]
  · rw [JS.exec, h]
    simp [storageWrites_append, storageWrites]

/-- C15 at the sample environment with failing confirmations: 2 tokens out of a balance of 2. -/
theorem C15_witness :
    Sample.failedConfirmEnv.confirmTransaction Sample.signature = Except.ok (some "[object Object]") ∧
    ((TokenBurn.burnTokens Sample.failedConfirmEnv (some Sample.wallet) "devnet"
      Sample.burnAllState).exec (Sample.world Sample.burnAllState)).status =
        "燃烧失败: 交易失败: " ++ "[object Object]" ∧
    ((TokenBurn.burnTokens Sample.failedConfirmEnv (some Sample.wallet) "devnet"
      Sample.burnAllState).exec (Sample.world Sample.burnAllState)).st.burnHistory =
        [Sample.olderRecord] :=
  have h := C15_failed_confirmation_saves_nothing Sample.failedConfirmEnv Sample.wallet Sample.mint
    Sample.walletAta "devnet" Sample.burnAllState
    { mint := Sample.mint.toBase58, decimals := 0, supply := 1000, balance := 2,
      tokenAccount := Sample.walletAta.toBase58 }
    "EkSnNWid2cvwEVnVx9aBqawnmiCNiDgp3gUdkDPTKN1N" Sample.signature "[object Object]"
    (Sample.world Sample.burnAllState) rfl (by decide) rfl
    (by simp [Sample.failedConfirmEnv, Sample.env, Sample.number, Sample.burnAllState, JSNum.le0])
    (by simp [Sample.failedConfirmEnv, Sample.env, Sample.number, Sample.burnAllState, Env.pow10,
      JSNum.gt])
    (by simp [Sample.failedConfirmEnv, Sample.env, Sample.number, Sample.burnAllState, Env.pow10,
      JSNum.floor, JSNum.le0])
    rfl rfl 2
    (by simp [Env.instructionAmount, JSNum.floor, JSNum.toBigInt, Sample.failedConfirmEnv, Sample.env,
      Sample.number, Sample.burnAllState, Env.pow10])
    rfl rfl rfl
  ⟨rfl, h.2.1, h.2.2.2.1⟩

/-! ## C16: a confirmation that reports an error -/

/-- C16, the code at the failing input. On a network where every confirmation call resolves
with `value.err` set (the transaction failed on chain), the four handlers end with their
success status, since none of them reads the resolved value: `transferToken` with the success
text for the form, `toggleFreeze` with the frozen-successfully text, `transferAuthority` with
the revoked-successfully text, `createToken` with the created-successfully text. -/
theorem C16_confirmation_error_still_reports_success :
    Sample.failedConfirmEnv.confirmTransaction Sample.signature = Except.ok (some "[object Object]") ∧
    ((TokenTransfer.transferToken Sample.failedConfirmEnv (some Sample.wallet)
        Sample.transferState).exec (Sample.world Sample.transferState)).status =
      TokenTransfer.successStatus Sample.transferState.formData ∧
    ((TokenFreeze.toggleFreeze Sample.failedConfirmEnv (some Sample.wallet)
        Sample.ownedFreezeState true).exec (Sample.world Sample.ownedFreezeState)).status =
      "成功冻结代币账户" ∧
    ((TokenAuthorityTransfer.transferAuthority Sample.failedConfirmEnv (some Sample.wallet)
        Sample.revokeState).exec (Sample.world Sample.revokeState)).status =
      "成功撤销铸币权限！此权限已永久移除。" ∧
    ((TokenCreator.createToken Sample.failedConfirmEnv (some Sample.wallet)
        Sample.createState).exec (Sample.world Sample.createState)).status =
      "代币创建成功！" := by
  refine ⟨rfl, ?_, by decide, by decide, by decide⟩
  exact transfer_resolved_status Sample.failedConfirmEnv Sample.wallet Sample.mint Sample.recipient
    Sample.walletAta Sample.recipientAta Sample.transferState Sample.walletAccount (3 / 2) (3 / 2)
    (Sample.world Sample.transferState) Sample.signature Sample.signature _ _
    (by decide) (by decide) (by decide) rfl rfl rfl rfl rfl
    (by norm_num) (Sample.mul_at_no_decimals _) rfl rfl
    (by rw [Sample.floor_three_halves]; decide) rfl ⟨_, rfl⟩ rfl rfl rfl rfl

/-! ## C17: every handler ends not loading, with a status -/

/-- C17. For each of the five submit handlers, every environment (so every answer, rejection
or throw of every external call), every form state and every starting world: if the run calls
`setLoading` at all (the first such call of each handler is `setLoading(true)`), then the
handler returns normally, `loading` ends false and the status is not empty. -/
theorem C17_handlers_end_not_loading_with_status (env : Env) (publicKey : Option PublicKey)
    (network : String) (freeze : Bool)
    (sc : TokenCreator.State) (wc : World TokenCreator.State)
    (st : TokenTransfer.State) (wt : World TokenTransfer.State)
    (sb : TokenBurn.State) (wb : World TokenBurn.State)
    (sf : TokenFreeze.State) (wf : World TokenFreeze.State)
    (sa : TokenAuthorityTransfer.State) (wa : World TokenAuthorityTransfer.State) :
    (loadingSets ((TokenCreator.createToken env publicKey sc).exec wc).log ≠ loadingSets wc.log →
      (TokenCreator.createToken env publicKey sc).result wc = Outcome.ok () ∧
      ((TokenCreator.createToken env publicKey sc).exec wc).loading = false ∧
      ((TokenCreator.createToken env publicKey sc).exec wc).status ≠ "") ∧
    (loadingSets ((TokenTransfer.transferToken env publicKey st).exec wt).log ≠ loadingSets wt.log →
      (TokenTransfer.transferToken env publicKey st).result wt = Outcome.ok () ∧
      ((TokenTransfer.transferToken env publicKey st).exec wt).loading = false ∧
      ((TokenTransfer.transferToken env publicKey st).exec wt).status ≠ "") ∧
    (loadingSets ((TokenBurn.burnTokens env publicKey network sb).exec wb).log ≠ loadingSets wb.log →
      (TokenBurn.burnTokens env publicKey network sb).result wb = Outcome.ok () ∧
      ((TokenBurn.burnTokens env publicKey network sb).exec wb).loading = false ∧
      ((TokenBurn.burnTokens env publicKey network sb).exec wb).status ≠ "") ∧
    (loadingSets ((TokenFreeze.toggleFreeze env publicKey sf freeze).exec wf).log ≠ loadingSets wf.log →
      (TokenFreeze.toggleFreeze env publicKey sf freeze).result wf = Outcome.ok () ∧
      ((TokenFreeze.toggleFreeze env publicKey sf freeze).exec wf).loading = false ∧
      ((TokenFreeze.toggleFreeze env publicKey sf freeze).exec wf).status ≠ "") ∧
    (loadingSets ((TokenAuthorityTransfer.transferAuthority env publicKey sa).exec wa).log ≠
        loadingSets wa.log →
      (TokenAuthorityTransfer.transferAuthority env publicKey sa).result wa = Outcome.ok () ∧
      ((TokenAuthorityTransfer.transferAuthority env publicKey sa).exec wa).loading = false ∧
      ((TokenAuthorityTransfer.transferAuthority env publicKey sa).exec wa).status ≠ "") :=
  ⟨creator_finishes env publicKey sc wc, transfer_finishes env publicKey st wt,
    burn_finishes env publicKey network sb wb, freeze_finishes env publicKey sf freeze wf,
    authority_finishes env publicKey sa wa⟩

/-- C17 at the sample environment on a network that rejects the submission: the run of
`transferAuthority` sets loading, the wallet call throws, and the handler still returns with
loading false and a status. -/
theorem C17_witness :
    loadingSets ((TokenAuthorityTransfer.transferAuthority Sample.foreignAuthorityEnv
        (some Sample.wallet) Sample.revokeState).exec (Sample.world Sample.revokeState)).log ≠
      loadingSets (Sample.world Sample.revokeState).log ∧
    (TokenAuthorityTransfer.transferAuthority Sample.foreignAuthorityEnv (some Sample.wallet)
      Sample.revokeState).result (Sample.world Sample.revokeState) = Outcome.ok () ∧
    ((TokenAuthorityTransfer.transferAuthority Sample.foreignAuthorityEnv (some Sample.wallet)
      Sample.revokeState).exec (Sample.world Sample.revokeState)).loading = false ∧
    ((TokenAuthorityTransfer.transferAuthority Sample.foreignAuthorityEnv (some Sample.wallet)
      Sample.revokeState).exec (Sample.world Sample.revokeState)).status ≠ "" :=
  ⟨by decide,
    (C17_handlers_end_not_loading_with_status Sample.foreignAuthorityEnv (some Sample.wallet) "devnet"
      true Sample.createState (Sample.world Sample.createState) Sample.transferState
      (Sample.world Sample.transferState) Sample.burnAllState (Sample.world Sample.burnAllState)
      Sample.freezeState (Sample.world Sample.freezeState) Sample.revokeState
      (Sample.world Sample.revokeState)).2.2.2.2 (by decide)⟩

/-! ## C18 and C19: the authority of a new token -/

/-- The run of `createToken` when the trimmed authority text does not decode: the constructor
call that precedes the format check throws out of the handler. -/
theorem creator_bad_authority_run (env : Env) (pk : PublicKey) (s : TokenCreator.State) (e : String)
    (hname : s.formData.name ≠ "") (hsymbol : s.formData.symbol ≠ "") (hsupply : s.formData.supply ≠ "")
    (hfilled : env.trim s.formData.authorityAddress ≠ "")
    (hbad : env.newPublicKey (env.trim s.formData.authorityAddress) = Except.error e)
    (w : World TokenCreator.State) :
    TokenCreator.createToken env (some pk) s w = (Outcome.thrown e, w) := by
  simp [TokenCreator.createToken, JS.ite_apply, JS.bind_apply, JS.await_error, hname, hsymbol, hsupply,
    hfilled, hbad]

/-- C18, the code at the failing input. With the authority field holding text that is not a
key (non-empty after trimming, rejected by `new PublicKey`), `createToken` does not set the
invalid-authority status and does not return normally: the error of the constructor leaves
the handler uncaught, with status, loading and log as they were. -/
theorem C18_createToken_throws_on_undecodable_authority :
    Sample.env.trim Sample.badAuthorityState.formData.authorityAddress ≠ "" ∧
    Sample.env.newPublicKey (Sample.env.trim Sample.badAuthorityState.formData.authorityAddress) =
      Except.error "Invalid public key input" ∧
    (TokenCreator.createToken Sample.env (some Sample.wallet) Sample.badAuthorityState).result
      (Sample.world Sample.badAuthorityState) = Outcome.thrown "Invalid public key input" ∧
    ((TokenCreator.createToken Sample.env (some Sample.wallet) Sample.badAuthorityState).exec
      (Sample.world Sample.badAuthorityState)).status ≠ "错误: 无效的权限地址格式" ∧
    (TokenCreator.createToken Sample.env (some Sample.wallet) Sample.badAuthorityState).exec
      (Sample.world Sample.badAuthorityState) = Sample.world Sample.badAuthorityState := by
  have h := creator_bad_authority_run Sample.env Sample.wallet Sample.badAuthorityState
    "Invalid public key input" (by decide) (by decide) (by decide) (by decide) rfl
    (Sample.world Sample.badAuthorityState)
  refine ⟨by decide, rfl, ?_, ?_, ?_⟩
  · rw [JS.result, h]
  · rw [JS.exec, h]
    decide
  · rw [JS.exec, h]

/-- C19. For every accepted create-token form, once the rent request and the derivation of
the associated token account answer and `createMintToInstruction` accepts the amount, the
first transaction assembled (and submitted) holds
exactly one initialize-mint instruction; its mint authority is the connected wallet's key when
the authority field is empty after trimming and the key decoded from the trimmed field
otherwise; its freeze authority is that same key when `enableFreezing` is set and `null` when
it is not. -/
theorem C19_initialize_mint_authorities (env : Env) (pk : PublicKey) (s : TokenCreator.State)
    (w : World TokenCreator.State) (lamports : Nat) (ata : PublicKey)
    (hname : s.formData.name ≠ "") (hsymbol : s.formData.symbol ≠ "") (hsupply : s.formData.supply ≠ "")
    (hrent : env.getMinimumBalanceForRentExemptMint = Except.ok lamports)
    (hata : env.getAssociatedTokenAddress env.generateKeypair pk = Except.ok ata)
    (n : Int) (henc : env.instructionAmount (TokenCreator.mintAmount env s.formData) = Except.ok n) :
    (env.trim s.formData.authorityAddress = "" →
      ∃ tx rest,
        builtTxs ((TokenCreator.createToken env (some pk) s).exec w).log = builtTxs w.log ++ tx :: rest ∧
        sentTxs ((TokenCreator.createToken env (some pk) s).exec w).log = sentTxs w.log ++ tx :: rest ∧
        initializeMintAuthorities tx = [(pk, if s.formData.enableFreezing then some pk else none)]) ∧
    (∀ key, env.trim s.formData.authorityAddress ≠ "" →
      env.newPublicKey (env.trim s.formData.authorityAddress) = Except.ok key →
      (∃ untrimmed, env.newPublicKey s.formData.authorityAddress = Except.ok untrimmed) →
      ∃ tx rest,
        builtTxs ((TokenCreator.createToken env (some pk) s).exec w).log = builtTxs w.log ++ tx :: rest ∧
        sentTxs ((TokenCreator.createToken env (some pk) s).exec w).log = sentTxs w.log ++ tx :: rest ∧
        initializeMintAuthorities tx = [(key, if s.formData.enableFreezing then some key else none)]) := by
  have hmain : ∀ authority,
      ((env.trim s.formData.authorityAddress = "" ∧ authority = pk) ∨
        (env.trim s.formData.authorityAddress ≠ "" ∧
          env.newPublicKey (env.trim s.formData.authorityAddress) = Except.ok authority ∧
          ∃ key, env.newPublicKey s.formData.authorityAddress = Except.ok key)) →
      ∃ tx rest,
        builtTxs ((TokenCreator.createToken env (some pk) s).exec w).log = builtTxs w.log ++ tx :: rest ∧
        sentTxs ((TokenCreator.createToken env (some pk) s).exec w).log = sentTxs w.log ++ tx :: rest ∧
        initializeMintAuthorities tx =
          [(authority, if s.formData.enableFreezing then some authority else none)] := by
    intro authority hauth
    have hstart := creator_reaches_try env pk authority s hname hsymbol hsupply hauth w
    obtain ⟨rest, hb, hs⟩ := creator_try_txs env pk authority ata lamports s hrent hata n henc
      { w with loading := true, status := "准备创建代币...",
               log := w.log ++ [Event.setLoading true, Event.setStatus "准备创建代币..."] }
    refine ⟨TokenCreator.mintTransaction env pk env.generateKeypair ata authority lamports s.formData,
      rest, ?_, ?_, ?_⟩
    · rw [JS.exec, hstart, hb]
      simp [builtTxs_append, builtTxs]
    · rw [JS.exec, hstart, hs]
      simp [sentTxs_append, sentTxs]
    · simp [TokenCreator.mintTransaction, initializeMintAuthorities]
  constructor
  · intro hblank
    exact hmain pk (Or.inl ⟨hblank, rfl⟩)
  · intro key hfilled hkey huntrimmed
    exact hmain key (Or.inr ⟨hfilled, hkey, huntrimmed⟩)

/-- C19 at the sample environment: the recipient is named as authority and freezing is off. -/
theorem C19_witness :
    (sentTxs ((TokenCreator.createToken Sample.env (some Sample.wallet)
        Sample.delegatedCreateState).exec (Sample.world Sample.delegatedCreateState)).log).head?.map
      initializeMintAuthorities = some [(Sample.recipient, none)] := by
  obtain ⟨tx, rest, _, hs, hi⟩ := (C19_initialize_mint_authorities Sample.env Sample.wallet
    Sample.delegatedCreateState (Sample.world Sample.delegatedCreateState) 1461600 Sample.newMintAta
    (by decide) (by decide) (by decide) rfl rfl 2 Sample.createState_accepted).2 Sample.recipient
    (by decide) rfl
    ⟨Sample.recipient, rfl⟩
  have hoff : Sample.delegatedCreateState.formData.enableFreezing = false := rfl
  rw [hs]
  simp [Sample.world, sentTxs, hi, hoff]

/-! ## C20: the metadata update authority cannot be revoked -/

/-- The run of `transferAuthority` on a request to revoke the metadata update authority. -/
theorem authority_revoke_update_run (env : Env) (pk m : PublicKey) (s : TokenAuthorityTransfer.State)
    (w : World TokenAuthorityTransfer.State)
    (hmint : s.formData.mintAddress ≠ "")
    (hm : env.newPublicKey s.formData.mintAddress = Except.ok m)
    (hty : s.formData.authorityType = "UpdateAuthority")
    (hrev : s.formData.revokeAuthority = true) :
    TokenAuthorityTransfer.transferAuthority env (some pk) s w =
      (Outcome.ok (),
        { w with
          loading := false,
          status := "错误: 元数据更新权限不支持撤销操作，只能转移到其他地址",
          log := w.log ++ [Event.setLoading true, Event.setStatus "准备转移权限...",
            Event.setStatus "错误: 元数据更新权限不支持撤销操作，只能转移到其他地址",
            Event.setLoading false, Event.setLoading false] }) := by
  have hkind : TokenAuthorityTransfer.getAuthorityTypeEnum s.formData.authorityType =
      TokenAuthorityTransfer.AuthorityKind.UpdateAuthority := by
    rw [hty]
    decide
  rw [authority_reaches_try env pk m s hmint hm (Or.inl hrev) w]
  simp [TokenAuthorityTransfer.transferAuthorityTry, JS.ite_apply, JS.bind_apply, JS.tryCatch_apply,
    JS.tryFinally_apply, JS.await_ok, JS.setStatus_apply, JS.setLoading_apply, hm, hkind, hrev]

/-- C20. For every authority-transfer form with authority type UpdateAuthority and
`revokeAuthority` set, a wallet connected and a mint address that decodes: `transferAuthority`
returns normally having issued no network request (no metadata lookup, no metadata update) and
having assembled and submitted no transaction; the status is the message that the metadata
update authority cannot be revoked, only transferred, and loading ends false. -/
theorem C20_update_authority_cannot_be_revoked (env : Env) (pk m : PublicKey)
    (s : TokenAuthorityTransfer.State) (w : World TokenAuthorityTransfer.State)
    (hmint : s.formData.mintAddress ≠ "")
    (hm : env.newPublicKey s.formData.mintAddress = Except.ok m)
    (hty : s.formData.authorityType = "UpdateAuthority")
    (hrev : s.formData.revokeAuthority = true) :
    (TokenAuthorityTransfer.transferAuthority env (some pk) s).result w = Outcome.ok () ∧
    networkCalls ((TokenAuthorityTransfer.transferAuthority env (some pk) s).exec w).log =
      networkCalls w.log ∧
    builtTxs ((TokenAuthorityTransfer.transferAuthority env (some pk) s).exec w).log = builtTxs w.log ∧
    sentTxs ((TokenAuthorityTransfer.transferAuthority env (some pk) s).exec w).log = sentTxs w.log ∧
    ((TokenAuthorityTransfer.transferAuthority env (some pk) s).exec w).status =
      "错误: 元数据更新权限不支持撤销操作，只能转移到其他地址" ∧
    ((TokenAuthorityTransfer.transferAuthority env (some pk) s).exec w).loading = false := by
  have h := authority_revoke_update_run env pk m s w hmint hm hty hrev
  simp [JS.result, JS.exec, h, networkCalls_append, builtTxs_append, sentTxs_append, networkCalls,
    builtTxs, sentTxs]

/-- C20 at the sample environment: asking to revoke the update authority of the sample mint. -/
theorem C20_witness :
    networkCalls ((TokenAuthorityTransfer.transferAuthority Sample.env (some Sample.wallet)
        Sample.revokeUpdateState).exec (Sample.world Sample.revokeUpdateState)).log =
      networkCalls (Sample.world Sample.revokeUpdateState).log ∧
    sentTxs ((TokenAuthorityTransfer.transferAuthority Sample.env (some Sample.wallet)
        Sample.revokeUpdateState).exec (Sample.world Sample.revokeUpdateState)).log =
      sentTxs (Sample.world Sample.revokeUpdateState).log ∧
    ((TokenAuthorityTransfer.transferAuthority Sample.env (some Sample.wallet)
        Sample.revokeUpdateState).exec (Sample.world Sample.revokeUpdateState)).status =
      "错误: 元数据更新权限不支持撤销操作，只能转移到其他地址" ∧
    ((TokenAuthorityTransfer.transferAuthority Sample.env (some Sample.wallet)
        Sample.revokeUpdateState).exec (Sample.world Sample.revokeUpdateState)).loading = false :=
  have h := C20_update_authority_cannot_be_revoked Sample.env Sample.wallet Sample.mint
    Sample.revokeUpdateState (Sample.world Sample.revokeUpdateState) (by decide) rfl rfl rfl
  ⟨h.2.1, h.2.2.2.1, h.2.2.2.2.1, h.2.2.2.2.2⟩

/-! ## C21: the range of the supply -/

/-- The run of `createToken` when a required field is empty. -/
theorem creator_missing_field_run (env : Env) (pk : PublicKey) (s : TokenCreator.State)
    (hf : s.formData.name = "" ∨ s.formData.symbol = "" ∨ s.formData.supply = "")
    (w : World TokenCreator.State) :
    TokenCreator.createToken env (some pk) s w =
      (Outcome.ok (),
        { w with status := "请填写必填字段（名称、符号和总量）",
                 log := w.log ++ [Event.setStatus "请填写必填字段（名称、符号和总量）"] }) := by
  simp [TokenCreator.createToken, JS.ite_apply, JS.setStatus_apply, hf]

/-- The three ways a run of `createToken` can go: the decoding of the authority throws out of
the handler, which then leaves the world as it was; a guard sets its message and returns; or
the `try` block is entered with the authority key chosen. -/
theorem creator_paths (env : Env) (publicKey : Option PublicKey) (s : TokenCreator.State)
    (w : World TokenCreator.State) :
    (∃ e, TokenCreator.createToken env publicKey s w = (Outcome.thrown e, w)) ∨
    (∃ msg, msg ∈ ["请先连接钱包", "请填写必填字段（名称、符号和总量）", "错误: 无效的权限地址格式"] ∧
      TokenCreator.createToken env publicKey s w =
        (Outcome.ok (), { w with status := msg, log := w.log ++ [Event.setStatus msg] })) ∨
    (∃ pk authority, publicKey = some pk ∧
      ((env.trim s.formData.authorityAddress = "" ∧ authority = pk) ∨
        (env.trim s.formData.authorityAddress ≠ "" ∧
          env.newPublicKey (env.trim s.formData.authorityAddress) = Except.ok authority)) ∧
      TokenCreator.createToken env publicKey s w =
        JS.tryFinally
          (JS.tryCatch (TokenCreator.createTokenTry env pk authority s)
            (fun message => JS.setStatus ("错误: " ++ message)))
          (JS.setLoading false)
          { w with loading := true, status := "准备创建代币...",
                   log := w.log ++ [Event.setLoading true, Event.setStatus "准备创建代币..."] }) := by
  cases publicKey with
  | none =>
    exact Or.inr (Or.inl ⟨"请先连接钱包", by simp, by simp [TokenCreator.createToken, JS.setStatus_apply]⟩)
  | some pk =>
    by_cases hf : s.formData.name = "" ∨ s.formData.symbol = "" ∨ s.formData.supply = ""
    · exact Or.inr (Or.inl ⟨"请填写必填字段（名称、符号和总量）", by simp,
        creator_missing_field_run env pk s hf w⟩)
    · have hname : s.formData.name ≠ "" := fun h => hf (Or.inl h)
      have hsymbol : s.formData.symbol ≠ "" := fun h => hf (Or.inr (Or.inl h))
      have hsupply : s.formData.supply ≠ "" := fun h => hf (Or.inr (Or.inr h))
      by_cases hblank : env.trim s.formData.authorityAddress = ""
      · exact Or.inr (Or.inr ⟨pk, pk, rfl, Or.inl ⟨hblank, rfl⟩,
          creator_reaches_try env pk pk s hname hsymbol hsupply (Or.inl ⟨hblank, rfl⟩) w⟩)
      · cases hdt : env.newPublicKey (env.trim s.formData.authorityAddress) with
        | error e =>
          exact Or.inl ⟨e, creator_bad_authority_run env pk s e hname hsymbol hsupply hblank hdt w⟩
        | ok authority =>
          cases hdu : env.newPublicKey s.formData.authorityAddress with
          | error e =>
            refine Or.inr (Or.inl ⟨"错误: 无效的权限地址格式", by simp, ?_⟩)
            simp [TokenCreator.createToken, creator_isValid_apply, JS.ite_apply, JS.bind_apply,
              JS.pure_apply, JS.await_ok, JS.setStatus_apply, hf, hblank, hdt, hdu]
          | ok key =>
            exact Or.inr (Or.inr ⟨pk, authority, rfl, Or.inr ⟨hblank, rfl⟩,
              creator_reaches_try env pk authority s hname hsymbol hsupply
                (Or.inr ⟨hblank, hdt, key, hdu⟩) w⟩)

/-- What a valid supply field holds: a text that `Number` reads as a whole number of at least 1. -/
theorem supplyInputValid_true (env : Env) (supply : String)
    (h : TokenCreator.supplyInputValid env supply = true) :
    ∃ q, env.toNumber supply = JSNum.fin q ∧ supply ≠ "" ∧ 1 ≤ q ∧ q.den = 1 := by
  unfold TokenCreator.supplyInputValid at h
  cases hn : env.toNumber supply with
  | fin q =>
    rw [hn] at h
    simp only [Bool.and_eq_true, decide_eq_true_eq] at h
    exact ⟨q, rfl, h.1.1, h.1.2, h.2⟩
  | nan => rw [hn] at h; cases h
  | posInf => rw [hn] at h; cases h
  | negInf => rw [hn] at h; cases h

/-- The submit event with an invalid supply field does not reach the handler. -/
theorem submitForm_invalid_supply (env : Env) (publicKey : Option PublicKey) (s : TokenCreator.State)
    (w : World TokenCreator.State) (h : TokenCreator.supplyInputValid env s.formData.supply = false) :
    TokenCreator.submitForm env publicKey s w = (Outcome.ok (), w) := by
  simp [TokenCreator.submitForm, JS.ite_apply, JS.pure_apply, h]

/-- A run of `createToken` in which `createMintToInstruction` throws on the amount assembles
and submits nothing, whatever else the form holds. -/
theorem creator_rejected_amount_builds_nothing (env : Env) (publicKey : Option PublicKey)
    (s : TokenCreator.State) (w : World TokenCreator.State) (e : String)
    (henc : env.instructionAmount (TokenCreator.mintAmount env s.formData) = Except.error e) :
    builtTxs ((TokenCreator.createToken env publicKey s).exec w).log = builtTxs w.log ∧
    sentTxs ((TokenCreator.createToken env publicKey s).exec w).log = sentTxs w.log := by
  rcases creator_paths env publicKey s w with ⟨e1, hrun⟩ | ⟨msg, _, hrun⟩ |
    ⟨pk, authority, _, _, hrun⟩
  · simp [JS.exec, hrun]
  · simp [JS.exec, hrun, builtTxs_append, sentTxs_append, builtTxs, sentTxs]
  · obtain ⟨hb, hs⟩ := creator_try_no_txs env pk authority s (Or.inr (Or.inr ⟨e, henc⟩))
      { w with loading := true, status := "准备创建代币...",
               log := w.log ++ [Event.setLoading true, Event.setStatus "准备创建代币..."] }
    constructor
    · rw [JS.exec, hrun, hb]
      simp [builtTxs_append, builtTxs]
    · rw [JS.exec, hrun, hs]
      simp [sentTxs_append, sentTxs]

/-- C21. The numeric range of the supply is checked before anything is assembled. The check
is the constraint validation of the supply field (`type="number"`, `min="1"`, `required`) of
the form whose submit event calls `createToken`: with a supply that is zero or negative, or
that is not a number, the submit event leaves the handler uncalled, so nothing is assembled,
submitted or changed; and whenever a submit event ends with a transaction assembled or
submitted, the supply is a number of at least 1. Inside the handler an empty supply stops at
the required-fields guard, and an amount on which `createMintToInstruction` throws (a
negative one, one with a fraction, NaN) stops the handler before the transaction holds any
instruction. A form whose name and symbol are filled and whose supply is a whole number of at
least 1 does reach the handler. -/
theorem C21_supply_range_is_checked_before_assembly (env : Env) (publicKey : Option PublicKey)
    (s : TokenCreator.State) (w : World TokenCreator.State) :
    (∀ q, env.toNumber s.formData.supply = JSNum.fin q → q ≤ 0 →
      TokenCreator.submitForm env publicKey s w = (Outcome.ok (), w)) ∧
    ((env.toNumber s.formData.supply).isNaN = true →
      TokenCreator.submitForm env publicKey s w = (Outcome.ok (), w)) ∧
    (builtTxs ((TokenCreator.submitForm env publicKey s).exec w).log ≠ builtTxs w.log ∨
        sentTxs ((TokenCreator.submitForm env publicKey s).exec w).log ≠ sentTxs w.log →
      ∃ q, env.toNumber s.formData.supply = JSNum.fin q ∧ 1 ≤ q) ∧
    (s.formData.supply = "" →
      builtTxs ((TokenCreator.createToken env publicKey s).exec w).log = builtTxs w.log ∧
      sentTxs ((TokenCreator.createToken env publicKey s).exec w).log = sentTxs w.log) ∧
    (∀ e, env.instructionAmount (TokenCreator.mintAmount env s.formData) = Except.error e →
      builtTxs ((TokenCreator.createToken env publicKey s).exec w).log = builtTxs w.log ∧
      sentTxs ((TokenCreator.createToken env publicKey s).exec w).log = sentTxs w.log) ∧
    (∀ q, s.formData.name ≠ "" → s.formData.symbol ≠ "" → s.formData.supply ≠ "" →
      env.toNumber s.formData.supply = JSNum.fin q → 1 ≤ q → q.den = 1 →
      TokenCreator.submitForm env publicKey s w = TokenCreator.createToken env publicKey s w) := by
  refine ⟨?_, ?_, ?_, ?_, ?_, ?_⟩
  · intro q hq hle
    apply submitForm_invalid_supply
    have hnot : ¬ (1 : ℚ) ≤ q := not_le.mpr (lt_of_le_of_lt hle one_pos)
    simp [TokenCreator.supplyInputValid, hq, hnot]
  · intro hnan
    apply submitForm_invalid_supply
    cases hn : env.toNumber s.formData.supply with
    | fin q => rw [hn] at hnan; cases hnan
    | nan => simp [TokenCreator.supplyInputValid, hn]
    | posInf => simp [TokenCreator.supplyInputValid, hn]
    | negInf => simp [TokenCreator.supplyInputValid, hn]
  · intro hbuilt
    cases hv : TokenCreator.supplyInputValid env s.formData.supply with
    | true =>
      obtain ⟨q, hq, _, hle, _⟩ := supplyInputValid_true env s.formData.supply hv
      exact ⟨q, hq, hle⟩
    | false =>
      rw [JS.exec, submitForm_invalid_supply env publicKey s w hv] at hbuilt
      rcases hbuilt with h | h <;> exact absurd rfl h
  · intro hempty
    cases publicKey with
    | none =>
      simp [JS.exec, TokenCreator.createToken, JS.setStatus_apply, builtTxs_append, sentTxs_append,
        builtTxs, sentTxs]
    | some pk =>
      simp [JS.exec, creator_missing_field_run env pk s (Or.inr (Or.inr hempty)) w, builtTxs_append,
        sentTxs_append, builtTxs, sentTxs]
  · intro e henc
    exact creator_rejected_amount_builds_nothing env publicKey s w e henc
  · intro q hname hsymbol hsupply hq hle hden
    simp [TokenCreator.submitForm, TokenCreator.supplyInputValid, JS.ite_apply, hname, hsymbol,
      hsupply, hq, hle, hden]

/-- The sample create-token form with supply -5: `Number` reads -5, and the SDK refuses to
encode the amount. -/
theorem Sample.negativeSupply_rejected :
    Sample.env.instructionAmount (TokenCreator.mintAmount Sample.env Sample.negativeSupplyState.formData) =
      Except.error "Blob.encode[amount] requires (length 8) Uint8Array as src" := by
  simp [Env.instructionAmount, JSNum.toBigInt, Sample.env, Sample.number, TokenCreator.mintAmount,
    Sample.negativeSupplyState, Sample.createState]

/-- C21 at the sample environment: the form with supply -5 is not submitted to the handler,
the form with supply 0 neither; the handler itself, were it called with supply -5, assembles
nothing; and the form with supply 2 is submitted to the handler. -/
theorem C21_witness :
    Sample.env.toNumber Sample.negativeSupplyState.formData.supply = JSNum.fin (-5) ∧
    TokenCreator.submitForm Sample.env (some Sample.wallet) Sample.negativeSupplyState
      (Sample.world Sample.negativeSupplyState) = (Outcome.ok (), Sample.world Sample.negativeSupplyState) ∧
    Sample.env.toNumber Sample.zeroSupplyState.formData.supply = JSNum.fin 0 ∧
    TokenCreator.submitForm Sample.env (some Sample.wallet) Sample.zeroSupplyState
      (Sample.world Sample.zeroSupplyState) = (Outcome.ok (), Sample.world Sample.zeroSupplyState) ∧
    builtTxs ((TokenCreator.createToken Sample.env (some Sample.wallet) Sample.negativeSupplyState).exec
      (Sample.world Sample.negativeSupplyState)).log = [] ∧
    TokenCreator.submitForm Sample.env (some Sample.wallet) Sample.createState
        (Sample.world Sample.createState) =
      TokenCreator.createToken Sample.env (some Sample.wallet) Sample.createState
        (Sample.world Sample.createState) :=
  ⟨rfl,
   (C21_supply_range_is_checked_before_assembly Sample.env (some Sample.wallet)
     Sample.negativeSupplyState (Sample.world Sample.negativeSupplyState)).1 (-5) rfl (by norm_num),
   rfl,
   (C21_supply_range_is_checked_before_assembly Sample.env (some Sample.wallet)
     Sample.zeroSupplyState (Sample.world Sample.zeroSupplyState)).1 0 rfl (le_refl 0),
   ((C21_supply_range_is_checked_before_assembly Sample.env (some Sample.wallet)
     Sample.negativeSupplyState (Sample.world Sample.negativeSupplyState)).2.2.2.2.1 _
       Sample.negativeSupply_rejected).1,
   (C21_supply_range_is_checked_before_assembly Sample.env (some Sample.wallet)
     Sample.createState (Sample.world Sample.createState)).2.2.2.2.2 2 (by decide) (by decide)
       (by decide) rfl (by norm_num) rfl⟩

/-! ## C22: which validators ask for a key on the curve -/

/-- What each validator asks of a text that decodes to a public key: the validators of the freeze,
authority-transfer, create-token and token-account pages accept it whether the key is on the
curve or not, while the one validator of the transfer page, applied to the mint address and to
the recipient alike, and the validator of the burn page, applied to the mint address, accept it
exactly when the key is on the curve. Accordingly `transferToken` stops at the invalid-mint
status, with nothing submitted, when the mint address is off the curve. -/
theorem validators_and_the_curve {σ : Type} (env : Env) (address : String)
    (key : PublicKey) (w : World σ) (hkey : env.newPublicKey address = Except.ok key) :
    (TokenFreeze.isValidSolanaAddress env address).result w = Outcome.ok true ∧
    (TokenAuthorityTransfer.isValidSolanaAddress env address).result w = Outcome.ok true ∧
    (TokenCreator.isValidSolanaAddress env address).result w = Outcome.ok true ∧
    (TokenCreatorHelper.isValidSolanaAddress env address).result w = Outcome.ok true ∧
    (TokenTransfer.isValidSolanaAddress env address).result w = Outcome.ok (env.isOnCurve key) ∧
    (TokenBurn.isValidSolanaAddress env address).result w = Outcome.ok (env.isOnCurve key) ∧
    (∀ pk s wt, s.formData.mintAddress = address → address ≠ "" → s.formData.recipientAddress ≠ "" →
      s.formData.amount ≠ "" → env.isOnCurve key = false →
      (TokenTransfer.transferToken env (some pk) s).result wt = Outcome.ok () ∧
      ((TokenTransfer.transferToken env (some pk) s).exec wt).status = "错误: 无效的代币Mint地址" ∧
      builtTxs ((TokenTransfer.transferToken env (some pk) s).exec wt).log = builtTxs wt.log ∧
      sentTxs ((TokenTransfer.transferToken env (some pk) s).exec wt).log = sentTxs wt.log) := by
  refine ⟨?_, ?_, ?_, ?_, ?_, ?_, ?_⟩
  · simp [JS.result, freeze_isValid_apply, hkey]
  · simp [JS.result, authority_isValid_apply, hkey]
  · simp [JS.result, creator_isValid_apply, hkey]
  · simp [JS.result, TokenCreatorHelper.isValidSolanaAddress, JS.tryCatch_apply, JS.bind_apply,
      JS.pure_apply, JS.await_ok, hkey]
  · simp [JS.result, transfer_isValid_apply, hkey]
  · simp [JS.result, burn_isValid_apply, hkey]
  · intro pk s wt hmint hne hrec hamt hoff
    subst hmint
    simp [JS.result, JS.exec, TokenTransfer.transferToken, transfer_isValid_apply, JS.ite_apply,
      JS.bind_apply, JS.setStatus_apply, hne, hrec, hamt, hkey, hoff, builtTxs_append, sentTxs_append,
      builtTxs, sentTxs]

/-- C22 fails on the code. The 32-byte key below decodes and is not a point of the curve, as
the address of a mint created at a program-derived address is. As a mint address it passes the
validators of the freeze, authority-transfer and create-token pages, which only decode, and
fails the validators of the transfer and burn pages, which also ask for a point of the curve:
`transferToken` stops at the invalid-mint status with nothing submitted, and `getTokenInfo`
stops at the invalid-address status. -/
theorem C22_off_curve_mint_rejected_by_transfer_and_burn :
    Sample.env.newPublicKey "Dcs7MXKrP198qoHeWP57ZwGVv6WoKTjy8CfJtAQfgPyn" = Except.ok Sample.derivedMint ∧
    Sample.env.isOnCurve Sample.derivedMint = false ∧
    (TokenFreeze.isValidSolanaAddress Sample.env Sample.derivedMint.toBase58).result
      (Sample.world Sample.freezeState) = Outcome.ok true ∧
    (TokenAuthorityTransfer.isValidSolanaAddress Sample.env Sample.derivedMint.toBase58).result
      (Sample.world Sample.revokeState) = Outcome.ok true ∧
    (TokenCreator.isValidSolanaAddress Sample.env Sample.derivedMint.toBase58).result
      (Sample.world Sample.createState) = Outcome.ok true ∧
    (TokenTransfer.isValidSolanaAddress Sample.env Sample.derivedMint.toBase58).result
      (Sample.world Sample.transferOfDerivedMint) = Outcome.ok false ∧
    (TokenBurn.isValidSolanaAddress Sample.env Sample.derivedMint.toBase58).result
      (Sample.world Sample.burnOfDerivedMint) = Outcome.ok false ∧
    ((TokenTransfer.transferToken Sample.env (some Sample.wallet) Sample.transferOfDerivedMint).exec
      (Sample.world Sample.transferOfDerivedMint)).status = "错误: 无效的代币Mint地址" ∧
    sentTxs ((TokenTransfer.transferToken Sample.env (some Sample.wallet)
      Sample.transferOfDerivedMint).exec (Sample.world Sample.transferOfDerivedMint)).log = [] ∧
    ((TokenBurn.getTokenInfo Sample.env (some Sample.wallet) Sample.burnOfDerivedMint).exec
      (Sample.world Sample.burnOfDerivedMint)).status = "错误: 无效的代币地址格式" := by
  refine ⟨rfl, rfl, by decide, by decide, by decide, by decide, by decide, by decide, by decide,
    by decide⟩

/-! ## C23: the raw amount of a burn -/

/-- The run of `burnTokens` when the amount passes `validateBurnAmount` and its floored raw
value is not positive. -/
theorem burn_below_unit_run (env : Env) (pk : PublicKey) (network : String) (s : TokenBurn.State)
    (ti : TokenBurn.TokenInfo) (w : World TokenBurn.State)
    (hti : s.tokenInfo = some ti) (hne : s.formData.amount ≠ "")
    (hnum : (env.toNumber s.formData.amount).isNaN = false)
    (hpos : (env.parseFloat s.formData.amount).le0 = false)
    (hle : (env.parseFloat s.formData.amount).gt
      (env.div (env.numberOfNat ti.balance) (env.pow10 ti.decimals)) = false)
    (hraw : (JSNum.floor (env.mul (env.parseFloat s.formData.amount)
      (env.pow10 ti.decimals))).le0 = true) :
    TokenBurn.burnTokens env (some pk) network s w =
      (Outcome.ok (),
        { w with
          loading := false,
          status := "燃烧失败: 燃烧数量必须大于0",
          log := w.log ++ [Event.setLoading true, Event.setStatus "正在准备燃烧交易...",
            Event.setStatus "燃烧失败: 燃烧数量必须大于0", Event.setLoading false] }) := by
  simp [TokenBurn.burnTokens, TokenBurn.burnTokensTry, hti,
    burn_validate_within env s.formData.amount ti.balance ti.decimals hne hnum hpos hle,
    JS.ite_apply, JS.bind_apply, JS.pure_apply, JS.tryCatch_apply, JS.tryFinally_apply,
    JS.setStatus_apply, JS.setLoading_apply, JS.raise_apply, hraw]

/-- What `burnTokens` assembles: nothing, or, when the amount has passed every check and
`createBurnInstruction` has accepted it, exactly one transaction of one burn instruction for
the floored raw amount. -/
theorem burn_built (env : Env) (pk : PublicKey) (network : String) (s : TokenBurn.State)
    (ti : TokenBurn.TokenInfo) (w : World TokenBurn.State) (hti : s.tokenInfo = some ti) :
    builtTxs ((TokenBurn.burnTokens env (some pk) network s).exec w).log = builtTxs w.log ∨
    ((env.parseFloat s.formData.amount).le0 = false ∧
      (env.parseFloat s.formData.amount).gt
        (env.div (env.numberOfNat ti.balance) (env.pow10 ti.decimals)) = false ∧
      (JSNum.floor (env.mul (env.parseFloat s.formData.amount)
        (env.pow10 ti.decimals))).le0 = false ∧
      ∃ mintKey accountKey n, env.newPublicKey ti.mint = Except.ok mintKey ∧
        env.newPublicKey ti.tokenAccount = Except.ok accountKey ∧
        env.instructionAmount (JSNum.floor (env.mul (env.parseFloat s.formData.amount)
          (env.pow10 ti.decimals))) = Except.ok n ∧
        builtTxs ((TokenBurn.burnTokens env (some pk) network s).exec w).log =
          builtTxs w.log ++ [[Instr.burn accountKey mintKey pk
            (JSNum.floor (env.mul (env.parseFloat s.formData.amount) (env.pow10 ti.decimals))) []
            env.TOKEN_PROGRAM_ID]]) := by
  by_cases hinvalid : s.formData.amount = "" ∨ (env.toNumber s.formData.amount).isNaN = true ∨
      (env.parseFloat s.formData.amount).le0 = true
  · left
    simp [TokenBurn.burnTokens, TokenBurn.burnTokensTry, TokenBurn.validateBurnAmount, hti, JS.exec,
      JS.ite_apply, JS.bind_apply, JS.pure_apply, JS.tryCatch_apply, JS.tryFinally_apply,
      JS.setStatus_apply, JS.setLoading_apply, JS.raise_apply, hinvalid, builtTxs_append, builtTxs]
  · have hne : s.formData.amount ≠ "" := fun h => hinvalid (Or.inl h)
    have hnum : (env.toNumber s.formData.amount).isNaN = false := by
      cases h : (env.toNumber s.formData.amount).isNaN
      · rfl
      · exact absurd (Or.inr (Or.inl h)) hinvalid
    have hpos : (env.parseFloat s.formData.amount).le0 = false := by
      cases h : (env.parseFloat s.formData.amount).le0
      · rfl
      · exact absurd (Or.inr (Or.inr h)) hinvalid
    cases hgt : (env.parseFloat s.formData.amount).gt
        (env.div (env.numberOfNat ti.balance) (env.pow10 ti.decimals)) with
    | true =>
      left
      cases hfix : env.toFixed (env.div (env.numberOfNat ti.balance) (env.pow10 ti.decimals))
          ti.decimals <;>
      simp [TokenBurn.burnTokens, TokenBurn.burnTokensTry, TokenBurn.validateBurnAmount, hti, JS.exec,
        JS.ite_apply, JS.bind_apply, JS.pure_apply, JS.tryCatch_apply, JS.tryFinally_apply, JS.await_ok,
        JS.await_error, JS.setStatus_apply, JS.setLoading_apply, JS.raise_apply, hne, hnum, hpos, hgt, hfix,
        builtTxs_append, builtTxs]
    | false =>
      cases hraw : (JSNum.floor (env.mul (env.parseFloat s.formData.amount)
          (env.pow10 ti.decimals))).le0 with
      | true =>
        left
        rw [JS.exec, burn_below_unit_run env pk network s ti w hti hne hnum hpos hgt hraw]
        simp [builtTxs_append, builtTxs]
      | false =>
        cases hmint : env.newPublicKey ti.mint with
        | error e =>
          left
          simp [TokenBurn.burnTokens, TokenBurn.burnTokensTry, hti, JS.exec,
            burn_validate_within env s.formData.amount ti.balance ti.decimals hne hnum hpos hgt,
            JS.ite_apply, JS.bind_apply, JS.pure_apply, JS.tryCatch_apply, JS.tryFinally_apply,
            JS.await_error, JS.setStatus_apply, JS.setLoading_apply, JS.raise_apply, hraw, hmint,
            builtTxs_append, builtTxs]
        | ok mintKey =>
          cases hacc : env.newPublicKey ti.tokenAccount with
          | error e =>
            left
            simp [TokenBurn.burnTokens, TokenBurn.burnTokensTry, hti, JS.exec,
              burn_validate_within env s.formData.amount ti.balance ti.decimals hne hnum hpos hgt,
              JS.ite_apply, JS.bind_apply, JS.pure_apply, JS.tryCatch_apply, JS.tryFinally_apply,
              JS.await_ok, JS.await_error, JS.setStatus_apply, JS.setLoading_apply, JS.raise_apply, hraw,
              hmint, hacc, builtTxs_append, builtTxs]
          | ok accountKey =>
            cases henc : env.instructionAmount (JSNum.floor (env.mul (env.parseFloat s.formData.amount)
                (env.pow10 ti.decimals))) with
            | error e =>
              left
              simp [TokenBurn.burnTokens, TokenBurn.burnTokensTry, hti, JS.exec,
                burn_validate_within env s.formData.amount ti.balance ti.decimals hne hnum hpos hgt,
                JS.ite_apply, JS.bind_apply, JS.pure_apply, JS.tryCatch_apply, JS.tryFinally_apply,
                JS.await_ok, JS.await_error, JS.setStatus_apply, JS.setLoading_apply, JS.raise_apply, hraw,
                hmint, hacc, henc, builtTxs_append, builtTxs]
            | ok n =>
              right
              refine ⟨hpos, rfl, rfl, mintKey, accountKey, n, rfl, rfl, rfl, ?_⟩
              cases hblock : env.getLatestBlockhash with
              | error e =>
                simp [TokenBurn.burnTokens, TokenBurn.burnTokensTry, hti, JS.exec,
                  burn_validate_within env s.formData.amount ti.balance ti.decimals hne hnum hpos hgt,
                  JS.ite_apply, JS.bind_apply, JS.pure_apply, JS.tryCatch_apply, JS.tryFinally_apply,
                  JS.await_ok, JS.await_error, JS.request_ok, JS.request_error, JS.emit_apply,
                  JS.setStatus_apply, JS.setLoading_apply, JS.raise_apply, hraw,
                  hmint, hacc, henc, hblock, builtTxs_append, builtTxs]
              | ok blockhash =>
                cases hsend : env.sendTransaction [Instr.burn accountKey mintKey pk
                    (JSNum.floor (env.mul (env.parseFloat s.formData.amount) (env.pow10 ti.decimals))) []
                    env.TOKEN_PROGRAM_ID] with
                | error e =>
                  simp [TokenBurn.burnTokens, TokenBurn.burnTokensTry, hti, JS.exec,
                    burn_validate_within env s.formData.amount ti.balance ti.decimals hne hnum hpos hgt,
                    JS.ite_apply, JS.bind_apply, JS.pure_apply, JS.tryCatch_apply, JS.tryFinally_apply,
                    JS.await_ok, JS.await_error, JS.request_ok, JS.request_error, JS.emit_apply,
                    JS.setStatus_apply, JS.setLoading_apply, JS.raise_apply, hraw,
                    hmint, hacc, henc, hblock, hsend, builtTxs_append, builtTxs]
                | ok signature =>
                  cases hconf : env.confirmTransaction signature with
                  | error e =>
                    simp [TokenBurn.burnTokens, TokenBurn.burnTokensTry, hti, JS.exec,
                      burn_validate_within env s.formData.amount ti.balance ti.decimals hne hnum hpos hgt,
                      JS.ite_apply, JS.bind_apply, JS.pure_apply, JS.tryCatch_apply, JS.tryFinally_apply,
                      JS.await_ok, JS.await_error, JS.request_ok, JS.request_error, JS.emit_apply,
                      JS.setStatus_apply, JS.setLoading_apply, JS.raise_apply, hraw,
                      hmint, hacc, henc, hblock, hsend, hconf, builtTxs_append, builtTxs]
                  | ok confirmation =>
                    cases confirmation with
                    | some err =>
                      simp [TokenBurn.burnTokens, TokenBurn.burnTokensTry, hti, JS.exec,
                        burn_validate_within env s.formData.amount ti.balance ti.decimals hne hnum hpos hgt,
                        JS.ite_apply, JS.bind_apply, JS.pure_apply, JS.tryCatch_apply, JS.tryFinally_apply,
                        JS.await_ok, JS.await_error, JS.request_ok, JS.request_error, JS.emit_apply,
                        JS.setStatus_apply, JS.setLoading_apply, JS.raise_apply, hraw,
                        hmint, hacc, henc, hblock, hsend, hconf, builtTxs_append, builtTxs]
                    | none =>
                      cases hstore : env.storageSetItem "tokenBurnHistory"
                          ({ signature := signature, mintAddress := ti.mint, amount := s.formData.amount,
                             burnAmountRaw := env.numToString (JSNum.floor (env.mul
                               (env.parseFloat s.formData.amount) (env.pow10 ti.decimals))),
                             decimals := ti.decimals, timestamp := env.nowISO,
                             network := if network = WalletAdapterNetwork.Mainnet then "mainnet" else "devnet",
                             status := "confirmed" } :: s.burnHistory.take 49) <;>
                      simp [TokenBurn.burnTokens, TokenBurn.burnTokensTry, TokenBurn.saveBurnRecord, hti,
                        JS.exec,
                        burn_validate_within env s.formData.amount ti.balance ti.decimals hne hnum hpos hgt,
                        JS.ite_apply, JS.bind_apply, JS.pure_apply, JS.tryCatch_apply, JS.tryFinally_apply,
                        JS.await_ok, JS.await_error, JS.request_ok, JS.request_error, JS.emit_apply,
                        JS.setStatus_apply, JS.setLoading_apply, JS.modifySt_apply, JS.raise_apply, hraw,
                        hmint, hacc, henc, hblock, hsend, hconf, hstore, builtTxs_append, builtTxs]

/-- An amount the SDK accepts after `Math.floor` is the floor of a finite number. -/
theorem accepted_floor_is_finite (env : Env) (x : JSNum) (n : Int)
    (h : env.instructionAmount (JSNum.floor x) = Except.ok n) :
    ∃ r, x = JSNum.fin r ∧ n = ⌊r⌋ := by
  cases x with
  | fin r =>
    refine ⟨r, rfl, ?_⟩
    unfold Env.instructionAmount at h
    rw [JSNum.floor_fin_toBigInt] at h
    cases henc : env.encodeU64 ⌊r⌋ with
    | error e => simp [henc] at h
    | ok u =>
      simp [henc] at h
      exact h.symm
  | nan => simp [Env.instructionAmount, JSNum.floor, JSNum.toBigInt] at h
  | posInf => simp [Env.instructionAmount, JSNum.floor, JSNum.toBigInt] at h
  | negInf => simp [Env.instructionAmount, JSNum.floor, JSNum.toBigInt] at h

/-- C23, as stated, fails. Its second half fails at a balance of 0: the positive amount 0.5
(less than one base unit at 0 decimals) does not pass `validateBurnAmount`, it exceeds the
balance, so the handler ends with the exceeds-balance status, not with '燃烧数量必须大于0'. Its
first half holds of exact products only: with a balance of 5 raw units at 1 decimal and the
amount text '0.3', `parseFloat` reads the double nearest to three tenths, which lies below it,
so `floor(a * 10^d)` is 2; the product is rounded to 3 and a burn of 3 raw units is assembled. -/
theorem C23_counterexample :
    Sample.env.parseFloat Sample.burnHalfOfNothingState.formData.amount = JSNum.fin (1 / 2) ∧
    (0 : ℚ) < 1 / 2 ∧ (1 / 2 : ℚ) * 10 ^ 0 < 1 ∧
    (TokenBurn.validateBurnAmount Sample.env Sample.burnHalfOfNothingState.formData.amount
        (Sample.env.numberOfNat 0) 0).result (Sample.world Sample.burnHalfOfNothingState) =
      Outcome.ok { valid := false, message := "燃烧数量不能超过余额 0" } ∧
    ((TokenBurn.burnTokens Sample.env (some Sample.wallet) "devnet"
        Sample.burnHalfOfNothingState).exec (Sample.world Sample.burnHalfOfNothingState)).status =
      "燃烧失败: 燃烧数量不能超过余额 0" ∧
    Sample.env.parseFloat Sample.burnThreeTenthsState.formData.amount =
      JSNum.fin (5404319552844595 / 18014398509481984) ∧
    ⌊(5404319552844595 / 18014398509481984 : ℚ) * 10 ^ 1⌋ = 2 ∧
    builtTxs ((TokenBurn.burnTokens Sample.env (some Sample.wallet) "devnet"
        Sample.burnThreeTenthsState).exec (Sample.world Sample.burnThreeTenthsState)).log =
      [[Instr.burn Sample.walletAta Sample.mint Sample.wallet (JSNum.fin 3) [] Sample.tokenProgram]] := by
  have hmax : Sample.env.div (Sample.env.numberOfNat 0) (Sample.env.pow10 0) = JSNum.fin 0 := by
    simp [Sample.env, Env.pow10]
  have hfix : Sample.env.toFixed (JSNum.fin 0) 0 = Except.ok "0" := by
    simp [Sample.env]
  have hgt : (JSNum.fin (1 / 2)).gt (Sample.env.div (Sample.env.numberOfNat 0) (Sample.env.pow10 0)) =
      true := by
    rw [hmax]
    norm_num [JSNum.gt]
  have hhalf : Sample.env.parseFloat Sample.burnHalfOfNothingState.formData.amount =
      JSNum.fin (1 / 2) := by
    simp [Sample.env, Sample.number, Sample.burnHalfOfNothingState]
  have hhalfn : Sample.env.toNumber Sample.burnHalfOfNothingState.formData.amount =
      JSNum.fin (1 / 2) := hhalf
  have hpf : Sample.env.parseFloat Sample.burnThreeTenthsState.formData.amount =
      JSNum.fin (5404319552844595 / 18014398509481984) := by
    simp [Sample.env, Sample.number, Sample.burnThreeTenthsState]
  have hraw : JSNum.floor (Sample.env.mul (Sample.env.parseFloat
      Sample.burnThreeTenthsState.formData.amount) (Sample.env.pow10 1)) = JSNum.fin 3 := by
    simp [Sample.env, Sample.number, Sample.burnThreeTenthsState, Env.pow10, JSNum.floor]
  refine ⟨hhalf, by norm_num, by norm_num, ?_, ?_, hpf, ?_, ?_⟩
  · rw [JS.result, burn_validate_above Sample.env Sample.burnHalfOfNothingState.formData.amount 0 0
      (JSNum.fin (1 / 2)) (by decide) hhalfn hhalf (by norm_num [JSNum.le0]) hgt, hmax, hfix]
    decide
  · rw [JS.exec, burn_above_run Sample.env Sample.wallet "devnet" Sample.burnHalfOfNothingState
      { mint := Sample.mint.toBase58, decimals := 0, supply := 1000, balance := 0,
        tokenAccount := Sample.walletAta.toBase58 }
      (JSNum.fin (1 / 2)) (Sample.world Sample.burnHalfOfNothingState) rfl (by decide) hhalfn hhalf
      (by norm_num [JSNum.le0]) hgt]
    simp only [hmax, hfix]
    decide
  · rw [Int.floor_eq_iff]
    norm_num
  · have h := burn_confirmed_run Sample.env Sample.wallet Sample.mint Sample.walletAta "devnet"
      Sample.burnThreeTenthsState
      { mint := Sample.mint.toBase58, decimals := 1, supply := 1000, balance := 5,
        tokenAccount := Sample.walletAta.toBase58 }
      "EkSnNWid2cvwEVnVx9aBqawnmiCNiDgp3gUdkDPTKN1N" Sample.signature
      (Sample.world Sample.burnThreeTenthsState) rfl (by decide)
      (by simp [Sample.env, Sample.number, Sample.burnThreeTenthsState, JSNum.isNaN])
      (by rw [hpf]; norm_num [JSNum.le0])
      (by simp [Sample.env, Sample.number, Sample.burnThreeTenthsState, Env.pow10, JSNum.gt]; norm_num)
      (by rw [hraw]; simp [JSNum.le0]) rfl rfl 3
      (by rw [hraw]; simp [Env.instructionAmount, JSNum.toBigInt, Sample.env])
      rfl rfl rfl (fun _ => rfl)
    rw [hraw] at h
    exact h.2.2.1

/-- C23, amended. With `b = tokenInfo.balance`, `d = tokenInfo.decimals` and `a` the number
`parseFloat` reads from the amount field. Whenever `burnTokens` assembles anything it is
exactly one transaction of one burn instruction; its raw amount is the floor of the product
`a * 10^d` as the runtime computes it, and is at least 1; where that product and the quotient
`Number(b) / 10^d` are computed without rounding, the raw amount is `floor(a * 10^d)` and is at
most `b`. A positive amount whose computed product is below 1 and which does not exceed the
computed quotient (in exact arithmetic: `a * 10^d < 1` and `b >= 1`) passes
`validateBurnAmount` and is then rejected with '燃烧数量必须大于0' before anything is assembled.
With a balance of 0 a positive amount is rejected by `validateBurnAmount` itself. -/
theorem C23_burn_raw_amount_is_floor_of_computed_product (env : Env) (pk : PublicKey)
    (network : String) (s : TokenBurn.State) (ti : TokenBurn.TokenInfo) (a : ℚ)
    (w : World TokenBurn.State)
    (hti : s.tokenInfo = some ti) (hpf : env.parseFloat s.formData.amount = JSNum.fin a) :
    (builtTxs ((TokenBurn.burnTokens env (some pk) network s).exec w).log = builtTxs w.log ∨
      ∃ mintKey accountKey r,
        env.mul (JSNum.fin a) (env.pow10 ti.decimals) = JSNum.fin r ∧
        builtTxs ((TokenBurn.burnTokens env (some pk) network s).exec w).log =
          builtTxs w.log ++ [[Instr.burn accountKey mintKey pk
            (JSNum.fin ((⌊r⌋ : ℤ) : ℚ)) [] env.TOKEN_PROGRAM_ID]] ∧
        1 ≤ ⌊r⌋ ∧
        (r = a * 10 ^ ti.decimals →
          env.div (env.numberOfNat ti.balance) (env.pow10 ti.decimals) =
            JSNum.fin ((ti.balance : ℚ) / 10 ^ ti.decimals) →
          ⌊a * 10 ^ ti.decimals⌋ ≤ (ti.balance : ℤ))) ∧
    (∀ r q, s.formData.amount ≠ "" → (env.toNumber s.formData.amount).isNaN = false → 0 < a →
      env.mul (JSNum.fin a) (env.pow10 ti.decimals) = JSNum.fin r → r < 1 →
      env.div (env.numberOfNat ti.balance) (env.pow10 ti.decimals) = JSNum.fin q → a ≤ q →
      (TokenBurn.validateBurnAmount env s.formData.amount (env.numberOfNat ti.balance) ti.decimals).result w =
        Outcome.ok { valid := true, message := "" } ∧
      (TokenBurn.burnTokens env (some pk) network s).result w = Outcome.ok () ∧
      ((TokenBurn.burnTokens env (some pk) network s).exec w).status = "燃烧失败: 燃烧数量必须大于0" ∧
      builtTxs ((TokenBurn.burnTokens env (some pk) network s).exec w).log = builtTxs w.log ∧
      sentTxs ((TokenBurn.burnTokens env (some pk) network s).exec w).log = sentTxs w.log) ∧
    (a * 10 ^ ti.decimals < 1 → 1 ≤ ti.balance → a ≤ (ti.balance : ℚ) / 10 ^ ti.decimals) ∧
    (s.formData.amount ≠ "" → env.toNumber s.formData.amount = JSNum.fin a → 0 < a →
      ti.balance = 0 →
      env.div (env.numberOfNat ti.balance) (env.pow10 ti.decimals) = JSNum.fin 0 →
      (TokenBurn.validateBurnAmount env s.formData.amount (env.numberOfNat ti.balance) ti.decimals).result w ≠
        Outcome.ok { valid := true, message := "" } ∧
      builtTxs ((TokenBurn.burnTokens env (some pk) network s).exec w).log = builtTxs w.log) := by
  have hpow : (0 : ℚ) < 10 ^ ti.decimals := by positivity
  refine ⟨?_, ?_, ?_, ?_⟩
  · rcases burn_built env pk network s ti w hti with h |
      ⟨hpos, hgt, hraw, mintKey, accountKey, n, _, _, henc, hb⟩
    · exact Or.inl h
    · right
      obtain ⟨r, hr, hn⟩ := accepted_floor_is_finite env _ n henc
      rw [hpf] at hgt hraw hb hr
      rw [hr] at hraw hb
      have hfloorpos : (0 : ℚ) < ((⌊r⌋ : ℤ) : ℚ) := by
        simpa [JSNum.floor, JSNum.le0] using hraw
      have h0 : (0 : ℤ) < ⌊r⌋ := by exact_mod_cast hfloorpos
      refine ⟨mintKey, accountKey, r, hr, hb, by omega, ?_⟩
      intro hexact hdiv
      rw [hdiv] at hgt
      have hle : a ≤ (ti.balance : ℚ) / 10 ^ ti.decimals := by
        simpa [JSNum.gt] using hgt
      have hmul : a * 10 ^ ti.decimals ≤ (ti.balance : ℚ) := (le_div_iff₀ hpow).mp hle
      have hfl : ((⌊a * 10 ^ ti.decimals⌋ : ℤ) : ℚ) ≤ (ti.balance : ℚ) :=
        le_trans (Int.floor_le _) hmul
      exact_mod_cast hfl
  · intro r q hne hnum ha hmul hsmall hdiv haq
    have hpos : (env.parseFloat s.formData.amount).le0 = false := by
      rw [hpf]
      simpa [JSNum.le0] using ha
    have hle : (env.parseFloat s.formData.amount).gt
        (env.div (env.numberOfNat ti.balance) (env.pow10 ti.decimals)) = false := by
      rw [hpf, hdiv]
      simpa [JSNum.gt] using haq
    have hraw : (JSNum.floor (env.mul (env.parseFloat s.formData.amount)
        (env.pow10 ti.decimals))).le0 = true := by
      rw [hpf, hmul]
      have hfl : ⌊r⌋ ≤ 0 := by
        have : ⌊r⌋ < 1 := Int.floor_lt.mpr (by exact_mod_cast hsmall)
        omega
      have hq : ((⌊r⌋ : ℤ) : ℚ) ≤ 0 := by exact_mod_cast hfl
      simpa [JSNum.floor, JSNum.le0] using hq
    have hrun := burn_below_unit_run env pk network s ti w hti hne hnum hpos hle hraw
    refine ⟨?_, ?_, ?_, ?_, ?_⟩
    · rw [JS.result, burn_validate_within env s.formData.amount ti.balance ti.decimals hne hnum hpos hle]
    · rw [JS.result, hrun]
    · rw [JS.exec, hrun]
    · rw [JS.exec, hrun]
      simp [builtTxs_append, builtTxs]
    · rw [JS.exec, hrun]
      simp [sentTxs_append, sentTxs]
  · intro hsmall hbal
    rw [le_div_iff₀ hpow]
    have hb1 : (1 : ℚ) ≤ (ti.balance : ℚ) := by exact_mod_cast hbal
    linarith
  · intro hne hnum ha hbal hdiv
    have hgt : (JSNum.fin a).gt (env.div (env.numberOfNat ti.balance) (env.pow10 ti.decimals)) = true := by
      rw [hdiv]
      simpa [JSNum.gt] using ha
    have hpos : (JSNum.fin a).le0 = false := by simpa [JSNum.le0] using ha
    constructor
    · rw [JS.result, burn_validate_above env s.formData.amount ti.balance ti.decimals (JSNum.fin a) hne
        hnum hpf hpos hgt]
      cases env.toFixed (env.div (env.numberOfNat ti.balance) (env.pow10 ti.decimals)) ti.decimals <;>
      simp
    · rw [JS.exec, burn_above_run env pk network s ti (JSNum.fin a) w hti hne hnum hpf hpos hgt]
      simp [builtTxs_append, builtTxs]

/-- C23 amended, at the sample environment: half a token against a balance of 1 raw unit at 0
decimals passes the validation and is rejected as not greater than 0. -/
theorem C23_witness :
    (TokenBurn.validateBurnAmount Sample.env Sample.burnHalfState.formData.amount
        (Sample.env.numberOfNat 1) 0).result (Sample.world Sample.burnHalfState) =
      Outcome.ok { valid := true, message := "" } ∧
    ((TokenBurn.burnTokens Sample.env (some Sample.wallet) "devnet" Sample.burnHalfState).exec
      (Sample.world Sample.burnHalfState)).status = "燃烧失败: 燃烧数量必须大于0" ∧
    builtTxs ((TokenBurn.burnTokens Sample.env (some Sample.wallet) "devnet"
      Sample.burnHalfState).exec (Sample.world Sample.burnHalfState)).log =
      builtTxs (Sample.world Sample.burnHalfState).log :=
  have hpf : Sample.env.parseFloat Sample.burnHalfState.formData.amount = JSNum.fin (1 / 2) := by
    simp [Sample.env, Sample.number, Sample.burnHalfState]
  have h := (C23_burn_raw_amount_is_floor_of_computed_product Sample.env Sample.wallet
    "devnet" Sample.burnHalfState
    { mint := Sample.mint.toBase58, decimals := 0, supply := 1000, balance := 1,
      tokenAccount := Sample.walletAta.toBase58 }
    (1 / 2) (Sample.world Sample.burnHalfState) rfl hpf).2.1 (1 / 2) 1 (by decide)
    (by simp [Sample.env, Sample.number, Sample.burnHalfState, JSNum.isNaN]) (by norm_num)
    (by simp [Sample.env, Env.pow10]) (by norm_num)
    (by simp [Sample.env, Env.pow10]) (by norm_num)
  ⟨h.1, h.2.2.1, h.2.2.2.1⟩

/-! ## C24: the raw amount of a transfer -/

/-- The floored raw value of half a token read with 0 decimals. -/
theorem Sample.floor_half : ⌊(1 / 2 : ℚ) * 10 ^ (Sample.walletAccount.mint_decimals.getD 0)⌋ = 0 := by
  rw [Int.floor_eq_iff]
  norm_num [Sample.walletAccount]

/-- The floor of one half. -/
theorem Sample.floor_one_half : ⌊(1 / 2 : ℚ)⌋ = 0 := by
  rw [Int.floor_eq_iff]
  norm_num

/-- C24, the code at the failing input. Amount 0.5 of a token read with 0 decimals passes the
only amount guard of `transferToken` (`parseFloat(amount) <= 0`), its floored raw value is 0, and
the handler hands the wallet a transfer instruction of 0 raw units (after creating the
recipient account) and ends with the success status for the form. -/
theorem C24_transfer_of_zero_raw_units_is_built :
    Sample.env.parseFloat Sample.halfTransferState.formData.amount = JSNum.fin (1 / 2) ∧
    ⌊(1 / 2 : ℚ) * 10 ^ (Sample.walletAccount.mint_decimals.getD 0)⌋ = 0 ∧
    sentTxs ((TokenTransfer.transferToken Sample.env (some Sample.wallet)
        Sample.halfTransferState).exec (Sample.world Sample.halfTransferState)).log =
      [[Instr.createAssociatedTokenAccount Sample.wallet Sample.recipientAta Sample.recipient Sample.mint],
       [Instr.transfer Sample.walletAta Sample.recipientAta Sample.wallet 0 [] Sample.tokenProgram]] ∧
    ((TokenTransfer.transferToken Sample.env (some Sample.wallet)
        Sample.halfTransferState).exec (Sample.world Sample.halfTransferState)).status =
      TokenTransfer.successStatus Sample.halfTransferState.formData := by
  refine ⟨rfl, Sample.floor_half, ?_, ?_⟩
  · have h := transfer_sent_after_check Sample.env Sample.wallet Sample.mint Sample.recipient
      Sample.walletAta Sample.recipientAta Sample.halfTransferState Sample.walletAccount (1 / 2) (1 / 2)
      (Sample.world Sample.halfTransferState) (by decide) (by decide) (by decide) rfl rfl rfl rfl rfl
      (by norm_num) (Sample.mul_at_no_decimals _) rfl rfl (by rw [Sample.floor_one_half]; decide) rfl
    rw [h, Sample.floor_one_half]
    rfl
  · exact transfer_resolved_status Sample.env Sample.wallet Sample.mint Sample.recipient
      Sample.walletAta Sample.recipientAta Sample.halfTransferState Sample.walletAccount (1 / 2) (1 / 2)
      (Sample.world Sample.halfTransferState) Sample.signature Sample.signature _ _
      (by decide) (by decide) (by decide) rfl rfl rfl rfl rfl
      (by norm_num) (Sample.mul_at_no_decimals _) rfl rfl
      (by rw [Sample.floor_one_half]; decide) rfl ⟨_, rfl⟩ rfl rfl rfl rfl

/-! ## C25: the network of the provider -/

/-- C25, the code at the failing input. After the user selects Devnet on a freshly rendered
page, the operation component receives `network = devnet` while the provider still picks its
endpoint and wallet adapters for Mainnet: the page keeps the selection in a hook of its own and
never calls the callback of `MyApp`. More generally, whatever is selected and however often,
the network of `MyApp` and of the provider stay what they were, and the operation component
receives the last selection. -/
theorem C25_provider_network_ignores_selection :
    App.operationNetwork (App.selectNetwork WalletAdapterNetwork.Devnet App.initial) =
      WalletAdapterNetwork.Devnet ∧
    App.WalletContextProvider.adapterNetwork (App.selectNetwork WalletAdapterNetwork.Devnet App.initial) =
      WalletAdapterNetwork.Mainnet ∧
    App.WalletContextProvider.endpoint (App.selectNetwork WalletAdapterNetwork.Devnet App.initial) =
      some "***" ∧
    App.WalletContextProvider.adapterNetwork (App.selectNetwork WalletAdapterNetwork.Devnet App.initial) ≠
      App.operationNetwork (App.selectNetwork WalletAdapterNetwork.Devnet App.initial) ∧
    (∀ value h, (App.selectNetwork value h).appNetwork = h.appNetwork ∧
      (App.selectNetwork value h).providerNetwork = h.appNetwork ∧
      App.operationNetwork (App.selectNetwork value h) = value) ∧
    (∀ values : List String,
      (values.foldl (fun h value => App.selectNetwork value h) App.initial).providerNetwork =
        WalletAdapterNetwork.Mainnet) := by
  refine ⟨rfl, rfl, rfl, by decide, fun value h => ⟨rfl, rfl, rfl⟩, ?_⟩
  have hinv : ∀ (values : List String) (h : App.Hooks), h.appNetwork = WalletAdapterNetwork.Mainnet →
      (values.foldl (fun h value => App.selectNetwork value h) h).providerNetwork = h.providerNetwork ∨
      (values.foldl (fun h value => App.selectNetwork value h) h).providerNetwork =
        WalletAdapterNetwork.Mainnet := by
    intro values
    induction values with
    | nil => intro h _; exact Or.inl rfl
    | cons v vs ih =>
      intro h happ
      right
      rcases ih (App.selectNetwork v h) happ with h1 | h1
      · rw [List.foldl_cons, h1]
        exact happ
      · rw [List.foldl_cons, h1]
  intro values
  rcases hinv values App.initial rfl with h | h
  · rw [h]
    rfl
  · exact h

/-! ## C26: the token account `toggleFreeze` acts on -/

/-- The function `resolveTokenAccount` once both texts decode. -/
theorem freeze_resolve_apply {σ : Type} (env : Env) (mintAddress accountOrOwner : String)
    (mintPk pk : PublicKey)
    (hmint : env.newPublicKey mintAddress = Except.ok mintPk)
    (hpk : env.newPublicKey accountOrOwner = Except.ok pk) (w : World σ) :
    TokenFreeze.resolveTokenAccount env mintAddress accountOrOwner w =
      match env.getAccount pk with
      | Except.ok _ => (Outcome.ok pk, { w with log := w.log ++ [Event.network (Call.getAccount pk)] })
      | Except.error _ =>
        match env.getAssociatedTokenAddress mintPk pk with
        | Except.ok ata =>
          (Outcome.ok ata, { w with log := w.log ++ [Event.network (Call.getAccount pk)] })
        | Except.error e =>
          (Outcome.thrown e, { w with log := w.log ++ [Event.network (Call.getAccount pk)] }) := by
  cases hacc : env.getAccount pk with
  | ok info =>
    simp [TokenFreeze.resolveTokenAccount, JS.bind_apply, JS.pure_apply, JS.tryCatch_apply, JS.await_ok,
      JS.request_ok, hmint, hpk, hacc]
  | error e0 =>
    cases hata : env.getAssociatedTokenAddress mintPk pk <;>
    simp [TokenFreeze.resolveTokenAccount, JS.bind_apply, JS.pure_apply, JS.tryCatch_apply, JS.await_ok,
      JS.await_error, JS.request_error, hmint, hpk, hacc, hata]

/-- C26. `resolveTokenAccount(mint, x)`, with both texts decoding to `mintPk` and `pk`: when
the token-account lookup of `pk` succeeds it returns `pk` itself; when the lookup fails it
returns the associated token account address derived for (`mintPk`, owner `pk`), or throws if
the derivation throws. Whatever the texts, a key it returns is one of these two. -/
theorem C26_resolveTokenAccount_gives_account_or_ata {σ : Type} (env : Env)
    (mintAddress accountOrOwner : String) (w : World σ) :
    (∀ mintPk pk, env.newPublicKey mintAddress = Except.ok mintPk →
      env.newPublicKey accountOrOwner = Except.ok pk →
      ((∃ info, env.getAccount pk = Except.ok info) →
        (TokenFreeze.resolveTokenAccount env mintAddress accountOrOwner).result w = Outcome.ok pk) ∧
      ((∃ e, env.getAccount pk = Except.error e) →
        (TokenFreeze.resolveTokenAccount env mintAddress accountOrOwner).result w =
          match env.getAssociatedTokenAddress mintPk pk with
          | Except.ok ata => Outcome.ok ata
          | Except.error e => Outcome.thrown e)) ∧
    (∀ k, (TokenFreeze.resolveTokenAccount env mintAddress accountOrOwner).result w = Outcome.ok k →
      ∃ mintPk pk, env.newPublicKey mintAddress = Except.ok mintPk ∧
        env.newPublicKey accountOrOwner = Except.ok pk ∧
        ((k = pk ∧ ∃ info, env.getAccount pk = Except.ok info) ∨
          ((∃ e, env.getAccount pk = Except.error e) ∧
            env.getAssociatedTokenAddress mintPk pk = Except.ok k))) := by
  constructor
  · intro mintPk pk hmint hpk
    constructor
    · rintro ⟨info, hacc⟩
      simp [JS.result, freeze_resolve_apply env mintAddress accountOrOwner mintPk pk hmint hpk, hacc]
    · rintro ⟨e, hacc⟩
      rw [JS.result, freeze_resolve_apply env mintAddress accountOrOwner mintPk pk hmint hpk, hacc]
      cases hata : env.getAssociatedTokenAddress mintPk pk <;> rfl
  · intro k hk
    cases hmint : env.newPublicKey mintAddress with
    | error e =>
      simp [JS.result, TokenFreeze.resolveTokenAccount, JS.bind_apply, JS.await_error, hmint] at hk
    | ok mintPk =>
      cases hpk : env.newPublicKey accountOrOwner with
      | error e =>
        simp [JS.result, TokenFreeze.resolveTokenAccount, JS.bind_apply, JS.await_error, JS.await_ok,
          hmint, hpk] at hk
      | ok pk =>
        refine ⟨mintPk, pk, rfl, rfl, ?_⟩
        rw [JS.result, freeze_resolve_apply env mintAddress accountOrOwner mintPk pk hmint hpk] at hk
        cases hacc : env.getAccount pk with
        | ok info =>
          rw [hacc] at hk
          simp at hk
          exact Or.inl ⟨hk.symm, info, rfl⟩
        | error e =>
          rw [hacc] at hk
          cases hata : env.getAssociatedTokenAddress mintPk pk with
          | ok ata =>
            rw [hata] at hk
            simp at hk
            exact Or.inr ⟨⟨e, rfl⟩, by rw [hk]⟩
          | error e2 =>
            rw [hata] at hk
            simp at hk

/-- C26 at the sample environment: a token account is returned as it is, a wallet address is
replaced by its associated token account. -/
theorem C26_witness :
    (TokenFreeze.resolveTokenAccount Sample.env Sample.mint.toBase58 Sample.walletAta.toBase58).result
      (Sample.world Sample.freezeState) = Outcome.ok Sample.walletAta ∧
    (TokenFreeze.resolveTokenAccount Sample.env Sample.mint.toBase58 Sample.recipient.toBase58).result
      (Sample.world Sample.freezeState) = Outcome.ok Sample.recipientAta :=
  ⟨((C26_resolveTokenAccount_gives_account_or_ata Sample.env Sample.mint.toBase58
      Sample.walletAta.toBase58 (Sample.world Sample.freezeState)).1 Sample.mint Sample.walletAta
      rfl rfl).1 ⟨Sample.walletAccount, rfl⟩,
    ((C26_resolveTokenAccount_gives_account_or_ata Sample.env Sample.mint.toBase58
      Sample.recipient.toBase58 (Sample.world Sample.freezeState)).1 Sample.mint Sample.recipient
      rfl rfl).2 ⟨"TokenAccountNotFoundError", rfl⟩⟩

/-! ## C27: one freeze or thaw instruction -/

/-- A state that passes the guards of `toggleFreeze` reaches the `try` block. -/
theorem freeze_reaches_try (env : Env) (pk m a fa : PublicKey) (mi : MintInfo) (s : TokenFreeze.State)
    (freeze : Bool)
    (hmint : s.formData.mintAddress ≠ "") (hacc : s.formData.tokenAccount ≠ "")
    (hmi : s.mintInfo = some mi) (hfa : mi.freezeAuthority = some fa)
    (heq : fa.toBase58 = pk.toBase58)
    (hm : env.newPublicKey s.formData.mintAddress = Except.ok m)
    (ha : env.newPublicKey s.formData.tokenAccount = Except.ok a)
    (w : World TokenFreeze.State) :
    TokenFreeze.toggleFreeze env (some pk) s freeze w =
      JS.tryFinally
        (JS.tryCatch (TokenFreeze.toggleFreezeTry env pk s freeze)
          (fun message => JS.setStatus (TokenFreeze.errorMessage message)))
        (JS.setLoading false)
        { w with loading := true,
                 status := (if freeze then "准备冻结账户..." else "准备解冻账户..."),
                 log := w.log ++ [Event.setLoading true,
                   Event.setStatus (if freeze then "准备冻结账户..." else "准备解冻账户...")] } := by
  simp [TokenFreeze.toggleFreeze, freeze_isValid_apply, JS.ite_apply, JS.bind_apply,
    JS.setStatus_apply, JS.setLoading_apply, hmint, hacc, hmi, hfa, heq, hm, ha]

/-- The transactions of the `try` block of `toggleFreeze` once the token account is resolved. -/
theorem freeze_try_txs (env : Env) (pk m a acc : PublicKey) (s : TokenFreeze.State) (freeze : Bool)
    (hm : env.newPublicKey s.formData.mintAddress = Except.ok m)
    (ha : env.newPublicKey s.formData.tokenAccount = Except.ok a)
    (hres : ((∃ info, env.getAccount a = Except.ok info) ∧ acc = a) ∨
      ((∃ e, env.getAccount a = Except.error e) ∧ env.getAssociatedTokenAddress m a = Except.ok acc))
    (w : World TokenFreeze.State) :
    builtTxs ((JS.tryFinally
        (JS.tryCatch (TokenFreeze.toggleFreezeTry env pk s freeze)
          (fun message => JS.setStatus (TokenFreeze.errorMessage message)))
        (JS.setLoading false) w).2).log =
      builtTxs w.log ++
        [[if freeze then Instr.freezeAccount acc m pk [] env.TOKEN_PROGRAM_ID
          else Instr.thawAccount acc m pk [] env.TOKEN_PROGRAM_ID]] ∧
    sentTxs ((JS.tryFinally
        (JS.tryCatch (TokenFreeze.toggleFreezeTry env pk s freeze)
          (fun message => JS.setStatus (TokenFreeze.errorMessage message)))
        (JS.setLoading false) w).2).log =
      sentTxs w.log ++
        [[if freeze then Instr.freezeAccount acc m pk [] env.TOKEN_PROGRAM_ID
          else Instr.thawAccount acc m pk [] env.TOKEN_PROGRAM_ID]] := by
  have hresolve : ∀ w0 : World TokenFreeze.State,
      TokenFreeze.resolveTokenAccount env s.formData.mintAddress s.formData.tokenAccount w0 =
        (Outcome.ok acc, { w0 with log := w0.log ++ [Event.network (Call.getAccount a)] }) := by
    intro w0
    rw [freeze_resolve_apply env _ _ m a hm ha]
    rcases hres with ⟨⟨info, hacc⟩, rfl⟩ | ⟨⟨e, hacc⟩, hata⟩
    · rw [hacc]
    · rw [hacc, hata]
  cases freeze with
  | true =>
    cases hsend : env.sendTransaction [Instr.freezeAccount acc m pk [] env.TOKEN_PROGRAM_ID] with
    | error e =>
      simp [TokenFreeze.toggleFreezeTry, hresolve, JS.bind_apply, JS.pure_apply, JS.tryCatch_apply,
        JS.tryFinally_apply, JS.await_ok, JS.await_error, JS.emit_apply, JS.setStatus_apply,
        JS.setLoading_apply, hm, hsend, builtTxs_append, sentTxs_append, builtTxs, sentTxs]
    | ok sig =>
      cases hconf : env.confirmTransaction sig <;>
      simp [TokenFreeze.toggleFreezeTry, hresolve, JS.bind_apply, JS.pure_apply, JS.tryCatch_apply,
        JS.tryFinally_apply, JS.await_ok, JS.await_error, JS.request_ok, JS.request_error, JS.emit_apply,
        JS.setStatus_apply, JS.setLoading_apply, hm, hsend, hconf, builtTxs_append, sentTxs_append,
        builtTxs, sentTxs]
  | false =>
    cases hsend : env.sendTransaction [Instr.thawAccount acc m pk [] env.TOKEN_PROGRAM_ID] with
    | error e =>
      simp [TokenFreeze.toggleFreezeTry, hresolve, JS.bind_apply, JS.pure_apply, JS.tryCatch_apply,
        JS.tryFinally_apply, JS.await_ok, JS.await_error, JS.emit_apply, JS.setStatus_apply,
        JS.setLoading_apply, hm, hsend, builtTxs_append, sentTxs_append, builtTxs, sentTxs]
    | ok sig =>
      cases hconf : env.confirmTransaction sig <;>
      simp [TokenFreeze.toggleFreezeTry, hresolve, JS.bind_apply, JS.pure_apply, JS.tryCatch_apply,
        JS.tryFinally_apply, JS.await_ok, JS.await_error, JS.request_ok, JS.request_error, JS.emit_apply,
        JS.setStatus_apply, JS.setLoading_apply, hm, hsend, hconf, builtTxs_append, sentTxs_append,
        builtTxs, sentTxs]

/-- The `try` block of `toggleFreeze` assembles nothing when the token account cannot be resolved. -/
theorem freeze_try_no_txs (env : Env) (pk m a : PublicKey) (s : TokenFreeze.State) (freeze : Bool)
    (hm : env.newPublicKey s.formData.mintAddress = Except.ok m)
    (ha : env.newPublicKey s.formData.tokenAccount = Except.ok a)
    (hfail : (∃ e, env.getAccount a = Except.error e) ∧
      ∃ e, env.getAssociatedTokenAddress m a = Except.error e)
    (w : World TokenFreeze.State) :
    builtTxs ((JS.tryFinally
        (JS.tryCatch (TokenFreeze.toggleFreezeTry env pk s freeze)
          (fun message => JS.setStatus (TokenFreeze.errorMessage message)))
        (JS.setLoading false) w).2).log = builtTxs w.log ∧
    sentTxs ((JS.tryFinally
        (JS.tryCatch (TokenFreeze.toggleFreezeTry env pk s freeze)
          (fun message => JS.setStatus (TokenFreeze.errorMessage message)))
        (JS.setLoading false) w).2).log = sentTxs w.log := by
  obtain ⟨⟨e1, hacc⟩, e2, hata⟩ := hfail
  have hresolve : ∀ w0 : World TokenFreeze.State,
      TokenFreeze.resolveTokenAccount env s.formData.mintAddress s.formData.tokenAccount w0 =
        (Outcome.thrown e2, { w0 with log := w0.log ++ [Event.network (Call.getAccount a)] }) := by
    intro w0
    rw [freeze_resolve_apply env _ _ m a hm ha, hacc, hata]
  simp [TokenFreeze.toggleFreezeTry, hresolve, JS.bind_apply, JS.pure_apply, JS.tryCatch_apply,
    JS.tryFinally_apply, JS.await_ok, JS.setStatus_apply, JS.setLoading_apply, hm,
    builtTxs_append, sentTxs_append, builtTxs, sentTxs]

/-- C27. For every state that passes the guards of `toggleFreeze` (wallet connected, both
fields filled and decodable, the fetched freeze authority equal to the wallet), with `acc` the
token account `resolveTokenAccount` returns: `toggleFreeze(true)` assembles and submits exactly
one transaction of exactly one freeze-account instruction, `toggleFreeze(false)` exactly one
transaction of exactly one thaw-account instruction, both with arguments `acc`, the mint and
the connected wallet as authority. When the token account cannot be resolved nothing is
assembled. -/
theorem C27_toggleFreeze_builds_one_freeze_or_thaw (env : Env) (pk m a fa : PublicKey) (mi : MintInfo)
    (s : TokenFreeze.State) (w : World TokenFreeze.State)
    (hmint : s.formData.mintAddress ≠ "") (hacc : s.formData.tokenAccount ≠ "")
    (hmi : s.mintInfo = some mi) (hfa : mi.freezeAuthority = some fa)
    (heq : fa.toBase58 = pk.toBase58)
    (hm : env.newPublicKey s.formData.mintAddress = Except.ok m)
    (ha : env.newPublicKey s.formData.tokenAccount = Except.ok a) :
    (∀ acc, (TokenFreeze.resolveTokenAccount env s.formData.mintAddress s.formData.tokenAccount).result w =
        Outcome.ok acc →
      builtTxs ((TokenFreeze.toggleFreeze env (some pk) s true).exec w).log =
        builtTxs w.log ++ [[Instr.freezeAccount acc m pk [] env.TOKEN_PROGRAM_ID]] ∧
      sentTxs ((TokenFreeze.toggleFreeze env (some pk) s true).exec w).log =
        sentTxs w.log ++ [[Instr.freezeAccount acc m pk [] env.TOKEN_PROGRAM_ID]] ∧
      builtTxs ((TokenFreeze.toggleFreeze env (some pk) s false).exec w).log =
        builtTxs w.log ++ [[Instr.thawAccount acc m pk [] env.TOKEN_PROGRAM_ID]] ∧
      sentTxs ((TokenFreeze.toggleFreeze env (some pk) s false).exec w).log =
        sentTxs w.log ++ [[Instr.thawAccount acc m pk [] env.TOKEN_PROGRAM_ID]]) ∧
    ((∃ e, (TokenFreeze.resolveTokenAccount env s.formData.mintAddress s.formData.tokenAccount).result w =
        Outcome.thrown e) →
      ∀ freeze,
        builtTxs ((TokenFreeze.toggleFreeze env (some pk) s freeze).exec w).log = builtTxs w.log ∧
        sentTxs ((TokenFreeze.toggleFreeze env (some pk) s freeze).exec w).log = sentTxs w.log) := by
  have hstart := fun freeze => freeze_reaches_try env pk m a fa mi s freeze hmint hacc hmi hfa heq hm ha w
  constructor
  · intro acc hacc0
    have hres : ((∃ info, env.getAccount a = Except.ok info) ∧ acc = a) ∨
        ((∃ e, env.getAccount a = Except.error e) ∧ env.getAssociatedTokenAddress m a = Except.ok acc) := by
      rw [JS.result, freeze_resolve_apply env _ _ m a hm ha] at hacc0
      cases hget : env.getAccount a with
      | ok info =>
        rw [hget] at hacc0
        simp at hacc0
        exact Or.inl ⟨⟨info, rfl⟩, hacc0.symm⟩
      | error e =>
        rw [hget] at hacc0
        cases hata : env.getAssociatedTokenAddress m a with
        | ok ata =>
          rw [hata] at hacc0
          simp at hacc0
          exact Or.inr ⟨⟨e, rfl⟩, by rw [hacc0]⟩
        | error e2 =>
          rw [hata] at hacc0
          simp at hacc0
    have ht := freeze_try_txs env pk m a acc s true hm ha hres
      { w with loading := true, status := "准备冻结账户...",
               log := w.log ++ [Event.setLoading true, Event.setStatus "准备冻结账户..."] }
    have hf := freeze_try_txs env pk m a acc s false hm ha hres
      { w with loading := true, status := "准备解冻账户...",
               log := w.log ++ [Event.setLoading true, Event.setStatus "准备解冻账户..."] }
    have h1 := hstart true
    have h2 := hstart false
    simp only [if_true, Bool.false_eq_true, if_false] at h1 h2 ht hf
    refine ⟨?_, ?_, ?_, ?_⟩
    · rw [JS.exec, h1, ht.1]
      simp [builtTxs_append, builtTxs]
    · rw [JS.exec, h1, ht.2]
      simp [sentTxs_append, sentTxs]
    · rw [JS.exec, h2, hf.1]
      simp [builtTxs_append, builtTxs]
    · rw [JS.exec, h2, hf.2]
      simp [sentTxs_append, sentTxs]
  · rintro ⟨e, he⟩ freeze
    have hfail : (∃ e, env.getAccount a = Except.error e) ∧
        ∃ e, env.getAssociatedTokenAddress m a = Except.error e := by
      rw [JS.result, freeze_resolve_apply env _ _ m a hm ha] at he
      cases hget : env.getAccount a with
      | ok info =>
        rw [hget] at he
        simp at he
      | error e1 =>
        rw [hget] at he
        cases hata : env.getAssociatedTokenAddress m a with
        | ok ata =>
          rw [hata] at he
          simp at he
        | error e2 => exact ⟨⟨e1, rfl⟩, e2, rfl⟩
    have hn := freeze_try_no_txs env pk m a s freeze hm ha hfail
      { w with loading := true, status := (if freeze then "准备冻结账户..." else "准备解冻账户..."),
               log := w.log ++ [Event.setLoading true,
                 Event.setStatus (if freeze then "准备冻结账户..." else "准备解冻账户...")] }
    constructor
    · rw [JS.exec, hstart freeze, hn.1]
      simp [builtTxs_append, builtTxs]
    · rw [JS.exec, hstart freeze, hn.2]
      simp [sentTxs_append, sentTxs]

/-- C27 at the sample environment: the wallet holds the freeze authority and the form names the
recipient wallet, whose associated token account is frozen, or thawed. -/
theorem C27_witness :
    sentTxs ((TokenFreeze.toggleFreeze Sample.env (some Sample.wallet) Sample.ownedFreezeState true).exec
        (Sample.world Sample.ownedFreezeState)).log =
      sentTxs (Sample.world Sample.ownedFreezeState).log ++
        [[Instr.freezeAccount Sample.recipientAta Sample.mint Sample.wallet [] Sample.env.TOKEN_PROGRAM_ID]] ∧
    sentTxs ((TokenFreeze.toggleFreeze Sample.env (some Sample.wallet) Sample.ownedFreezeState false).exec
        (Sample.world Sample.ownedFreezeState)).log =
      sentTxs (Sample.world Sample.ownedFreezeState).log ++
        [[Instr.thawAccount Sample.recipientAta Sample.mint Sample.wallet [] Sample.env.TOKEN_PROGRAM_ID]] :=
  have h := (C27_toggleFreeze_builds_one_freeze_or_thaw Sample.env Sample.wallet Sample.mint
    Sample.recipient Sample.wallet Sample.ownedMintInfo Sample.ownedFreezeState
    (Sample.world Sample.ownedFreezeState) (by decide) (by decide) rfl rfl rfl rfl rfl).1
    Sample.recipientAta rfl
  ⟨h.2.1, h.2.2.2⟩

/-! ## C28: the success status and the removal of the mint authority -/

/-- A status made of the error prefix and a message is not the success status of `createToken`. -/
theorem error_status_ne_created (e : String) : "错误: " ++ e ≠ "代币创建成功！" := by
  intro h
  have hd := congrArg String.data h
  rw [String.data_append] at hd
  have h1 : ("错误: " : String).data = ['错', '误', ':', ' '] := rfl
  have h2 : ("代币创建成功！" : String).data = ['代', '币', '创', '建', '成', '功', '！'] := rfl
  rw [h1, h2] at hd
  simp at hd

/-- The `try` block of `createToken` with `disableMinting` set: the success status is shown
only when every step has answered, the last two being the submission and the confirmation of
the transaction that sets the mint authority to `null`. -/
theorem creator_try_disabling (env : Env) (pk authority : PublicKey) (s : TokenCreator.State)
    (hdis : s.formData.disableMinting = true) (w : World TokenCreator.State)
    (hstatus : ((JS.tryFinally
        (JS.tryCatch (TokenCreator.createTokenTry env pk authority s)
          (fun message => JS.setStatus ("错误: " ++ message)))
        (JS.setLoading false) w).2).status = "代币创建成功！") :
    ∃ lamports ata signature confirmation,
      env.sendTransaction [Instr.setAuthority env.generateKeypair authority AuthorityType.MintTokens
        none [] env.TOKEN_PROGRAM_ID] = Except.ok signature ∧
      env.confirmTransaction signature = Except.ok confirmation ∧
      sentTxs ((JS.tryFinally
          (JS.tryCatch (TokenCreator.createTokenTry env pk authority s)
            (fun message => JS.setStatus ("错误: " ++ message)))
          (JS.setLoading false) w).2).log =
        sentTxs w.log ++
          [TokenCreator.mintTransaction env pk env.generateKeypair ata authority lamports s.formData,
           [Instr.setAuthority env.generateKeypair authority AuthorityType.MintTokens none []
             env.TOKEN_PROGRAM_ID]] ∧
      (networkCalls ((JS.tryFinally
          (JS.tryCatch (TokenCreator.createTokenTry env pk authority s)
            (fun message => JS.setStatus ("错误: " ++ message)))
          (JS.setLoading false) w).2).log).getLast? = some (Call.confirmTransaction signature) := by
  cases hrent : env.getMinimumBalanceForRentExemptMint with
  | error e =>
    simp [TokenCreator.createTokenTry, JS.bind_apply, JS.tryCatch_apply, JS.tryFinally_apply,
      JS.request_error, JS.setStatus_apply, JS.setLoading_apply, hrent, error_status_ne_created]
      at hstatus
  | ok lamports =>
    cases hata : env.getAssociatedTokenAddress env.generateKeypair pk with
    | error e =>
      simp [TokenCreator.createTokenTry, JS.bind_apply, JS.tryCatch_apply, JS.tryFinally_apply,
        JS.request_ok, JS.await_error, JS.setStatus_apply, JS.setLoading_apply, hrent, hata,
        error_status_ne_created] at hstatus
    | ok ata =>
      cases henc : env.instructionAmount (TokenCreator.mintAmount env s.formData) with
      | error e =>
        simp [TokenCreator.createTokenTry, JS.bind_apply, JS.tryCatch_apply, JS.tryFinally_apply,
          JS.request_ok, JS.await_ok, JS.await_error, JS.setStatus_apply, JS.setLoading_apply, hrent,
          hata, henc, error_status_ne_created] at hstatus
      | ok n =>
        cases hsend : env.sendTransaction
            (TokenCreator.mintTransaction env pk env.generateKeypair ata authority lamports s.formData) with
        | error e =>
          simp only [TokenCreator.mintTransaction] at hsend
          simp [TokenCreator.createTokenTry, TokenCreator.mintTransaction, JS.ite_apply,
            JS.bind_apply, JS.pure_apply, JS.tryCatch_apply, JS.tryFinally_apply, JS.await_ok, JS.await_error,
            JS.request_ok, JS.request_error, JS.emit_apply, JS.setStatus_apply, JS.setLoading_apply,
            JS.modifySt_apply, JS.raise_apply, hrent, hata, henc, hsend, error_status_ne_created] at hstatus
        | ok sig =>
          simp only [TokenCreator.mintTransaction] at hsend
          cases hconf : env.confirmTransaction sig with
          | error e =>
            simp [TokenCreator.createTokenTry, TokenCreator.mintTransaction, JS.ite_apply,
              JS.bind_apply, JS.pure_apply, JS.tryCatch_apply, JS.tryFinally_apply, JS.await_ok,
              JS.await_error, JS.request_ok, JS.request_error, JS.emit_apply, JS.setStatus_apply,
              JS.setLoading_apply, JS.modifySt_apply, JS.raise_apply, hrent, hata, henc, hsend, hconf,
              error_status_ne_created] at hstatus
          | ok c =>
            cases hsft : env.metaplexCreateSft
                { uri := s.formData.logoUrl, name := s.formData.name, symbol := s.formData.symbol,
                  sellerFeeBasisPoints := 0, isMutable := s.formData.isMutable,
                  useNewMint := env.generateKeypair } with
            | error e =>
              simp [TokenCreator.createTokenTry, TokenCreator.mintTransaction, JS.ite_apply,
                JS.bind_apply, JS.pure_apply, JS.tryCatch_apply, JS.tryFinally_apply, JS.await_ok,
                JS.await_error, JS.request_ok, JS.request_error, JS.emit_apply, JS.setStatus_apply,
                JS.setLoading_apply, JS.modifySt_apply, JS.raise_apply, hrent, hata, henc, hsend, hconf, hsft,
                error_status_ne_created] at hstatus
            | ok u =>
              cases hsend2 : env.sendTransaction [Instr.setAuthority env.generateKeypair authority
                  AuthorityType.MintTokens none [] env.TOKEN_PROGRAM_ID] with
              | error e =>
                simp [TokenCreator.createTokenTry, TokenCreator.mintTransaction, JS.ite_apply,
                  JS.bind_apply, JS.pure_apply, JS.tryCatch_apply, JS.tryFinally_apply, JS.await_ok,
                  JS.await_error, JS.request_ok, JS.request_error, JS.emit_apply, JS.setStatus_apply,
                  JS.setLoading_apply, JS.modifySt_apply, JS.raise_apply, hrent, hata, henc, hsend, hconf, hsft,
                  hdis, hsend2, error_status_ne_created] at hstatus
              | ok sig2 =>
                cases hconf2 : env.confirmTransaction sig2 with
                | error e =>
                  simp [TokenCreator.createTokenTry, TokenCreator.mintTransaction, JS.ite_apply,
                    JS.bind_apply, JS.pure_apply, JS.tryCatch_apply, JS.tryFinally_apply, JS.await_ok,
                    JS.await_error, JS.request_ok, JS.request_error, JS.emit_apply, JS.setStatus_apply,
                    JS.setLoading_apply, JS.modifySt_apply, JS.raise_apply, hrent, hata, henc, hsend, hconf, hsft,
                    hdis, hsend2, hconf2, error_status_ne_created] at hstatus
                | ok c2 =>
                  refine ⟨lamports, ata, sig2, c2, rfl, hconf2, ?_, ?_⟩ <;>
                  simp [TokenCreator.createTokenTry, TokenCreator.mintTransaction, JS.ite_apply,
                    JS.bind_apply, JS.pure_apply, JS.tryCatch_apply, JS.tryFinally_apply, JS.await_ok,
                    JS.await_error, JS.request_ok, JS.request_error, JS.emit_apply, JS.setStatus_apply,
                    JS.setLoading_apply, JS.modifySt_apply, JS.raise_apply, hrent, hata, henc, hsend, hconf, hsft,
                    hdis, hsend2, hconf2, sentTxs_append, sentTxs, networkCalls_append, networkCalls]

/-- The transactions the `try` block of `createToken` submits with `disableMinting` unset:
none, or the first transaction only. -/
theorem creator_try_plain (env : Env) (pk authority : PublicKey) (s : TokenCreator.State)
    (hdis : s.formData.disableMinting = false) (w : World TokenCreator.State) :
    sentTxs ((JS.tryFinally
        (JS.tryCatch (TokenCreator.createTokenTry env pk authority s)
          (fun message => JS.setStatus ("错误: " ++ message)))
        (JS.setLoading false) w).2).log = sentTxs w.log ∨
    ∃ lamports ata,
      sentTxs ((JS.tryFinally
          (JS.tryCatch (TokenCreator.createTokenTry env pk authority s)
            (fun message => JS.setStatus ("错误: " ++ message)))
          (JS.setLoading false) w).2).log =
        sentTxs w.log ++
          [TokenCreator.mintTransaction env pk env.generateKeypair ata authority lamports s.formData] := by
  cases hrent : env.getMinimumBalanceForRentExemptMint with
  | error e =>
    exact Or.inl (creator_try_no_txs env pk authority s (Or.inl ⟨e, hrent⟩) w).2
  | ok lamports =>
    cases hata : env.getAssociatedTokenAddress env.generateKeypair pk with
    | error e =>
      exact Or.inl (creator_try_no_txs env pk authority s (Or.inr (Or.inl ⟨e, hata⟩)) w).2
    | ok ata =>
      cases henc : env.instructionAmount (TokenCreator.mintAmount env s.formData) with
      | error e =>
        exact Or.inl (creator_try_no_txs env pk authority s (Or.inr (Or.inr ⟨e, henc⟩)) w).2
      | ok n =>
        refine Or.inr ⟨lamports, ata, ?_⟩
        cases hsend : env.sendTransaction
            (TokenCreator.mintTransaction env pk env.generateKeypair ata authority lamports s.formData) with
        | error e =>
          simp only [TokenCreator.mintTransaction] at hsend
          simp [TokenCreator.createTokenTry, TokenCreator.mintTransaction, JS.ite_apply,
            JS.bind_apply, JS.pure_apply, JS.tryCatch_apply, JS.tryFinally_apply, JS.await_ok, JS.await_error,
            JS.request_ok, JS.request_error, JS.emit_apply, JS.setStatus_apply, JS.setLoading_apply,
            JS.modifySt_apply, JS.raise_apply, sentTxs_append, sentTxs, hdis, hrent, hata, henc, hsend]
        | ok sig =>
          simp only [TokenCreator.mintTransaction] at hsend
          cases hconf : env.confirmTransaction sig with
          | error e =>
            simp [TokenCreator.createTokenTry, TokenCreator.mintTransaction, JS.ite_apply,
              JS.bind_apply, JS.pure_apply, JS.tryCatch_apply, JS.tryFinally_apply, JS.await_ok, JS.await_error,
              JS.request_ok, JS.request_error, JS.emit_apply, JS.setStatus_apply, JS.setLoading_apply,
              JS.modifySt_apply, JS.raise_apply, sentTxs_append, sentTxs, hdis, hrent, hata, henc, hsend, hconf]
          | ok c =>
            cases hsft : env.metaplexCreateSft
                { uri := s.formData.logoUrl, name := s.formData.name, symbol := s.formData.symbol,
                  sellerFeeBasisPoints := 0, isMutable := s.formData.isMutable,
                  useNewMint := env.generateKeypair } <;>
            simp [TokenCreator.createTokenTry, TokenCreator.mintTransaction, JS.ite_apply,
              JS.bind_apply, JS.pure_apply, JS.tryCatch_apply, JS.tryFinally_apply, JS.await_ok, JS.await_error,
              JS.request_ok, JS.request_error, JS.emit_apply, JS.setStatus_apply, JS.setLoading_apply,
              JS.modifySt_apply, JS.raise_apply, sentTxs_append, sentTxs, hdis, hrent, hata, henc, hsend, hconf, hsft]

/-- C28. With `disableMinting` set: a run of `createToken` that does anything and ends with the
status '代币创建成功！' has submitted, as its second and last transaction, one set-authority
instruction on the new mint of type MintTokens, signed for by the chosen authority, with new
authority `null`, and the confirmation call for that transaction, the last request of the run,
has resolved. With `disableMinting` unset no transaction the run submits contains a
set-authority instruction. -/
theorem C28_success_only_after_mint_authority_removed (env : Env) (publicKey : Option PublicKey)
    (s : TokenCreator.State) (w : World TokenCreator.State) :
    (s.formData.disableMinting = true →
      ((TokenCreator.createToken env publicKey s).exec w).log ≠ w.log →
      ((TokenCreator.createToken env publicKey s).exec w).status = "代币创建成功！" →
      ∃ pk authority lamports ata signature confirmation,
        publicKey = some pk ∧
        ((env.trim s.formData.authorityAddress = "" ∧ authority = pk) ∨
          (env.trim s.formData.authorityAddress ≠ "" ∧
            env.newPublicKey (env.trim s.formData.authorityAddress) = Except.ok authority)) ∧
        env.sendTransaction [Instr.setAuthority env.generateKeypair authority AuthorityType.MintTokens
          none [] env.TOKEN_PROGRAM_ID] = Except.ok signature ∧
        env.confirmTransaction signature = Except.ok confirmation ∧
        sentTxs ((TokenCreator.createToken env publicKey s).exec w).log =
          sentTxs w.log ++
            [TokenCreator.mintTransaction env pk env.generateKeypair ata authority lamports s.formData,
             [Instr.setAuthority env.generateKeypair authority AuthorityType.MintTokens none []
               env.TOKEN_PROGRAM_ID]] ∧
        (networkCalls ((TokenCreator.createToken env publicKey s).exec w).log).getLast? =
          some (Call.confirmTransaction signature)) ∧
    (s.formData.disableMinting = false →
      ∀ tx, tx ∈ sentTxs ((TokenCreator.createToken env publicKey s).exec w).log →
        tx ∈ sentTxs w.log ∨ ∀ i, i ∈ tx → i.isSetAuthority = false) := by
  constructor
  · intro hdis hlog hstatus
    rcases creator_paths env publicKey s w with ⟨e, hrun⟩ | ⟨msg, hmem, hrun⟩ |
      ⟨pk, authority, hpk, hauth, hrun⟩
    · rw [JS.exec, hrun] at hlog
      exact absurd rfl hlog
    · have hne : msg ≠ "代币创建成功！" := by
        simp only [List.mem_cons, List.mem_singleton, List.not_mem_nil, or_false] at hmem
        rcases hmem with h | h | h <;> subst h <;> decide
      rw [JS.exec, hrun] at hstatus
      exact absurd hstatus hne
    · rw [JS.exec, hrun] at hstatus
      obtain ⟨lamports, ata, signature, confirmation, hsend, hconf, hsent, hcalls⟩ :=
        creator_try_disabling env pk authority s hdis _ hstatus
      refine ⟨pk, authority, lamports, ata, signature, confirmation, hpk, hauth, hsend, hconf, ?_, ?_⟩
      · rw [JS.exec, hrun, hsent]
        simp [sentTxs_append, sentTxs]
      · rw [JS.exec, hrun, hcalls]
  · intro hdis tx htx
    rcases creator_paths env publicKey s w with ⟨e, hrun⟩ | ⟨msg, hmem, hrun⟩ |
      ⟨pk, authority, hpk, hauth, hrun⟩
    · rw [JS.exec, hrun] at htx
      exact Or.inl htx
    · rw [JS.exec, hrun] at htx
      simp only [sentTxs_append, sentTxs, List.append_nil] at htx
      exact Or.inl htx
    · rw [JS.exec, hrun] at htx
      rcases creator_try_plain env pk authority s hdis
        { w with loading := true, status := "准备创建代币...",
                 log := w.log ++ [Event.setLoading true, Event.setStatus "准备创建代币..."] } with
        h | ⟨lamports, ata, h⟩
      · rw [h] at htx
        simp only [sentTxs_append, sentTxs, List.append_nil] at htx
        exact Or.inl htx
      · rw [h] at htx
        simp only [sentTxs_append, sentTxs, List.append_nil, List.mem_append, List.mem_singleton] at htx
        rcases htx with h1 | h1
        · exact Or.inl h1
        · right
          subst h1
          intro i hi
          simp only [TokenCreator.mintTransaction, List.mem_cons, List.mem_singleton, List.not_mem_nil,
            or_false] at hi
          rcases hi with h2 | h2 | h2 | h2 <;> subst h2 <;> rfl

/-- C28 at the sample environment: the default form, which has `disableMinting` set, ends with
the success status and its last transaction sets the mint authority of the new mint to `null`. -/
theorem C28_witness :
    ((TokenCreator.createToken Sample.env (some Sample.wallet) Sample.createState).exec
      (Sample.world Sample.createState)).status = "代币创建成功！" ∧
    (sentTxs ((TokenCreator.createToken Sample.env (some Sample.wallet) Sample.createState).exec
      (Sample.world Sample.createState)).log).getLast? =
      some [Instr.setAuthority Sample.newMint Sample.wallet AuthorityType.MintTokens none []
        Sample.tokenProgram] := by
  have hstatus : ((TokenCreator.createToken Sample.env (some Sample.wallet) Sample.createState).exec
      (Sample.world Sample.createState)).status = "代币创建成功！" := by decide
  obtain ⟨pk, authority, lamports, ata, signature, confirmation, hpk, hauth, _, _, hsent, _⟩ :=
    (C28_success_only_after_mint_authority_removed Sample.env (some Sample.wallet) Sample.createState
      (Sample.world Sample.createState)).1 rfl (by decide) hstatus
  refine ⟨hstatus, ?_⟩
  have hauthority : authority = Sample.wallet := by
    rcases hauth with ⟨_, h⟩ | ⟨h, _⟩
    · rw [h]
      exact (Option.some.inj hpk).symm
    · exact absurd rfl h
  rw [hsent, hauthority]
  simp [Sample.world, sentTxs]
  exact ⟨rfl, rfl⟩

/-! ## C29: the stored burn history -/

/-- The run of `saveBurnRecord`. -/
theorem burn_save_apply (env : Env) (s : TokenBurn.State) (record : BurnRecord)
    (w : World TokenBurn.State) :
    TokenBurn.saveBurnRecord env s record w =
      match env.storageSetItem "tokenBurnHistory" ((record :: s.burnHistory).take 50) with
      | Except.ok _ =>
        (Outcome.ok (),
          { w with st := { w.st with burnHistory := (record :: s.burnHistory).take 50 },
                   log := w.log ++
                     [Event.storageSet "tokenBurnHistory" ((record :: s.burnHistory).take 50)] })
      | Except.error e =>
        (Outcome.thrown e,
          { w with st := { w.st with burnHistory := (record :: s.burnHistory).take 50 } }) := by
  cases hset : env.storageSetItem "tokenBurnHistory" (record :: s.burnHistory.take 49) <;>
  simp [TokenBurn.saveBurnRecord, JS.bind_apply, JS.modifySt_apply, JS.await_ok, JS.await_error,
    JS.emit_apply, hset]

/-- C29. `saveBurnRecord` hands `localStorage.setItem` the key 'tokenBurnHistory' and the very
list it has just set as the in-memory history. In every run, each storage write it makes has
that key and the in-memory history of the resulting state as its value; when `setItem` returns
there is exactly one such write and the call returns normally; when `setItem` throws, the error
leaves `saveBurnRecord` and nothing is written. -/
theorem C29_stored_history_is_the_history_set (env : Env) (s : TokenBurn.State) (record : BurnRecord)
    (w : World TokenBurn.State) :
    (∀ entry, entry ∈ storageWrites ((TokenBurn.saveBurnRecord env s record).exec w).log →
      entry ∈ storageWrites w.log ∨
        entry = ("tokenBurnHistory", ((TokenBurn.saveBurnRecord env s record).exec w).st.burnHistory)) ∧
    (env.storageSetItem "tokenBurnHistory" ((record :: s.burnHistory).take 50) = Except.ok () →
      (TokenBurn.saveBurnRecord env s record).result w = Outcome.ok () ∧
      storageWrites ((TokenBurn.saveBurnRecord env s record).exec w).log =
        storageWrites w.log ++
          [("tokenBurnHistory", ((TokenBurn.saveBurnRecord env s record).exec w).st.burnHistory)]) ∧
    (∀ e, env.storageSetItem "tokenBurnHistory" ((record :: s.burnHistory).take 50) = Except.error e →
      (TokenBurn.saveBurnRecord env s record).result w = Outcome.thrown e ∧
      storageWrites ((TokenBurn.saveBurnRecord env s record).exec w).log = storageWrites w.log) := by
  have h := burn_save_apply env s record w
  refine ⟨?_, ?_, ?_⟩
  · intro entry hentry
    cases hset : env.storageSetItem "tokenBurnHistory" ((record :: s.burnHistory).take 50) with
    | ok u =>
      rw [hset] at h
      simp only [JS.exec, h, storageWrites_append, storageWrites, List.mem_append, List.mem_singleton]
        at hentry ⊢
      exact hentry
    | error e =>
      rw [hset] at h
      simp only [JS.exec, h] at hentry
      exact Or.inl hentry
  · intro hset
    rw [hset] at h
    simp [JS.result, JS.exec, h, storageWrites_append, storageWrites]
  · intro e hset
    rw [hset] at h
    simp [JS.result, JS.exec, h]

/-- C29 at the sample environment: the record is written on top of one older record. -/
theorem C29_witness :
    storageWrites ((TokenBurn.saveBurnRecord Sample.env Sample.burnAllState Sample.burnRecord).exec
        (Sample.world Sample.burnAllState)).log =
      [("tokenBurnHistory", [Sample.burnRecord, Sample.olderRecord])] ∧
    ((TokenBurn.saveBurnRecord Sample.env Sample.burnAllState Sample.burnRecord).exec
        (Sample.world Sample.burnAllState)).st.burnHistory = [Sample.burnRecord, Sample.olderRecord] :=
  have h := (C29_stored_history_is_the_history_set Sample.env Sample.burnAllState Sample.burnRecord
    (Sample.world Sample.burnAllState)).2.1 rfl
  have hh : ((TokenBurn.saveBurnRecord Sample.env Sample.burnAllState Sample.burnRecord).exec
      (Sample.world Sample.burnAllState)).st.burnHistory = [Sample.burnRecord, Sample.olderRecord] := by
    decide
  ⟨by rw [h.2, hh]; rfl, hh⟩

/-! ## C30: codes that start with 0x1 -/

/-- A text that contains `middle` contains every part of `middle`. -/
theorem includes_of_part (text middle part : String) (hpart : includes middle part = true)
    (hmid : includes text middle = true) : includes text part = true := by
  have h1 : part.data <:+: middle.data := (includesChars_iff _ _).mp hpart
  have h2 : middle.data <:+: text.data := (includesChars_iff _ _).mp hmid
  exact (includesChars_iff _ _).mpr (h1.trans h2)

/-- C30. In the error mapping of `transferToken`, every message that contains '0x1' and does not
contain 'insufficient funds' is shown as the curated text for an insufficient balance or a
missing account. A message containing one of the codes 0x10 to 0x1f contains '0x1', so it is
mapped the same way. The mapped text is the status after the `catch` and `finally`. -/
theorem C30_transfer_maps_0x1_prefix_codes (m : String)
    (hfunds : includes m "insufficient funds" = false) :
    (includes m "0x1" = true → TokenTransfer.errorMessage m = "错误: 余额不足或账户不存在") ∧
    (∀ code, code ∈ ["0x10", "0x11", "0x12", "0x13", "0x14", "0x15", "0x16", "0x17", "0x18", "0x19",
        "0x1a", "0x1b", "0x1c", "0x1d", "0x1e", "0x1f"] →
      includes m code = true → TokenTransfer.errorMessage m = "错误: 余额不足或账户不存在") ∧
    (includes m "0x1" = true →
      ∀ env pk s w w1, TokenTransfer.transferTokenTry env pk s w = (Outcome.thrown m, w1) →
        ((JS.tryFinally (JS.tryCatch (TokenTransfer.transferTokenTry env pk s)
          (fun message => JS.setStatus (TokenTransfer.errorMessage message)))
          (JS.setLoading false)).exec w).status = "错误: 余额不足或账户不存在") := by
  have hmap : includes m "0x1" = true → TokenTransfer.errorMessage m = "错误: 余额不足或账户不存在" := by
    intro h
    simp [TokenTransfer.errorMessage, hfunds, h]
  refine ⟨hmap, ?_, ?_⟩
  · intro code hcode hm
    apply hmap
    refine includes_of_part m code "0x1" ?_ hm
    simp only [List.mem_cons, List.mem_singleton, List.not_mem_nil, or_false] at hcode
    rcases hcode with h | h | h | h | h | h | h | h | h | h | h | h | h | h | h | h <;> subst h <;> decide
  · intro h env pk s w w1 hthrown
    rw [JS.exec, JS.catch_shows _ _ m w w1 hthrown]
    exact hmap h

/-- C30 at the message of a frozen-account rejection (code 0x11). -/
theorem C30_witness :
    includes "Transaction simulation failed: custom program error: 0x11" "insufficient funds" = false ∧
    TokenTransfer.errorMessage "Transaction simulation failed: custom program error: 0x11" =
      "错误: 余额不足或账户不存在" :=
  ⟨by decide,
    (C30_transfer_maps_0x1_prefix_codes "Transaction simulation failed: custom program error: 0x11"
      (by decide)).2.1 "0x11" (by decide) (by decide)⟩

end BLT
